import Mathlib

/-!
# The heterogeneous-memory allocation layer of `src/util/util_base.c`

A shallow embedding of `use_sicm`, `util_malloc`, `util_free`,
`util_malloc_aligned` and `util_free_aligned`, and of the command-line
functions `strip_cmdline`, `strip_cmdline_int`, `_double`, `_string` and
`detect_old_style_arguments` of the same file.

* Pointers, sizes and addresses are natural numbers; `0` is `NULL`.  The data
  model is LP64: `size_t`, `unsigned long int` and pointers are 64 bits wide,
  and the arithmetic on them is reduced modulo `2 ^ 64` where the source can
  wrap.
* The primitives the source calls but does not define (`sicm_init`, `malloc`,
  `sicm_arena_create`, `sicm_arena_alloc`, `sicm_free`) are fields of a record
  `Sicm σ` over an arbitrary world state `σ`, so every theorem holds for every
  behaviour of these primitives.
* The function-local `static` variables of `use_sicm` are a record `Statics`
  that is passed in and out.
* `ERROR` terminates the process: it is the `fatal` outcome.  `WARNING` and
  `MESSAGE` only log; they are recorded as events.
* Every call of a primitive is recorded in an event log, so that "how often"
  and "on which device" are properties of the returned log.
* The functions `use_sicm`, `util_malloc` and `util_malloc_aligned` are total:
  a read of a catalog slot that holds no device yields `none`, and the heap is
  a total map.  The functions `use_sicm_run`, `util_malloc_run` and
  `util_malloc_aligned_run` are the same functions on the machine, where the
  dereference of such a slot and a store outside the raw block are undefined
  behaviour: the result `Run.undefined`.
-/

namespace Vpic

/-! ## Machine model -/

/-- Number of values of a `size_t` / `unsigned long int` / pointer. -/
def SIZE_MOD : Nat := 2 ^ 64

/-- The C expression `sizeof(char *)`, also `sizeof(struct sicm_device *)`. -/
def sizeof_ptr : Nat := 8

/-! ## The SICM library interface (`sicm_low.h`) -/

/-- Device tags of the SICM low-level interface.  The source names
`SICM_KNL_HBM` and `SICM_DRAM`; the other tags stand for the devices that
match no preference. -/
inductive sicm_device_tag
  | SICM_DRAM
  | SICM_KNL_HBM
  | SICM_POWERPC_HBM
  | SICM_OPTANE
  | INVALID_TAG
  deriving DecidableEq, Repr

/-- A discovered device: its tag and the NUMA node it stands for. -/
structure sicm_device where
  tag : sicm_device_tag
  node : Nat
  deriving DecidableEq, Repr

/-- The primitives `use_sicm` and the free functions call, over a world state
`σ`.  A returned pointer `0` is `NULL`.  `sicm_arena_create` receives the
device pointer it is handed: `some d` for a pointer to device `d`, `none` for
the content of a slot of `usable` that was never written. -/
structure Sicm (σ : Type) where
  sicm_init : σ → List sicm_device × σ
  malloc : σ → Nat → Nat × σ
  sicm_arena_create : σ → Option sicm_device → Nat × σ
  sicm_arena_alloc : σ → Nat → Nat → Nat × σ
  sicm_free : σ → Nat → σ

/-- Where the device argument of a `sicm_arena_create` call is read from:
`&devs.devices[d]` or `usable[i]`. -/
inductive DevArg
  | devices (d : Nat)
  | usable (i : Nat)
  deriving DecidableEq, Repr

/-- What a run does that is visible outside: calls of the primitives and the
log lines that read the catalog. -/
inductive Event
  | call_use_sicm (n : Nat)
  | sicm_init
  | malloc (size : Nat) (res : Nat)
  | arena_create (src : DevArg) (dev : Option sicm_device) (res : Nat)
  | arena_alloc (arena : Nat) (n : Nat) (res : Nat)
  | warn_old_arena (selected : Nat) (dev : Option sicm_device)
  | msg_new_arena (n : Nat) (selected : Nat)
  | msg_allocated (n : Nat) (selected : Nat) (dev : Option sicm_device)
  | warn_failed (n : Nat)
  | sicm_free (p : Nat)
  deriving DecidableEq, Repr

/-- The `ERROR` sites of the allocation layer, by source line. -/
inductive Fatal
  /-- line 177: "Unable to allocate space for keeping track of usable devices" -/
  | no_space_for_usable
  /-- line 192: "Unable to find any devices with the given preferences" -/
  | no_preferred_device
  /-- line 250: `util_malloc` with a null `mem_ref` -/
  | malloc_bad_ref
  /-- line 257: `util_malloc`, the allocation failed -/
  | malloc_failed
  /-- line 284: `util_malloc_aligned`, null `mem_ref` or invalid alignment -/
  | aligned_bad_args
  /-- line 304: `util_malloc_aligned`, the allocation failed -/
  | aligned_failed
  deriving DecidableEq, Repr

/-- Modelled from the spec: the macros `ERROR`, `WARNING` and `MESSAGE` of
`util_base.h` are not among the sources.  By the spec (section 6) `fatal`
logs and terminates the process and never returns, while `warn` logs and
execution continues.  So the result of running a function is either `fatal`,
the process was terminated by the `ERROR` of the given site after the events
`log`, or `ret`, the function returned `val` in state `s` after the events
`log`. -/
inductive Outcome (S α : Type)
  | fatal (e : Fatal) (log : List Event)
  | ret (val : α) (s : S) (log : List Event)

/-! ## `use_sicm` -/

/-- The `static` locals of `use_sicm`.  `usable = none` is the null pointer
before initialisation; afterwards it holds the `devs.count` slots of the
allocated array, a slot being `none` while it has not been written. -/
structure Statics where
  devs : List sicm_device
  usable : Option (List (Option sicm_device))
  usable_count : Nat
  selected : Nat
  arena : Nat

/-- The initial values of the `static` locals. -/
def Statics.initial : Statics :=
  { devs := [], usable := none, usable_count := 0, selected := 0, arena := 0 }

/-- The statics of `use_sicm` together with the world of the primitives. -/
structure Tiered (σ : Type) where
  st : Statics
  w : σ

/-- The array `preferences` of line 173. -/
def preferences : List sicm_device_tag :=
  [sicm_device_tag.SICM_KNL_HBM, sicm_device_tag.SICM_DRAM]

/-- The read `usable[k]`: the slot's content, `none` for a slot that was not
written or lies outside the array. -/
def usable_at (usable : List (Option sicm_device)) (k : Nat) : Option sicm_device :=
  (usable.get? k).join

/-- Body of the inner loop of lines 183-188 at device index `d` for the
preference `pref`: `usable[d] = &devs.devices[d]; usable_count++` when the tag
matches. -/
def store_usable_dev (devs : List sicm_device) (pref : sicm_device_tag)
    (acc : List (Option sicm_device) × Nat) (d : Nat) : List (Option sicm_device) × Nat :=
  match devs.get? d with
  | some dev => if dev.tag = pref then (acc.1.set d (some dev), acc.2 + 1) else acc
  | none => acc

/-- The two nested loops of lines 181-189, started on the array `usable` with
`usable_count = 0`: the final array and the final `usable_count`. -/
def store_usable (devs : List sicm_device) (prefs : List sicm_device_tag)
    (usable : List (Option sicm_device)) : List (Option sicm_device) × Nat :=
  prefs.foldl
    (fun acc p => (List.range devs.length).foldl (store_usable_dev devs p) acc)
    (usable, 0)

/-- The block `if (!usable) { ... }` of lines 169-197. -/
def use_sicm_init {σ : Type} (E : Sicm σ) (s : Tiered σ) : Outcome (Tiered σ) Unit :=
  match s.st.usable with
  | some _ => Outcome.ret () s []
  | none =>
    let r := E.sicm_init s.w
    let devs := r.1
    let size := (devs.length * sizeof_ptr) % SIZE_MOD
    let m := E.malloc r.2 size
    if m.1 = 0 then
      Outcome.fatal Fatal.no_space_for_usable [Event.sicm_init, Event.malloc size m.1]
    else
      let cat := store_usable devs preferences (List.replicate devs.length none)
      if cat.2 = 0 then
        Outcome.fatal Fatal.no_preferred_device [Event.sicm_init, Event.malloc size m.1]
      else
        let c := E.sicm_arena_create m.2 (devs.get? 0)
        Outcome.ret ()
          { st := { devs := devs, usable := some cat.1, usable_count := cat.2,
                    selected := 0, arena := c.1 },
            w := c.2 }
          [Event.sicm_init, Event.malloc size m.1,
           Event.arena_create (DevArg.devices 0) (devs.get? 0) c.1]

/-- State of the fallback loop when it is left: the loop counter `i`, the
pointer `ptr`, the statics `arena` and `selected`, the world, and the events
of the loop. -/
structure LoopExit (σ : Type) where
  i : Nat
  ptr : Nat
  arena : Nat
  selected : Nat
  w : σ
  log : List Event

/-- The loop `for(; i < usable_count; i++)` of lines 209-219.  The first
argument is the number `usable_count - i` of iterations that are left, so the
test `i < usable_count` is the test that it is not zero.  On entry `ptr` is
null. -/
def fallback_loop {σ : Type} (E : Sicm σ) (usable : List (Option sicm_device)) (n : Nat) :
    Nat → Nat → Nat → Nat → σ → LoopExit σ
  | 0, i, arena, selected, w =>
    { i := i, ptr := 0, arena := arena, selected := selected, w := w, log := [] }
  | k + 1, i, _, selected, w =>
    let dev := usable_at usable i
    let c := E.sicm_arena_create w dev
    if c.1 = 0 then
      let x := fallback_loop E usable n k (i + 1) c.1 selected c.2
      { x with log := Event.arena_create (DevArg.usable i) dev c.1 :: x.log }
    else
      let p := E.sicm_arena_alloc c.2 c.1 n
      if p.1 = 0 then
        let x := fallback_loop E usable n k (i + 1) c.1 selected p.2
        { x with log := Event.arena_create (DevArg.usable i) dev c.1 ::
                        Event.arena_alloc c.1 n p.1 :: x.log }
      else
        { i := i, ptr := p.1, arena := c.1, selected := i, w := p.2,
          log := [Event.arena_create (DevArg.usable i) dev c.1,
                  Event.arena_alloc c.1 n p.1, Event.msg_new_arena n i] }

/-- Lines 203-237 of `use_sicm`, run on initialised statics: the returned
pointer, the new state and the events.  The reads `usable[selected]` of lines
205 and 231 are total here (`usable_at`) and are recorded in the events; what
the dereference of a slot without a device does on the machine is the matter
of `use_sicm_run`. -/
def use_sicm_alloc {σ : Type} (E : Sicm σ) (s : Tiered σ) (n : Nat) :
    Nat × Tiered σ × List Event :=
  let usable := s.st.usable.getD []
  let r := E.sicm_arena_alloc s.w s.st.arena n
  if r.1 = 0 then
    let x := fallback_loop E usable n (s.st.usable_count - s.st.selected)
      s.st.selected s.st.arena s.st.selected r.2
    let st1 : Statics :=
      if x.i = s.st.usable_count then
        { s.st with selected := s.st.usable_count, arena := 0 }
      else
        { s.st with selected := x.selected, arena := x.arena }
    (x.ptr, { st := st1, w := x.w },
      Event.arena_alloc s.st.arena n r.1 ::
      Event.warn_old_arena s.st.selected (usable_at usable s.st.selected) ::
      (x.log ++
        [if x.ptr = 0 then Event.warn_failed n
         else Event.msg_allocated n st1.selected (usable_at usable st1.selected)]))
  else
    (r.1, { st := s.st, w := r.2 },
      [Event.arena_alloc s.st.arena n r.1,
       Event.msg_allocated n s.st.selected (usable_at usable s.st.selected)])

/-- The function `use_sicm` (lines 161-238). -/
def use_sicm {σ : Type} (E : Sicm σ) (s : Tiered σ) (n : Nat) : Outcome (Tiered σ) Nat :=
  match use_sicm_init E s with
  | Outcome.fatal e log => Outcome.fatal e (Event.call_use_sicm n :: log)
  | Outcome.ret _ s1 log1 =>
    let r := use_sicm_alloc E s1 n
    Outcome.ret r.1 r.2.1 (Event.call_use_sicm n :: (log1 ++ r.2.2))

/-! ## `util_malloc`, `util_free`, `util_malloc_aligned`, `util_free_aligned`

The argument `mem_ref` points to a cell of the caller that holds a `char *`.
It is modelled by `Option Nat`: `none` is a null `mem_ref`, `some v` is a
reference to a cell that holds `v` when the function is entered.  A function
returns the content of the cell when it is left.  The cell is storage of the
caller; the header word that `util_malloc_aligned` writes lies in the heap
`heap`, a map from the address of a pointer-sized word to the word. -/

/-- State of the allocation layer: the tiered allocator and the heap words. -/
structure Prog (σ : Type) where
  t : Tiered σ
  heap : Nat → Nat

/-- The function `util_malloc` (lines 240-259).  The value returned is the
content of `*mem_ref` on return. -/
def util_malloc {σ : Type} (E : Sicm σ) (s : Prog σ) (mem_ref : Option Nat) (n : Nat) :
    Outcome (Prog σ) Nat :=
  match mem_ref with
  | none => Outcome.fatal Fatal.malloc_bad_ref []
  | some _ =>
    if n = 0 then Outcome.ret 0 s []
    else
      match use_sicm E s.t n with
      | Outcome.fatal e log => Outcome.fatal e log
      | Outcome.ret mem t log =>
        if mem = 0 then Outcome.fatal Fatal.malloc_failed log
        else Outcome.ret mem { s with t := t } log

/-- The function `util_free` (lines 261-268): the content of `*mem_ref` on
return (`none` when there is no cell), the new state and the events. -/
def util_free {σ : Type} (E : Sicm σ) (s : Prog σ) (mem_ref : Option Nat) :
    Option Nat × Prog σ × List Event :=
  match mem_ref with
  | none => (none, s, [])
  | some mem =>
    if mem = 0 then (some 0, s, [])
    else
      (some 0, { s with t := { s.t with w := E.sicm_free s.t.w mem } }, [Event.sicm_free mem])

/-- The C expression `~a` on an `unsigned long int`. -/
def bnot (a : Nat) : Nat := SIZE_MOD - 1 - a % SIZE_MOD

/-- The mask `a` after lines 295-298: `if (a < 16) a = 16; a--;`. -/
def align_mask (a : Nat) : Nat := (if a < 16 then 16 else a) - 1

/-- The size handed to `use_sicm` on line 301, `n + a + sizeof(char *)` in
`size_t` arithmetic, for the mask `a`. -/
def raw_size (n mask : Nat) : Nat := (n + mask + sizeof_ptr) % SIZE_MOD

/-- The address `mem_a` of lines 308-310 for the raw address `mem_u` and the
mask `a`. -/
def aligned_addr (mem_u mask : Nat) : Nat :=
  ((mem_u + mask + sizeof_ptr) % SIZE_MOD) &&& bnot mask

/-- The address `mem_a - sizeof(char *)` of the header word (lines 312, 325). -/
def header_addr (mem_a : Nat) : Nat := (mem_a + SIZE_MOD - sizeof_ptr) % SIZE_MOD

/-- The function `util_malloc_aligned` (lines 270-317).  The value returned
is the content of `*mem_ref` on return.  The store of line 314 is an update of
a total heap here; `util_malloc_aligned_run` is the function on the machine,
where that store is defined only inside the raw block. -/
def util_malloc_aligned {σ : Type} (E : Sicm σ) (s : Prog σ) (mem_ref : Option Nat)
    (n a : Nat) : Outcome (Prog σ) Nat :=
  if mem_ref = none ∨ a = 0 ∨ a &&& (a - 1) ≠ 0 then
    Outcome.fatal Fatal.aligned_bad_args []
  else if n = 0 then Outcome.ret 0 s []
  else
    match use_sicm E s.t (raw_size n (align_mask a)) with
    | Outcome.fatal e log => Outcome.fatal e log
    | Outcome.ret mem_u t log =>
      if mem_u = 0 then Outcome.fatal Fatal.aligned_failed log
      else
        let mem_a := aligned_addr mem_u (align_mask a)
        Outcome.ret mem_a
          { t := t, heap := Function.update s.heap (header_addr mem_a) mem_u } log

/-- The function `util_free_aligned` (lines 319-330): the content of
`*mem_ref` on return (`none` when there is no cell), the new state and the
events. -/
def util_free_aligned {σ : Type} (E : Sicm σ) (s : Prog σ) (mem_ref : Option Nat) :
    Option Nat × Prog σ × List Event :=
  match mem_ref with
  | none => (none, s, [])
  | some mem_a =>
    if mem_a = 0 then (some 0, s, [])
    else
      let mem_u := s.heap (header_addr mem_a)
      (some 0, { s with t := { s.t with w := E.sicm_free s.t.w mem_u } },
        [Event.sicm_free mem_u])

/-! ## Sequences of calls -/

/-- Record of one call of `use_sicm` that returned: the state it was entered
in, the size, the pointer returned, the state it left and its events. -/
structure CallRec (σ : Type) where
  pre : Tiered σ
  n : Nat
  ptr : Nat
  post : Tiered σ
  log : List Event

/-- The calls `use_sicm(n)` for the sizes `n` of the list, one after the other
from the state `s`.  A call that terminates the process ends the sequence. -/
def use_sicm_calls {σ : Type} (E : Sicm σ) : Tiered σ → List Nat → List (CallRec σ)
  | _, [] => []
  | s, n :: ns =>
    match use_sicm E s n with
    | Outcome.fatal _ _ => []
    | Outcome.ret p s1 log =>
      { pre := s, n := n, ptr := p, post := s1, log := log } :: use_sicm_calls E s1 ns

/-- A state in which `use_sicm` can be entered: before initialisation
`selected` still has its initial value `0`. -/
def Entered (st : Statics) : Prop := st.usable = none → st.selected = 0

/-! ## A scripted world

A concrete instance of the primitives, used to run the functions on explicit
inputs.  The world holds the discovered devices and, for `malloc`,
`sicm_arena_create` and `sicm_arena_alloc`, the results of the calls still to
come (a call takes the head; an empty script answers `NULL`).  Allocation
from a null arena fails. -/

/-- World of the scripted primitives. -/
structure Script where
  devices : List sicm_device
  mallocs : List Nat
  creates : List Nat
  allocs : List Nat
  deriving DecidableEq, Repr

/-- The scripted primitives. -/
def scripted : Sicm Script where
  sicm_init w := (w.devices, w)
  malloc w _ := (w.mallocs.headD 0, { w with mallocs := w.mallocs.tail })
  sicm_arena_create w _ := (w.creates.headD 0, { w with creates := w.creates.tail })
  sicm_arena_alloc w arena _ :=
    if arena = 0 then (0, w) else (w.allocs.headD 0, { w with allocs := w.allocs.tail })
  sicm_free w _ := w

/-- The state of the allocation layer before the first call, in world `w`. -/
def Prog.start {σ : Type} (w : σ) : Prog σ :=
  { t := { st := Statics.initial, w := w }, heap := fun _ => 0 }

/-- A fast-tier device on node `k`. -/
def hbm (k : Nat) : sicm_device := { tag := sicm_device_tag.SICM_KNL_HBM, node := k }

/-- A general-tier device on node `k`. -/
def dram (k : Nat) : sicm_device := { tag := sicm_device_tag.SICM_DRAM, node := k }

/-- A device on node `k` that matches no preference. -/
def optane (k : Nat) : sicm_device := { tag := sicm_device_tag.SICM_OPTANE, node := k }

/-- A world with the one fast-tier device `hbm 0`, in which the catalog buffer
and the first arena are obtained and the first allocation yields `4104`. -/
def one_hbm : Script :=
  { devices := [hbm 0], mallocs := [8], creates := [1], allocs := [4104] }

/-- A world with the one fast-tier device `hbm 0` whose first arena hands out a
block that ends one byte below the top of the address space: the address
`2 ^ 64 - 23`, for a request of 22 bytes. -/
def top_block : Script :=
  { devices := [hbm 0], mallocs := [8], creates := [1], allocs := [18446744073709551593] }

/-- A world whose only device matches no preference. -/
def one_optane : Script :=
  { devices := [optane 0], mallocs := [8], creates := [1], allocs := [4104] }

/-- The world of three preferred devices `A = hbm 0`, `B = hbm 1`,
`C = dram 2` with the given scripts for `sicm_arena_create` and
`sicm_arena_alloc`. -/
def abc_world (creates allocs : List Nat) : Script :=
  { devices := [hbm 0, hbm 1, dram 2], mallocs := [], creates := creates, allocs := allocs }

/-- The world before the first call: the catalog buffer is obtained, the
initial arena on `A` is created (`1`) but does not allocate, a new arena on
`A` cannot be created, the arena on `B` is created (`2`) and allocates. -/
def abc : Script :=
  { devices := [hbm 0, hbm 1, dram 2], mallocs := [24], creates := [1, 0, 2],
    allocs := [0, 4096, 8192] }

/-- The statics after initialisation in the world `abc`: catalog `[A, B, C]`,
sticky index `0`, initial arena `1`. -/
def abc_ready : Tiered Script :=
  { st := { devs := [hbm 0, hbm 1, dram 2],
            usable := some [some (hbm 0), some (hbm 1), some (dram 2)],
            usable_count := 3, selected := 0, arena := 1 },
    w := abc_world [0, 2] [0, 4096, 8192] }

/-- The first call `use_sicm(64)` in the world `abc`. -/
def abc_first_call : CallRec Script :=
  { pre := { st := Statics.initial, w := abc },
    n := 64,
    ptr := 4096,
    post := { st := { devs := [hbm 0, hbm 1, dram 2],
                      usable := some [some (hbm 0), some (hbm 1), some (dram 2)],
                      usable_count := 3, selected := 1, arena := 2 },
              w := abc_world [] [8192] },
    log := [Event.call_use_sicm 64, Event.sicm_init, Event.malloc 24 24,
            Event.arena_create (DevArg.devices 0) (some (hbm 0)) 1,
            Event.arena_alloc 1 64 0,
            Event.warn_old_arena 0 (some (hbm 0)),
            Event.arena_create (DevArg.usable 0) (some (hbm 0)) 0,
            Event.arena_create (DevArg.usable 1) (some (hbm 1)) 2,
            Event.arena_alloc 2 64 4096,
            Event.msg_new_arena 64 1,
            Event.msg_allocated 64 1 (some (hbm 1))] }

/-- An exhausted state over the one device `hbm 0`: `selected = usable_count`
and no arena, in a world whose primitives would still answer. -/
def spent : Tiered Script :=
  { st := { devs := [hbm 0], usable := some [some (hbm 0)], usable_count := 1,
            selected := 1, arena := 0 },
    w := { devices := [hbm 0], mallocs := [], creates := [7], allocs := [4096] } }

/-- A world that discovers a general-tier device before a fast-tier one. -/
def dram_hbm : Script :=
  { devices := [dram 0, hbm 1], mallocs := [16], creates := [1], allocs := [4096] }

/-- A world whose only device matches no preference and whose `malloc` returns
null. -/
def no_buffer : Script :=
  { devices := [optane 0], mallocs := [], creates := [1], allocs := [4104] }

/-- The catalog in the words of the specification: the devices whose tag is
in the preference list, in rank order, in discovery order within one tag; the
concatenation over the preferences `p` of the devices filtered by
`tag == p`. -/
def catalog_by_rank (devs : List sicm_device) : List sicm_device :=
  preferences.flatMap (fun p => devs.filter (fun d => decide (d.tag = p)))

/-- The statics after initialisation over `[A, B, C]`, in a world whose
current arena `1` allocates `4096`. -/
def fast_ready : Tiered Script :=
  { st := { devs := [hbm 0, hbm 1, dram 2],
            usable := some [some (hbm 0), some (hbm 1), some (dram 2)],
            usable_count := 3, selected := 0, arena := 1 },
    w := abc_world [5] [4096] }

/-! ## The fallback scan in the words of the specification

One try of a catalog index: create a new arena on `usable[i]`; when that
succeeds, allocate `n` from the new arena. -/

/-- Result of the try of one index: the new arena (null when the creation
failed), the pointer (null when the creation or the allocation failed), the
world afterwards and the calls made. -/
structure Probe (σ : Type) where
  arena : Nat
  ptr : Nat
  w : σ
  log : List Event

/-- The try of index `i` in world `w`.  When the creation fails no allocation
is attempted. -/
def probe {σ : Type} (E : Sicm σ) (usable : List (Option sicm_device)) (n i : Nat) (w : σ) :
    Probe σ :=
  if (E.sicm_arena_create w (usable_at usable i)).1 = 0 then
    { arena := 0, ptr := 0, w := (E.sicm_arena_create w (usable_at usable i)).2,
      log := [Event.arena_create (DevArg.usable i) (usable_at usable i) 0] }
  else
    { arena := (E.sicm_arena_create w (usable_at usable i)).1,
      ptr := (E.sicm_arena_alloc (E.sicm_arena_create w (usable_at usable i)).2
        (E.sicm_arena_create w (usable_at usable i)).1 n).1,
      w := (E.sicm_arena_alloc (E.sicm_arena_create w (usable_at usable i)).2
        (E.sicm_arena_create w (usable_at usable i)).1 n).2,
      log := [Event.arena_create (DevArg.usable i) (usable_at usable i)
                (E.sicm_arena_create w (usable_at usable i)).1,
              Event.arena_alloc (E.sicm_arena_create w (usable_at usable i)).1 n
                (E.sicm_arena_alloc (E.sicm_arena_create w (usable_at usable i)).2
                  (E.sicm_arena_create w (usable_at usable i)).1 n).1] }

/-- The world after the tries of the `j` indices `i, i+1, ..., i+j-1`, started
in world `w`. -/
def world_after {σ : Type} (E : Sicm σ) (usable : List (Option sicm_device)) (n : Nat) :
    Nat → Nat → σ → σ
  | 0, _, w => w
  | j + 1, i, w => world_after E usable n j (i + 1) (probe E usable n i w).w

/-- The calls made by the tries of the `j` indices `i, i+1, ..., i+j-1`,
started in world `w`. -/
def probes_log {σ : Type} (E : Sicm σ) (usable : List (Option sicm_device)) (n : Nat) :
    Nat → Nat → σ → List Event
  | 0, _, _ => []
  | j + 1, i, w =>
    (probe E usable n i w).log ++ probes_log E usable n j (i + 1) (probe E usable n i w).w

/-- The try of index `i + j`, after the tries of `i, ..., i+j-1` started in
world `w`, succeeds: creation and allocation both do. -/
def hit {σ : Type} (E : Sicm σ) (usable : List (Option sicm_device)) (n i : Nat) (w : σ)
    (j : Nat) : Prop :=
  (probe E usable n (i + j) (world_after E usable n j i w)).ptr ≠ 0

/-- The statics after initialisation over `[A, B, C]` with the initial arena
`1`, in a world in which no arena can be created and nothing is allocated. -/
def dry_ready : Tiered Script :=
  { st := { devs := [hbm 0, hbm 1, dram 2],
            usable := some [some (hbm 0), some (hbm 1), some (dram 2)],
            usable_count := 3, selected := 0, arena := 1 },
    w := abc_world [] [] }

/-- A world that discovers a device matching no preference before a
general-tier device; the initial arena allocates. -/
def optane_dram : Script :=
  { devices := [optane 0, dram 1], mallocs := [16], creates := [1], allocs := [4096] }

/-- The world `optane_dram` with an initial arena that does not allocate and a
second arena that does. -/
def optane_dram_miss : Script :=
  { devices := [optane 0, dram 1], mallocs := [16], creates := [1, 2], allocs := [0, 4096] }

/-! ## Command-line stripping (lines 21-51)

The array `*pargv` is a map from the index of a slot to its content: a
pointer to a string (`some s`) or `NULL` (`none`).  The counters `i`, `n` and
`val` are `int`s that stay within `0 .. argc + 1`. -/

/-- The array `*pargv`. -/
abbrev Argv := Nat → Option String

/-- The test `strcmp(arg, key) != 0` of lines 29 and 41. -/
def strcmp_ne (arg : Option String) (key : String) : Bool := arg != some key

/-- The loop `for( i=0; i<(*pargc); i++ )` of lines 40-42 from the counter
`i` on.  The first argument is the number `argc - i` of iterations that are
left.  The result is `n`, `val` and the array. -/
def strip_cmdline_loop (key : String) : Nat → Nat → Nat → Nat → Argv → Nat × Nat × Argv
  | 0, _, n, val, argv => (n, val, argv)
  | k + 1, i, n, val, argv =>
    if strcmp_ne (argv i) key then
      strip_cmdline_loop key k (i + 1) (n + 1) val (Function.update argv n (argv i))
    else
      strip_cmdline_loop key k (i + 1) n (val + 1) argv

/-- The function `strip_cmdline` (lines 35-45): the value returned, the new
`*pargc` and the new array. -/
def strip_cmdline (argc : Nat) (argv : Argv) (key : String) : Nat × Nat × Argv :=
  let r := strip_cmdline_loop key argc 0 0 0 argv
  (r.2.1, r.1, Function.update r.2.2 r.1 none)

/-- The loop of lines 28-30 of the body that `STRIP_CMDLINE` generates, from
the counter `i` on.  The first argument is the number `argc - i` of indices
that are left; after a key the test `(++i) < argc` is the test that one more
index is left, and when it fails the loop ends. -/
def STRIP_CMDLINE_loop {T : Type} (convert : Option String → T) (key : String) :
    Nat → Nat → Nat → T → Argv → Nat × T × Argv
  | 0, _, n, val, argv => (n, val, argv)
  | k + 1, i, n, val, argv =>
    if strcmp_ne (argv i) key then
      STRIP_CMDLINE_loop convert key k (i + 1) (n + 1) val (Function.update argv n (argv i))
    else
      match k with
      | 0 => (n, val, argv)
      | k1 + 1 => STRIP_CMDLINE_loop convert key k1 (i + 2) n (convert (argv (i + 1))) argv

/-- The function body that the macro `STRIP_CMDLINE( what, T, convert )`
generates (lines 21-33): the value returned, the new `*pargc` and the new
array.  `convert` receives the pointer `(*pargv)[i]`. -/
def STRIP_CMDLINE {T : Type} (convert : Option String → T) (argc : Nat) (argv : Argv)
    (key : String) (val : T) : T × Nat × Argv :=
  let r := STRIP_CMDLINE_loop convert key argc 0 0 val argv
  (r.2.1, r.1, Function.update r.2.2 r.1 none)

/-- The function `strip_cmdline_int` (line 47), over the library function
`atoi`. -/
def strip_cmdline_int (atoi : Option String → Int) (argc : Nat) (argv : Argv) (key : String)
    (val : Int) : Int × Nat × Argv :=
  STRIP_CMDLINE atoi argc argv key val

/-- The function `strip_cmdline_double` (line 48), over the type `D` of a
`double` and the library function `atof`. -/
def strip_cmdline_double {D : Type} (atof : Option String → D) (argc : Nat) (argv : Argv)
    (key : String) (val : D) : D × Nat × Argv :=
  STRIP_CMDLINE atof argc argv key val

/-- The function `strip_cmdline_string` (line 49): the conversion is empty, the
value is the pointer itself. -/
def strip_cmdline_string (argc : Nat) (argv : Argv) (key : String) (val : Option String) :
    Option String × Nat × Argv :=
  STRIP_CMDLINE (fun p => p) argc argv key val

/-- The array `argv` holds the arguments `args` in its first `args.length`
slots. -/
def Holds (argv : Argv) (args : List String) : Prop :=
  ∀ j, j < args.length → argv j = args.get? j

/-- The scan of the value-stripping functions in words: from left to right,
an argument equal to `key` is dropped and, if an argument follows, that one is
consumed as the value (converted) and dropped as well; every other argument is
kept.  The result is the kept arguments and the value. -/
def strip_scan {T : Type} (convert : Option String → T) (key : String) :
    List String → T → List String × T
  | [], val => ([], val)
  | [x], val => if x = key then ([], val) else ([x], val)
  | x :: v :: rest, val =>
    if x = key then strip_scan convert key rest (convert (some v))
    else ((x :: (strip_scan convert key (v :: rest) val).1),
      (strip_scan convert key (v :: rest) val).2)

/-- An array that holds the arguments `args`, then `NULL`. -/
def argv_of (args : List String) : Argv := fun j => args.get? j

/-- Arguments of a run: the key `--tpp` with a value and once more at the
end. -/
def demo_args : List String := ["vpic", "--tpp", "4", "deck", "--tpp"]

/-- The scan of `xs` ends at the end of `xs`: no key is left at the end
waiting for a value. -/
def aligned (key : String) : List String → Bool
  | [] => true
  | [x] => x != key
  | x :: v :: rest => if x = key then aligned key rest else aligned key (v :: rest)

/-! ## `detect_old_style_arguments` (lines 55-159)

Strings are sequences of one-byte characters; the length of a string is the
`strlen` of the C string. -/

/-- The function `string_starts_with` (lines 55-60). -/
def string_starts_with (str pre : String) : Bool :=
  if str.length < pre.length then false
  else pre.toList == str.toList.take pre.length

/-- The function `string_contains` (lines 62-75): `strstr` finds `substr`. -/
def string_contains (str substr : String) : Bool :=
  str.toList.tails.any (fun t => substr.toList == t.take substr.length)

/-- The function `string_matches` (lines 77-85). -/
def string_matches (str m : String) : Bool := str == m

/-- The array `prefix_keys` of lines 100-101. -/
def prefix_keys : List String := ["-tpp", "-restore"]

/-- The array `match_keys` of line 103. -/
def match_keys : List String := ["restart"]

/-- The size of each of the two buffers `char output_message[64]`. -/
def output_message_size : Nat := 64

/-- What `sprintf` produces for the format of line 119 and the argument
`key`: `%1$s` is the first argument at both places. -/
def prefix_message (key : String) : String :=
  "Aborting. Single dashed flag " ++ key ++ " is invalid (needs \x27-" ++ key ++ "\x27)."

/-- What `sprintf` produces for the format of line 137 and the argument
`key`. -/
def match_message (key : String) : String := "Old Argument Syntax Detected: " ++ key

/-- The number of bytes `sprintf` writes for the output `msg`: its characters
and the terminating NUL. -/
def sprintf_size (msg : String) : Nat := msg.length + 1

/-- An `ERROR` of `detect_old_style_arguments`: the message and the number of
bytes that `sprintf` wrote into `output_message`. -/
structure Abort where
  message : String
  written : Nat
  deriving DecidableEq, Repr

/-- The loop over `prefix_keys` of lines 111-126 for the argument `arg`, from
the key list `keys` on: the first key that `arg` starts with ends the run. -/
def detect_prefix (arg : String) : List String → Option Abort
  | [] => none
  | key :: keys =>
    if string_starts_with arg key then
      some { message := prefix_message key, written := sprintf_size (prefix_message key) }
    else detect_prefix arg keys

/-- The loop over `match_keys` of lines 129-144 for the argument `arg`. -/
def detect_match (arg : String) : List String → Option Abort
  | [] => none
  | key :: keys =>
    if string_matches arg key then
      some { message := match_message key, written := sprintf_size (match_message key) }
    else detect_match arg keys

/-- Result of `detect_old_style_arguments`: the run was ended by an `ERROR`, or
it returned; in both cases after `warnings` warnings about an `=`. -/
inductive Detected
  | aborted (a : Abort) (warnings : Nat)
  | passed (warnings : Nat)
  deriving DecidableEq, Repr

/-- The function `detect_old_style_arguments` (lines 87-159) on the arguments
`args`, after `warnings` warnings. -/
def detect_from : List String → Nat → Detected
  | [], warnings => Detected.passed warnings
  | arg :: args, warnings =>
    match detect_prefix arg prefix_keys with
    | some a => Detected.aborted a warnings
    | none =>
      match detect_match arg match_keys with
      | some a => Detected.aborted a warnings
      | none => detect_from args (if string_contains arg "=" then warnings + 5 else warnings)

/-- The function `detect_old_style_arguments` (lines 87-159). -/
def detect_old_style_arguments (args : List String) : Detected := detect_from args 0

/-- The state that the exhausting call in `dry_ready` leaves. -/
def dry_spent : Tiered Script :=
  { st := { devs := [hbm 0, hbm 1, dram 2],
            usable := some [some (hbm 0), some (hbm 1), some (dram 2)],
            usable_count := 3, selected := 3, arena := 0 },
    w := abc_world [] [] }

/-! ## Runs on the machine

`use_sicm_alloc` reads a catalog slot with the total read `usable_at`: a slot
that was never written, or that lies outside the array, reads as `none` and
the function carries on.  `util_malloc_aligned` stores the header word by an
update of a total heap.  On the machine the first is the dereference of an
invalid pointer (`usable[selected]->tag` on lines 205 and 231, `usable[i]`
handed to `sicm_arena_create` on line 210), and the second is a store outside
the raw block whenever the header word does not lie in it.  From that point on
the behaviour of the code is undefined; in practice the process is killed.  A
`Run` has the third result `undefined` for this, with the events up to the
invalid access. -/

/-- Why the behaviour of a run is undefined. -/
inductive Fault
  /-- lines 205, 210, 231: the content of a catalog slot that was never
  written, or that lies outside the array, is dereferenced -/
  | invalid_pointer
  /-- line 314: the header word at `addr` does not lie in the raw block -/
  | store_outside_block (addr : Nat)
  deriving DecidableEq, Repr

/-- The result of running a function on the machine: as `Outcome`, with the
additional result `undefined`: an invalid memory access after the events
`log`.  For `invalid_pointer` the last event of `log` is the access. -/
inductive Run (S α : Type)
  | fatal (e : Fatal) (log : List Event)
  | undefined (f : Fault) (log : List Event)
  | ret (val : α) (s : S) (log : List Event)

/-- The event dereferences the content of a catalog slot that holds no device:
`usable[selected]->tag` in the warning of line 205 or the report of line 231,
or `usable[i]` handed to `sicm_arena_create` on line 210. -/
def Event.invalid : Event → Bool
  | Event.arena_create (DevArg.usable _) none _ => true
  | Event.warn_old_arena _ none => true
  | Event.msg_allocated _ _ none => true
  | _ => false

/-- The events of a log up to and including the first invalid one. -/
def cut_at_invalid : List Event → List Event
  | [] => []
  | e :: es => if e.invalid then [e] else e :: cut_at_invalid es

/-- The run on the machine that belongs to an outcome of the total model: the
same result when no event is an invalid access, and otherwise `undefined` at
the first invalid access. -/
def Outcome.run {S α : Type} : Outcome S α → Run S α
  | Outcome.fatal e log =>
    if log.any Event.invalid then Run.undefined Fault.invalid_pointer (cut_at_invalid log)
    else Run.fatal e log
  | Outcome.ret val s log =>
    if log.any Event.invalid then Run.undefined Fault.invalid_pointer (cut_at_invalid log)
    else Run.ret val s log

/-- The function `use_sicm` (lines 161-238) on the machine. -/
def use_sicm_run {σ : Type} (E : Sicm σ) (s : Tiered σ) (n : Nat) : Run (Tiered σ) Nat :=
  (use_sicm E s n).run

/-- The function `util_malloc` (lines 240-259) on the machine. -/
def util_malloc_run {σ : Type} (E : Sicm σ) (s : Prog σ) (mem_ref : Option Nat) (n : Nat) :
    Run (Prog σ) Nat :=
  match mem_ref with
  | none => Run.fatal Fatal.malloc_bad_ref []
  | some _ =>
    if n = 0 then Run.ret 0 s []
    else
      match use_sicm_run E s.t n with
      | Run.fatal e log => Run.fatal e log
      | Run.undefined f log => Run.undefined f log
      | Run.ret mem t log =>
        if mem = 0 then Run.fatal Fatal.malloc_failed log
        else Run.ret mem { s with t := t } log

/-- The pointer-sized word at `addr` lies in the block of `size` bytes that
starts at `mem_u`.  The bytes of a block and the address one past its last
byte are addresses, so `mem_u + size < 2 ^ 64`. -/
def in_block (mem_u size addr : Nat) : Bool :=
  decide (mem_u ≤ addr ∧ addr + sizeof_ptr ≤ mem_u + size ∧ mem_u + size < SIZE_MOD)

/-- The function `util_malloc_aligned` (lines 270-317) on the machine.  The
raw block is the `n + a + sizeof(char *)` bytes (in `size_t` arithmetic) that
`use_sicm` was asked for, at the address `mem_u` it returned; the store
`mem_p[0] = mem_u` of line 314 is defined when the word at
`mem_a - sizeof(char *)` lies in that block.  Line 316 is reached after the
store. -/
def util_malloc_aligned_run {σ : Type} (E : Sicm σ) (s : Prog σ) (mem_ref : Option Nat)
    (n a : Nat) : Run (Prog σ) Nat :=
  if mem_ref = none ∨ a = 0 ∨ a &&& (a - 1) ≠ 0 then
    Run.fatal Fatal.aligned_bad_args []
  else if n = 0 then Run.ret 0 s []
  else
    match use_sicm_run E s.t (raw_size n (align_mask a)) with
    | Run.fatal e log => Run.fatal e log
    | Run.undefined f log => Run.undefined f log
    | Run.ret mem_u t log =>
      if mem_u = 0 then Run.fatal Fatal.aligned_failed log
      else
        let mem_a := aligned_addr mem_u (align_mask a)
        if in_block mem_u (raw_size n (align_mask a)) (header_addr mem_a) then
          Run.ret mem_a
            { t := t, heap := Function.update s.heap (header_addr mem_a) mem_u } log
        else Run.undefined (Fault.store_outside_block (header_addr mem_a)) log

/-- The statics that the initialisation block leaves in the world
`optane_dram`: the slot `usable[0]` is not written, `usable_count = 1`, and
the initial arena `1` allocates `4096`. -/
def optane_ready : Tiered Script :=
  { st := { devs := [optane 0, dram 1], usable := some [none, some (dram 1)],
            usable_count := 1, selected := 0, arena := 1 },
    w := { devices := [optane 0, dram 1], mallocs := [], creates := [], allocs := [4096] } }

/-- A world that discovers `hbm 0`, then a device matching no preference, then
`dram 2`.  The initial arena `1` does not allocate and a new arena on `hbm 0`
cannot be created; further creations and allocations would succeed. -/
def hbm_optane_dram : Script :=
  { devices := [hbm 0, optane 1, dram 2], mallocs := [24], creates := [1, 0, 3, 4],
    allocs := [0, 4096, 8192] }

/-- The world `dram_hbm` with an initial arena that does not allocate and a
second arena that does. -/
def dram_hbm_miss : Script :=
  { devices := [dram 0, hbm 1], mallocs := [16], creates := [1, 2], allocs := [0, 4096] }

/-! ## Arithmetic of masks and powers of two -/

theorem land_pred_eq_zero_iff (a : Nat) (ha : a ≠ 0) :
    a &&& (a - 1) = 0 ↔ ∃ k, a = 2 ^ k := by
  induction a using Nat.strong_induction_on with
  | _ a ih =>
    have hdiv : (a &&& (a - 1)) / 2 = a / 2 &&& (a - 1) / 2 := Nat.and_div_two
    have hmod : (a &&& (a - 1)) % 2 = 1 ↔ a % 2 = 1 ∧ (a - 1) % 2 = 1 :=
      Nat.and_mod_two_eq_one
    rcases Nat.mod_two_eq_zero_or_one a with h0 | h1
    · -- a is even
      have hb : a / 2 ≠ 0 := by omega
      have hpred : (a - 1) / 2 = a / 2 - 1 := by omega
      have key : a &&& (a - 1) = 0 ↔ a / 2 &&& (a / 2 - 1) = 0 := by
        rw [← hpred, ← hdiv]
        have : (a &&& (a - 1)) % 2 ≠ 1 := fun h => by
          have := (hmod.mp h).1
          omega
        omega
      rw [key, ih (a / 2) (by omega) hb]
      constructor
      · rintro ⟨k, hk⟩
        exact ⟨k + 1, by rw [pow_succ]; omega⟩
      · rintro ⟨k, hk⟩
        cases k with
        | zero => simp at hk; omega
        | succ k => exact ⟨k, by rw [pow_succ] at hk; omega⟩
    · -- a is odd
      have hpred : (a - 1) / 2 = a / 2 := by omega
      have hself : a / 2 &&& a / 2 = a / 2 := Nat.and_self _
      constructor
      · intro h
        have : a / 2 = 0 := by
          have h2 : (a &&& (a - 1)) / 2 = 0 := by rw [h]
          rw [hdiv, hpred, hself] at h2
          exact h2
        exact ⟨0, by simp; omega⟩
      · rintro ⟨k, hk⟩
        cases k with
        | zero =>
          simp at hk
          subst hk
          rfl
        | succ k => rw [pow_succ] at hk; omega

theorem land_bnot_mask (x j : Nat) (hx : x < 2 ^ 64) (hj : j ≤ 64) :
    x &&& bnot (2 ^ j - 1) = 2 ^ j * (x / 2 ^ j) := by
  have hpos : 0 < 2 ^ j := Nat.two_pow_pos j
  have hle : 2 ^ j ≤ 2 ^ 64 := Nat.pow_le_pow_right (by decide) hj
  have hm : 2 ^ j - 1 < 2 ^ 64 := by omega
  have hb : bnot (2 ^ j - 1) = 2 ^ 64 - ((2 ^ j - 1) + 1) := by
    unfold bnot SIZE_MOD
    rw [Nat.mod_eq_of_lt hm]
    omega
  apply Nat.eq_of_testBit_eq
  intro i
  rw [Nat.testBit_and, hb, Nat.testBit_two_pow_sub_succ hm, Nat.testBit_two_pow_sub_one,
    Nat.testBit_mul_pow_two, ← Nat.shiftRight_eq_div_pow, Nat.testBit_shiftRight]
  by_cases hij : i < j
  · simp [hij]
  · have hji : j ≤ i := Nat.le_of_not_lt hij
    have hadd : j + (i - j) = i := by omega
    rw [hadd]
    by_cases h64 : i < 64
    · simp [hij, hji, h64]
    · have : x.testBit i = false :=
        Nat.testBit_lt_two_pow
          (Nat.lt_of_lt_of_le hx (Nat.pow_le_pow_right (by decide) (by omega)))
      simp [this]

theorem bnot_mask_big (j : Nat) (hj : 64 ≤ j) : bnot (2 ^ j - 1) = 0 := by
  have hpos : 0 < 2 ^ (j - 64) := Nat.two_pow_pos _
  have hsplit : 2 ^ j = 2 ^ 64 * 2 ^ (j - 64) := by
    rw [← pow_add]
    congr 1
    omega
  have hmod : (2 ^ j - 1) % 2 ^ 64 = 2 ^ 64 - 1 := by
    have h1 : 2 ^ j - 1 = (2 ^ 64 - 1) + 2 ^ 64 * (2 ^ (j - 64) - 1) := by
      rw [hsplit, Nat.mul_sub, Nat.mul_one]
      have : 2 ^ 64 ≤ 2 ^ 64 * 2 ^ (j - 64) := Nat.le_mul_of_pos_right _ hpos
      omega
    rw [h1, Nat.add_mul_mod_self_left]
    exact Nat.mod_eq_of_lt (by omega)
  unfold bnot SIZE_MOD
  rw [hmod]
  exact Nat.sub_self _

theorem aligned_addr_mod (mem_u j : Nat) : aligned_addr mem_u (2 ^ j - 1) % 2 ^ j = 0 := by
  unfold aligned_addr
  by_cases hj : j ≤ 64
  · have hx : (mem_u + (2 ^ j - 1) + sizeof_ptr) % SIZE_MOD < 2 ^ 64 :=
      Nat.mod_lt _ (by decide)
    rw [land_bnot_mask _ j hx hj]
    exact Nat.mul_mod_right _ _
  · rw [bnot_mask_big j (by omega)]
    simp

theorem align_mask_pow (k : Nat) : align_mask (2 ^ k) = 2 ^ max k 4 - 1 := by
  unfold align_mask
  by_cases hk : k < 4
  · have h16 : 2 ^ k < 16 := by
      have : 2 ^ k < 2 ^ 4 := Nat.pow_lt_pow_right (by decide) hk
      simpa using this
    rw [if_pos h16, max_eq_right (by omega)]
    rfl
  · have h16 : ¬ 2 ^ k < 16 := by
      have : 2 ^ 4 ≤ 2 ^ k := Nat.pow_le_pow_right (by decide) (by omega)
      omega
    rw [if_neg h16, max_eq_left (by omega)]

theorem max_pow_sixteen (k : Nat) : max (2 ^ k) 16 = 2 ^ max k 4 := by
  by_cases hk : k < 4
  · have : 2 ^ k < 2 ^ 4 := Nat.pow_lt_pow_right (by decide) hk
    rw [max_eq_right (by omega), max_eq_right (by omega)]
    rfl
  · have : 2 ^ 4 ≤ 2 ^ k := Nat.pow_le_pow_right (by decide) (by omega)
    rw [max_eq_left (by omega), max_eq_left (by omega)]

/-! ## Outcomes of `use_sicm` -/

theorem use_sicm_init_fatal {σ : Type} (E : Sicm σ) (s : Tiered σ) (e : Fatal)
    (log : List Event) (h : use_sicm_init E s = Outcome.fatal e log) :
    e = Fatal.no_space_for_usable ∨ e = Fatal.no_preferred_device := by
  unfold use_sicm_init at h
  split at h
  · cases h
  · simp only at h
    split at h
    · cases h; exact Or.inl rfl
    · split at h
      · cases h; exact Or.inr rfl
      · cases h

theorem use_sicm_fatal {σ : Type} (E : Sicm σ) (s : Tiered σ) (n : Nat) (e : Fatal)
    (log : List Event) (h : use_sicm E s n = Outcome.fatal e log) :
    e = Fatal.no_space_for_usable ∨ e = Fatal.no_preferred_device := by
  unfold use_sicm at h
  split at h
  · rename_i e1 log1 hinit
    cases h
    exact use_sicm_init_fatal E s _ _ hinit
  · cases h

/-! ## Alignment of the address stored by `util_malloc_aligned` -/

/-- C1: for every `n > 0`, every non-null `mem_ref` and every power-of-two
alignment `a`, when the raw allocation inside `util_malloc_aligned` succeeds
(`use_sicm` returns a non-null `mem_u` for the raw size), the function returns
and the address `p` it stores in the handle is a multiple of `max a 16`; so
`p % a = 0` when `16 ≤ a` and `p % 16 = 0` when `a < 16`. -/
theorem util_malloc_aligned_alignment {σ : Type} (E : Sicm σ) (s : Prog σ)
    (cell n a mem_u : Nat) (t : Tiered σ) (log : List Event)
    (hn : 0 < n) (hpow : ∃ k, a = 2 ^ k)
    (hraw : use_sicm E s.t (raw_size n (align_mask a)) = Outcome.ret mem_u t log)
    (hmem : mem_u ≠ 0) :
    ∃ p, util_malloc_aligned E s (some cell) n a =
        Outcome.ret p { t := t, heap := Function.update s.heap (header_addr p) mem_u } log ∧
      p % max a 16 = 0 ∧ (16 ≤ a → p % a = 0) ∧ (a < 16 → p % 16 = 0) := by
  obtain ⟨k, rfl⟩ := hpow
  have hne : (2 : Nat) ^ k ≠ 0 := Nat.pos_iff_ne_zero.mp (Nat.two_pow_pos k)
  have htest : ¬ ((some cell : Option Nat) = none ∨ 2 ^ k = 0 ∨ 2 ^ k &&& (2 ^ k - 1) ≠ 0) := by
    rintro (h | h | h)
    · cases h
    · exact hne h
    · exact h ((land_pred_eq_zero_iff _ hne).mpr ⟨k, rfl⟩)
  have hmain : aligned_addr mem_u (align_mask (2 ^ k)) % max (2 ^ k) 16 = 0 := by
    rw [align_mask_pow, max_pow_sixteen]
    exact aligned_addr_mod _ _
  refine ⟨aligned_addr mem_u (align_mask (2 ^ k)), ?_, hmain, ?_, ?_⟩
  · unfold util_malloc_aligned
    rw [if_neg htest, if_neg (Nat.pos_iff_ne_zero.mp hn), hraw]
    simp only [if_neg hmem]
  · intro h16
    rwa [max_eq_left h16] at hmain
  · intro h16
    rwa [max_eq_right (Nat.le_of_lt h16)] at hmain

/-- Witness for C1: a first call on one fast-tier device whose arena hands out
the raw address `4104`, for `n = 100` and `a = 64`. -/
theorem util_malloc_aligned_alignment_witness :
    ∃ p, util_malloc_aligned scripted
        (Prog.start one_hbm)
        (some 0) 100 64 =
        Outcome.ret p
          { t := { st := { devs := [hbm 0], usable := some [some (hbm 0)], usable_count := 1,
                           selected := 0, arena := 1 },
                   w := { devices := [hbm 0], mallocs := [], creates := [], allocs := [] } },
            heap := Function.update (fun _ => 0) (header_addr p) 4104 }
          [Event.call_use_sicm 171, Event.sicm_init, Event.malloc 8 8,
          Event.arena_create (DevArg.devices 0) (some (hbm 0)) 1,
          Event.arena_alloc 1 171 4104,
          Event.msg_allocated 171 0 (some (hbm 0))] ∧
      p % max 64 16 = 0 ∧ (16 ≤ 64 → p % 64 = 0) ∧ (64 < 16 → p % 16 = 0) :=
  util_malloc_aligned_alignment scripted
    (Prog.start one_hbm)
    0 100 64 4104
    { st := { devs := [hbm 0], usable := some [some (hbm 0)], usable_count := 1,
              selected := 0, arena := 1 },
      w := { devices := [hbm 0], mallocs := [], creates := [], allocs := [] } }
    _ (by decide) ⟨6, rfl⟩ rfl (by decide)

/-! ## Argument checks and the do-nothing request -/

theorem pow_two_test_iff (a : Nat) : (a = 0 ∨ a &&& (a - 1) ≠ 0) ↔ ¬ ∃ k, a = 2 ^ k := by
  by_cases ha : a = 0
  · subst ha
    constructor
    · rintro - ⟨k, hk⟩
      exact absurd hk.symm (Nat.pos_iff_ne_zero.mp (Nat.two_pow_pos k))
    · intro _
      exact Or.inl rfl
  · rw [← land_pred_eq_zero_iff a ha]
    constructor
    · rintro (h | h)
      · exact absurd h ha
      · exact h
    · intro h
      exact Or.inr h

theorem util_malloc_aligned_of_bad {σ : Type} (E : Sicm σ) (s : Prog σ)
    (mem_ref : Option Nat) (n a : Nat) (h : mem_ref = none ∨ ¬ ∃ k, a = 2 ^ k) :
    util_malloc_aligned E s mem_ref n a = Outcome.fatal Fatal.aligned_bad_args [] := by
  have htest : mem_ref = none ∨ a = 0 ∨ a &&& (a - 1) ≠ 0 := by
    rcases h with h | h
    · exact Or.inl h
    · exact Or.inr ((pow_two_test_iff a).mpr h)
  unfold util_malloc_aligned
  rw [if_pos htest]

theorem util_malloc_aligned_bad_inv {σ : Type} (E : Sicm σ) (s : Prog σ)
    (mem_ref : Option Nat) (n a : Nat) (log : List Event)
    (h : util_malloc_aligned E s mem_ref n a = Outcome.fatal Fatal.aligned_bad_args log) :
    mem_ref = none ∨ ¬ ∃ k, a = 2 ^ k := by
  by_cases htest : mem_ref = none ∨ a = 0 ∨ a &&& (a - 1) ≠ 0
  · rcases htest with h1 | h2
    · exact Or.inl h1
    · exact Or.inr ((pow_two_test_iff a).mp h2)
  · exfalso
    unfold util_malloc_aligned at h
    rw [if_neg htest] at h
    split at h
    · cases h
    · split at h
      · rename_i e log1 hu
        cases h
        rcases use_sicm_fatal E _ _ _ _ hu with h1 | h1 <;> cases h1
      · split at h <;> cases h

/-- C2: `util_malloc_aligned` terminates with the error of line 284 if and
only if `mem_ref` is null or the alignment `a` is not `2 ^ k` for any `k`
(`a = 0` included), for every size `n` (also `n = 0`); when it does, no event
has happened, so the tiered allocator was not called.  The test
`a == 0 || (a & (a-1)) != 0` holds exactly of the non-powers-of-two, and
`util_malloc_aligned(_, ref, 100, 7)` fails with that error. -/
theorem util_malloc_aligned_invalid_iff {σ : Type} (E : Sicm σ) (s : Prog σ)
    (mem_ref : Option Nat) (n a : Nat) :
    ((∃ log, util_malloc_aligned E s mem_ref n a =
        Outcome.fatal Fatal.aligned_bad_args log) ↔
      (mem_ref = none ∨ ¬ ∃ k, a = 2 ^ k)) ∧
    (∀ log, util_malloc_aligned E s mem_ref n a =
        Outcome.fatal Fatal.aligned_bad_args log → log = []) ∧
    ((a = 0 ∨ a &&& (a - 1) ≠ 0) ↔ ¬ ∃ k, a = 2 ^ k) ∧
    (∀ cell, util_malloc_aligned E s (some cell) 100 7 =
        Outcome.fatal Fatal.aligned_bad_args []) := by
  refine ⟨⟨?_, ?_⟩, ?_, pow_two_test_iff a, ?_⟩
  · rintro ⟨log, h⟩
    exact util_malloc_aligned_bad_inv E s mem_ref n a log h
  · intro h
    exact ⟨[], util_malloc_aligned_of_bad E s mem_ref n a h⟩
  · intro log h
    have hbad := util_malloc_aligned_bad_inv E s mem_ref n a log h
    rw [util_malloc_aligned_of_bad E s mem_ref n a hbad] at h
    cases h
    rfl
  · intro cell
    unfold util_malloc_aligned
    rw [if_pos (Or.inr (Or.inr (by decide)))]

/-- C3, as stated, fails: with `n = 0` and the alignment `7`,
`util_malloc_aligned` does not return a null handle but terminates with the
error of line 284, because the argument check precedes the `n == 0` test. -/
theorem util_malloc_aligned_zero_bad_alignment :
    util_malloc_aligned scripted (Prog.start one_hbm) (some 5) 0 7 =
      Outcome.fatal Fatal.aligned_bad_args [] ∧
    ¬ ∃ v s' log, util_malloc_aligned scripted (Prog.start one_hbm) (some 5) 0 7 =
      Outcome.ret v s' log := by
  have h : util_malloc_aligned scripted (Prog.start one_hbm) (some 5) 0 7 =
      Outcome.fatal Fatal.aligned_bad_args [] := rfl
  refine ⟨h, ?_⟩
  rintro ⟨v, s', log, h'⟩
  rw [h] at h'
  cases h'

/-- C3, amended: for every non-null `mem_ref`, `util_malloc` with `n = 0`, and
`util_malloc_aligned` with `n = 0` and a power-of-two alignment `a`, return
normally with the handle set to null, with no event (so `use_sicm` is not
called) and with the state, the statics of the tiered allocator included,
unchanged. -/
theorem util_malloc_zero_noop {σ : Type} (E : Sicm σ) (s : Prog σ) (cell a : Nat)
    (hpow : ∃ k, a = 2 ^ k) :
    util_malloc E s (some cell) 0 = Outcome.ret 0 s [] ∧
    util_malloc_aligned E s (some cell) 0 a = Outcome.ret 0 s [] := by
  constructor
  · rfl
  · have htest : ¬ ((some cell : Option Nat) = none ∨ a = 0 ∨ a &&& (a - 1) ≠ 0) := by
      rintro (h | h)
      · cases h
      · exact (pow_two_test_iff a).mp h hpow
    unfold util_malloc_aligned
    rw [if_neg htest, if_pos rfl]

/-- Witness for the amended C3: a handle holding `5`, alignment `32`. -/
theorem util_malloc_zero_noop_witness :
    util_malloc scripted (Prog.start one_hbm) (some 5) 0 =
      Outcome.ret 0 (Prog.start one_hbm) [] ∧
    util_malloc_aligned scripted (Prog.start one_hbm) (some 5) 0 32 =
      Outcome.ret 0 (Prog.start one_hbm) [] :=
  util_malloc_zero_noop scripted _ 5 32 ⟨5, rfl⟩

/-! ## Results of runs on the machine -/

theorem run_ret_of_valid {S α : Type} (v : α) (s : S) (log : List Event)
    (h : log.any Event.invalid = false) :
    (Outcome.ret v s log).run = Run.ret v s log := by
  simp only [Outcome.run, h, Bool.false_eq_true, if_false]

theorem run_eq_ret {S α : Type} (o : Outcome S α) (v : α) (s : S) (log : List Event)
    (h : o.run = Run.ret v s log) :
    o = Outcome.ret v s log ∧ log.any Event.invalid = false := by
  cases o with
  | fatal e l =>
    cases hv : l.any Event.invalid
    · simp only [Outcome.run, hv, Bool.false_eq_true, if_false] at h
      cases h
    · simp only [Outcome.run, hv, if_true] at h
      cases h
  | ret v1 s1 l =>
    cases hv : l.any Event.invalid
    · simp only [Outcome.run, hv, Bool.false_eq_true, if_false] at h
      cases h
      exact ⟨rfl, hv⟩
    · simp only [Outcome.run, hv, if_true] at h
      cases h

theorem run_eq_fatal {S α : Type} (o : Outcome S α) (e : Fatal) (log : List Event)
    (h : o.run = Run.fatal e log) : o = Outcome.fatal e log := by
  cases o with
  | fatal e1 l =>
    cases hv : l.any Event.invalid
    · simp only [Outcome.run, hv, Bool.false_eq_true, if_false] at h
      cases h
      rfl
    · simp only [Outcome.run, hv, if_true] at h
      cases h
  | ret v1 s1 l =>
    cases hv : l.any Event.invalid
    · simp only [Outcome.run, hv, Bool.false_eq_true, if_false] at h
      cases h
    · simp only [Outcome.run, hv, if_true] at h
      cases h

theorem header_in_block (mem_u size p : Nat)
    (h : in_block mem_u size (header_addr p) = true) : p ≠ 0 := by
  intro hp
  subst hp
  unfold in_block header_addr SIZE_MOD sizeof_ptr at h
  simp only [decide_eq_true_eq] at h
  omega

theorem util_malloc_run_cases {σ : Type} (E : Sicm σ) (s : Prog σ) (cell n : Nat)
    (hn : 0 < n) :
    util_malloc_run E s (some cell) n =
      match use_sicm_run E s.t n with
      | Run.fatal e log => Run.fatal e log
      | Run.undefined f log => Run.undefined f log
      | Run.ret mem t log =>
        if mem = 0 then Run.fatal Fatal.malloc_failed log
        else Run.ret mem { s with t := t } log := by
  unfold util_malloc_run
  simp only [if_neg (Nat.pos_iff_ne_zero.mp hn)]

theorem util_malloc_aligned_run_cases {σ : Type} (E : Sicm σ) (s : Prog σ)
    (cell n a : Nat) (hn : 0 < n) (hpow : ∃ k, a = 2 ^ k) :
    util_malloc_aligned_run E s (some cell) n a =
      match use_sicm_run E s.t (raw_size n (align_mask a)) with
      | Run.fatal e log => Run.fatal e log
      | Run.undefined f log => Run.undefined f log
      | Run.ret mem_u t log =>
        if mem_u = 0 then Run.fatal Fatal.aligned_failed log
        else
          if in_block mem_u (raw_size n (align_mask a))
              (header_addr (aligned_addr mem_u (align_mask a))) then
            Run.ret (aligned_addr mem_u (align_mask a))
              { t := t,
                heap := Function.update s.heap
                  (header_addr (aligned_addr mem_u (align_mask a))) mem_u } log
          else
            Run.undefined
              (Fault.store_outside_block (header_addr (aligned_addr mem_u (align_mask a))))
              log := by
  have htest : ¬ ((some cell : Option Nat) = none ∨ a = 0 ∨ a &&& (a - 1) ≠ 0) := by
    rintro (h | h)
    · cases h
    · exact (pow_two_test_iff a).mp h hpow
  unfold util_malloc_aligned_run
  rw [if_neg htest, if_neg (Nat.pos_iff_ne_zero.mp hn)]

theorem util_malloc_aligned_run_ret {σ : Type} (E : Sicm σ) (s : Prog σ)
    (cell n a p : Nat) (s1 : Prog σ) (log : List Event) (hn : 0 < n)
    (hrun : util_malloc_aligned_run E s (some cell) n a = Run.ret p s1 log) :
    (∃ k, a = 2 ^ k) ∧
    ∃ mem_u, mem_u ≠ 0 ∧
      use_sicm_run E s.t (raw_size n (align_mask a)) = Run.ret mem_u s1.t log ∧
      p = aligned_addr mem_u (align_mask a) ∧
      in_block mem_u (raw_size n (align_mask a)) (header_addr p) = true ∧
      s1.heap = Function.update s.heap (header_addr p) mem_u := by
  have hpow : ∃ k, a = 2 ^ k := by
    by_contra hcon
    have htest : (some cell : Option Nat) = none ∨ a = 0 ∨ a &&& (a - 1) ≠ 0 :=
      Or.inr ((pow_two_test_iff a).mpr hcon)
    unfold util_malloc_aligned_run at hrun
    rw [if_pos htest] at hrun
    cases hrun
  refine ⟨hpow, ?_⟩
  rw [util_malloc_aligned_run_cases E s cell n a hn hpow] at hrun
  cases hu : use_sicm_run E s.t (raw_size n (align_mask a)) with
  | fatal e log1 =>
    rw [hu] at hrun
    cases hrun
  | undefined f log1 =>
    rw [hu] at hrun
    cases hrun
  | ret mem t log1 =>
    rw [hu] at hrun
    by_cases h0 : mem = 0
    · simp [h0] at hrun
    · simp only [if_neg h0] at hrun
      by_cases hb : in_block mem (raw_size n (align_mask a))
          (header_addr (aligned_addr mem (align_mask a))) = true
      · simp only [hb, if_true] at hrun
        cases hrun
        exact ⟨mem, h0, rfl, rfl, hb, rfl⟩
      · simp only [hb] at hrun
        cases hrun

/-! ## The back-pointer of an aligned block -/

theorem aligned_addr_bounds (mem_u j : Nat)
    (hwrap : mem_u + (2 ^ j - 1) + sizeof_ptr < SIZE_MOD) :
    mem_u + sizeof_ptr ≤ aligned_addr mem_u (2 ^ j - 1) ∧
      aligned_addr mem_u (2 ^ j - 1) ≤ mem_u + (2 ^ j - 1) + sizeof_ptr := by
  have hpos : 0 < 2 ^ j := Nat.two_pow_pos j
  have hj : j ≤ 64 := by
    by_contra hcon
    have : 2 ^ 65 ≤ 2 ^ j := Nat.pow_le_pow_right (by decide) (by omega)
    unfold SIZE_MOD at hwrap
    omega
  have hx : (mem_u + (2 ^ j - 1) + sizeof_ptr) % SIZE_MOD < 2 ^ 64 :=
    Nat.mod_lt _ (by decide)
  unfold aligned_addr
  rw [land_bnot_mask _ j hx hj, Nat.mod_eq_of_lt hwrap]
  have hdm := Nat.div_add_mod (mem_u + (2 ^ j - 1) + sizeof_ptr) (2 ^ j)
  have hlt := Nat.mod_lt (mem_u + (2 ^ j - 1) + sizeof_ptr) hpos
  generalize 2 ^ j * ((mem_u + (2 ^ j - 1) + sizeof_ptr) / 2 ^ j) = q at hdm ⊢
  generalize (mem_u + (2 ^ j - 1) + sizeof_ptr) % 2 ^ j = r at hdm hlt
  generalize 2 ^ j = P at hdm hlt hpos ⊢
  omega

theorem util_malloc_aligned_ret {σ : Type} (E : Sicm σ) (s : Prog σ)
    (cell n a mem_u : Nat) (t : Tiered σ) (log : List Event)
    (hn : 0 < n) (hpow : ∃ k, a = 2 ^ k)
    (hraw : use_sicm E s.t (raw_size n (align_mask a)) = Outcome.ret mem_u t log)
    (hmem : mem_u ≠ 0) :
    util_malloc_aligned E s (some cell) n a =
      Outcome.ret (aligned_addr mem_u (align_mask a))
        { t := t,
          heap := Function.update s.heap
            (header_addr (aligned_addr mem_u (align_mask a))) mem_u } log := by
  have htest : ¬ ((some cell : Option Nat) = none ∨ a = 0 ∨ a &&& (a - 1) ≠ 0) := by
    rintro (h | h)
    · cases h
    · exact (pow_two_test_iff a).mp h hpow
  unfold util_malloc_aligned
  rw [if_neg htest, if_neg (Nat.pos_iff_ne_zero.mp hn), hraw]
  simp only [if_neg hmem]

/-- C4: for every `n > 0` and every `a`, if `util_malloc_aligned` returned,
having obtained the raw block `mem_u` from `use_sicm` and stored the aligned
pointer `p` in the handle (so `a` is a power of two and the header store of
line 314 was inside the raw block), then `p` is non-null, the header word at
`p - sizeof(char *)` holds `mem_u`, and in every later state whose header word
is unmodified `util_free_aligned` on the handle calls `sicm_free` exactly
once, on exactly `mem_u`, and sets the handle to null. -/
theorem util_free_aligned_round_trip {σ : Type} (E : Sicm σ) (s : Prog σ)
    (cell n a p : Nat) (s1 : Prog σ) (log : List Event) (hn : 0 < n)
    (hrun : util_malloc_aligned_run E s (some cell) n a = Run.ret p s1 log) :
    (∃ k, a = 2 ^ k) ∧
    ∃ mem_u, mem_u ≠ 0 ∧
      use_sicm_run E s.t (raw_size n (align_mask a)) = Run.ret mem_u s1.t log ∧
      p = aligned_addr mem_u (align_mask a) ∧ p ≠ 0 ∧
      s1.heap (header_addr p) = mem_u ∧
      ∀ s2 : Prog σ, s2.heap (header_addr p) = s1.heap (header_addr p) →
        util_free_aligned E s2 (some p) =
          (some 0, { s2 with t := { s2.t with w := E.sicm_free s2.t.w mem_u } },
            [Event.sicm_free mem_u]) := by
  obtain ⟨hpow, mem_u, hmem, hraw, hp, hblock, hheap⟩ :=
    util_malloc_aligned_run_ret E s cell n a p s1 log hn hrun
  have hp0 : p ≠ 0 := header_in_block mem_u _ p hblock
  have hword : s1.heap (header_addr p) = mem_u := by
    rw [hheap]
    simp
  refine ⟨hpow, mem_u, hmem, hraw, hp, hp0, hword, ?_⟩
  intro s2 hs2
  have hread : s2.heap (header_addr p) = mem_u := by rw [hs2, hword]
  unfold util_free_aligned
  simp only [if_neg hp0, hread]

/-- Witness for C4: `n = 100`, `a = 64`, raw block `4104`, aligned pointer
`4160`. -/
theorem util_free_aligned_round_trip_witness :
    (∃ k, 64 = 2 ^ k) ∧
    ∃ mem_u, mem_u ≠ 0 ∧
      use_sicm_run scripted (Prog.start one_hbm).t (raw_size 100 (align_mask 64)) =
        Run.ret mem_u
          { st := { devs := [hbm 0], usable := some [some (hbm 0)], usable_count := 1,
                    selected := 0, arena := 1 },
            w := { devices := [hbm 0], mallocs := [], creates := [], allocs := [] } }
          [Event.call_use_sicm 171, Event.sicm_init, Event.malloc 8 8,
           Event.arena_create (DevArg.devices 0) (some (hbm 0)) 1,
           Event.arena_alloc 1 171 4104,
           Event.msg_allocated 171 0 (some (hbm 0))] ∧
      4160 = aligned_addr mem_u (align_mask 64) ∧ 4160 ≠ 0 ∧
      Function.update (Prog.start one_hbm).heap 4152 4104 (header_addr 4160) = mem_u ∧
      ∀ s2 : Prog Script,
        s2.heap (header_addr 4160) =
          Function.update (Prog.start one_hbm).heap 4152 4104 (header_addr 4160) →
        util_free_aligned scripted s2 (some 4160) =
          (some 0, { s2 with t := { s2.t with w := scripted.sicm_free s2.t.w mem_u } },
            [Event.sicm_free mem_u]) :=
  util_free_aligned_round_trip scripted (Prog.start one_hbm) 0 100 64 4160
    { t := { st := { devs := [hbm 0], usable := some [some (hbm 0)], usable_count := 1,
                     selected := 0, arena := 1 },
             w := { devices := [hbm 0], mallocs := [], creates := [], allocs := [] } },
      heap := Function.update (Prog.start one_hbm).heap 4152 4104 }
    [Event.call_use_sicm 171, Event.sicm_init, Event.malloc 8 8,
     Event.arena_create (DevArg.devices 0) (some (hbm 0)) 1,
     Event.arena_alloc 1 171 4104,
     Event.msg_allocated 171 0 (some (hbm 0))]
    (by decide) rfl

/-! ## Fatal on exhaustion -/

theorem util_malloc_cases {σ : Type} (E : Sicm σ) (s : Prog σ) (cell n : Nat)
    (hn : 0 < n) :
    util_malloc E s (some cell) n =
      match use_sicm E s.t n with
      | Outcome.fatal e log => Outcome.fatal e log
      | Outcome.ret mem t log =>
        if mem = 0 then Outcome.fatal Fatal.malloc_failed log
        else Outcome.ret mem { s with t := t } log := by
  unfold util_malloc
  simp only [if_neg (Nat.pos_iff_ne_zero.mp hn)]

theorem util_malloc_aligned_cases {σ : Type} (E : Sicm σ) (s : Prog σ) (cell n a : Nat)
    (hn : 0 < n) (hpow : ∃ k, a = 2 ^ k) :
    util_malloc_aligned E s (some cell) n a =
      match use_sicm E s.t (raw_size n (align_mask a)) with
      | Outcome.fatal e log => Outcome.fatal e log
      | Outcome.ret mem_u t log =>
        if mem_u = 0 then Outcome.fatal Fatal.aligned_failed log
        else
          Outcome.ret (aligned_addr mem_u (align_mask a))
            { t := t,
              heap := Function.update s.heap
                (header_addr (aligned_addr mem_u (align_mask a))) mem_u } log := by
  have htest : ¬ ((some cell : Option Nat) = none ∨ a = 0 ∨ a &&& (a - 1) ≠ 0) := by
    rintro (h | h)
    · cases h
    · exact (pow_two_test_iff a).mp h hpow
  unfold util_malloc_aligned
  rw [if_neg htest, if_neg (Nat.pos_iff_ne_zero.mp hn)]

/-- Where the run of `util_malloc` on the machine terminates fatally or
returns, the total model has the same result. -/
theorem util_malloc_run_agrees {σ : Type} (E : Sicm σ) (s : Prog σ)
    (mem_ref : Option Nat) (n : Nat) :
    (∀ e log, util_malloc_run E s mem_ref n = Run.fatal e log →
      util_malloc E s mem_ref n = Outcome.fatal e log) ∧
    (∀ v s1 log, util_malloc_run E s mem_ref n = Run.ret v s1 log →
      util_malloc E s mem_ref n = Outcome.ret v s1 log) := by
  cases mem_ref with
  | none =>
    refine ⟨?_, ?_⟩
    · intro e log h
      cases h
      rfl
    · intro v s1 log h
      cases h
  | some cell =>
    by_cases hn : n = 0
    · subst hn
      refine ⟨?_, ?_⟩
      · intro e log h
        cases h
      · intro v s1 log h
        cases h
        rfl
    · have hr : util_malloc_run E s (some cell) n = _ :=
        util_malloc_run_cases E s cell n (Nat.pos_of_ne_zero hn)
      have hm : util_malloc E s (some cell) n = _ :=
        util_malloc_cases E s cell n (Nat.pos_of_ne_zero hn)
      cases hu : use_sicm_run E s.t n with
      | fatal e1 log1 =>
        have hmodel := run_eq_fatal _ _ _ hu
        rw [hu] at hr
        rw [hmodel] at hm
        refine ⟨?_, ?_⟩
        · intro e log h
          rw [hr] at h
          cases h
          exact hm
        · intro v s1 log h
          rw [hr] at h
          cases h
      | undefined f log1 =>
        rw [hu] at hr
        refine ⟨?_, ?_⟩
        · intro e log h
          rw [hr] at h
          cases h
        · intro v s1 log h
          rw [hr] at h
          cases h
      | ret mem t log1 =>
        have hmodel := (run_eq_ret _ _ _ _ hu).1
        rw [hu] at hr
        rw [hmodel] at hm
        by_cases h0 : mem = 0
        · simp only [h0, if_true] at hr hm
          refine ⟨?_, ?_⟩
          · intro e log h
            rw [hr] at h
            cases h
            exact hm
          · intro v s1 log h
            rw [hr] at h
            cases h
        · simp only [if_neg h0] at hr hm
          refine ⟨?_, ?_⟩
          · intro e log h
            rw [hr] at h
            cases h
          · intro v s1 log h
            rw [hr] at h
            cases h
            exact hm

/-- Where the run of `util_malloc_aligned` on the machine terminates fatally
or returns, the total model has the same result. -/
theorem util_malloc_aligned_run_agrees {σ : Type} (E : Sicm σ) (s : Prog σ)
    (mem_ref : Option Nat) (n a : Nat) :
    (∀ e log, util_malloc_aligned_run E s mem_ref n a = Run.fatal e log →
      util_malloc_aligned E s mem_ref n a = Outcome.fatal e log) ∧
    (∀ v s1 log, util_malloc_aligned_run E s mem_ref n a = Run.ret v s1 log →
      util_malloc_aligned E s mem_ref n a = Outcome.ret v s1 log) := by
  by_cases htest : mem_ref = none ∨ a = 0 ∨ a &&& (a - 1) ≠ 0
  · unfold util_malloc_aligned_run util_malloc_aligned
    rw [if_pos htest, if_pos htest]
    refine ⟨?_, ?_⟩
    · intro e log h
      cases h
      rfl
    · intro v s1 log h
      cases h
  · by_cases hn : n = 0
    · unfold util_malloc_aligned_run util_malloc_aligned
      rw [if_neg htest, if_neg htest, if_pos hn, if_pos hn]
      refine ⟨?_, ?_⟩
      · intro e log h
        cases h
      · intro v s1 log h
        cases h
        rfl
    · obtain ⟨cell, rfl⟩ : ∃ cell, mem_ref = some cell := by
        cases mem_ref with
        | none => exact absurd (Or.inl rfl) htest
        | some cell => exact ⟨cell, rfl⟩
      have hpow : ∃ k, a = 2 ^ k := by
        by_contra hcon
        exact htest (Or.inr ((pow_two_test_iff a).mpr hcon))
      have hr : util_malloc_aligned_run E s (some cell) n a = _ :=
        util_malloc_aligned_run_cases E s cell n a (Nat.pos_of_ne_zero hn) hpow
      have hm : util_malloc_aligned E s (some cell) n a = _ :=
        util_malloc_aligned_cases E s cell n a (Nat.pos_of_ne_zero hn) hpow
      cases hu : use_sicm_run E s.t (raw_size n (align_mask a)) with
      | fatal e1 log1 =>
        have hmodel := run_eq_fatal _ _ _ hu
        rw [hu] at hr
        rw [hmodel] at hm
        refine ⟨?_, ?_⟩
        · intro e log h
          rw [hr] at h
          cases h
          exact hm
        · intro v s1 log h
          rw [hr] at h
          cases h
      | undefined f log1 =>
        rw [hu] at hr
        refine ⟨?_, ?_⟩
        · intro e log h
          rw [hr] at h
          cases h
        · intro v s1 log h
          rw [hr] at h
          cases h
      | ret mem t log1 =>
        have hmodel := (run_eq_ret _ _ _ _ hu).1
        rw [hu] at hr
        rw [hmodel] at hm
        by_cases h0 : mem = 0
        · simp only [h0, if_true] at hr hm
          refine ⟨?_, ?_⟩
          · intro e log h
            rw [hr] at h
            cases h
            exact hm
          · intro v s1 log h
            rw [hr] at h
            cases h
        · simp only [if_neg h0] at hr hm
          cases hb : in_block mem (raw_size n (align_mask a))
              (header_addr (aligned_addr mem (align_mask a)))
          · simp only [hb, Bool.false_eq_true, if_false] at hr
            refine ⟨?_, ?_⟩
            · intro e log h
              rw [hr] at h
              cases h
            · intro v s1 log h
              rw [hr] at h
              cases h
          · simp only [hb, if_true] at hr
            refine ⟨?_, ?_⟩
            · intro e log h
              rw [hr] at h
              cases h
            · intro v s1 log h
              rw [hr] at h
              cases h
              exact hm

/-- C5, as stated, fails at two inputs.  On a first call in a world whose only
device matches no preference, `util_malloc` and `util_malloc_aligned`
(non-null `mem_ref`, `n = 8`, `a = 16`) terminate fatally although `use_sicm`
does not return null: `use_sicm` itself terminates with the error of line 192.
And for `n = 2 ^ 64 - 1`, `a = 16`, where the raw size wraps to `22`,
`use_sicm` returns the non-null raw block `2 ^ 64 - 23`, yet
`util_malloc_aligned` stores no pointer: the header word of line 314 is at
`2 ^ 64 - 8`, outside the raw block, and the run ends at that store. -/
theorem util_malloc_fatal_without_null :
    use_sicm_run scripted (Prog.start one_optane).t 8 =
      Run.fatal Fatal.no_preferred_device
        [Event.call_use_sicm 8, Event.sicm_init, Event.malloc 8 8] ∧
    util_malloc_run scripted (Prog.start one_optane) (some 0) 8 =
      Run.fatal Fatal.no_preferred_device
        [Event.call_use_sicm 8, Event.sicm_init, Event.malloc 8 8] ∧
    use_sicm_run scripted (Prog.start one_optane).t (raw_size 8 (align_mask 16)) =
      Run.fatal Fatal.no_preferred_device
        [Event.call_use_sicm 31, Event.sicm_init, Event.malloc 8 8] ∧
    util_malloc_aligned_run scripted (Prog.start one_optane) (some 0) 8 16 =
      Run.fatal Fatal.no_preferred_device
        [Event.call_use_sicm 31, Event.sicm_init, Event.malloc 8 8] ∧
    raw_size 18446744073709551615 (align_mask 16) = 22 ∧
    use_sicm_run scripted (Prog.start top_block).t 22 =
      Run.ret 18446744073709551593
        { st := { devs := [hbm 0], usable := some [some (hbm 0)], usable_count := 1,
                  selected := 0, arena := 1 },
          w := { devices := [hbm 0], mallocs := [], creates := [], allocs := [] } }
        [Event.call_use_sicm 22, Event.sicm_init, Event.malloc 8 8,
         Event.arena_create (DevArg.devices 0) (some (hbm 0)) 1,
         Event.arena_alloc 1 22 18446744073709551593,
         Event.msg_allocated 22 0 (some (hbm 0))] ∧
    util_malloc_aligned_run scripted (Prog.start top_block) (some 7)
        18446744073709551615 16 =
      Run.undefined (Fault.store_outside_block 18446744073709551608)
        [Event.call_use_sicm 22, Event.sicm_init, Event.malloc 8 8,
         Event.arena_create (DevArg.devices 0) (some (hbm 0)) 1,
         Event.arena_alloc 1 22 18446744073709551593,
         Event.msg_allocated 22 0 (some (hbm 0))] :=
  ⟨rfl, rfl, rfl, rfl, rfl, rfl, rfl⟩

/-- C5, amended: for every `n > 0`, non-null `mem_ref` and power-of-two `a`,
`util_malloc` and `util_malloc_aligned` terminate fatally exactly when
`use_sicm`, called with the requested raw size, itself terminates fatally or
returns null; a null return gives the error of line 257 resp. 304.  When
`use_sicm` returns a non-null pointer, `util_malloc` stores it in the handle,
and `util_malloc_aligned` stores the aligned address if the header word of
line 314 lies in the raw block, while otherwise the run ends at that store.
Whenever one of them returns, the pointer in the handle is non-null. -/
theorem util_malloc_fatal_iff {σ : Type} (E : Sicm σ) (s : Prog σ) (cell n a : Nat)
    (hn : 0 < n) (hpow : ∃ k, a = 2 ^ k) :
    ((∃ e log, util_malloc_run E s (some cell) n = Run.fatal e log) ↔
      ((∃ e log, use_sicm_run E s.t n = Run.fatal e log) ∨
        ∃ t log, use_sicm_run E s.t n = Run.ret 0 t log)) ∧
    (∀ t log, use_sicm_run E s.t n = Run.ret 0 t log →
      util_malloc_run E s (some cell) n = Run.fatal Fatal.malloc_failed log) ∧
    (∀ mem t log, use_sicm_run E s.t n = Run.ret mem t log → mem ≠ 0 →
      util_malloc_run E s (some cell) n = Run.ret mem { s with t := t } log) ∧
    (∀ v s1 log, util_malloc_run E s (some cell) n = Run.ret v s1 log →
      v ≠ 0 ∧ use_sicm_run E s.t n = Run.ret v s1.t log) ∧
    ((∃ e log, util_malloc_aligned_run E s (some cell) n a = Run.fatal e log) ↔
      ((∃ e log, use_sicm_run E s.t (raw_size n (align_mask a)) = Run.fatal e log) ∨
        ∃ t log, use_sicm_run E s.t (raw_size n (align_mask a)) = Run.ret 0 t log)) ∧
    (∀ t log, use_sicm_run E s.t (raw_size n (align_mask a)) = Run.ret 0 t log →
      util_malloc_aligned_run E s (some cell) n a = Run.fatal Fatal.aligned_failed log) ∧
    (∀ mem_u t log,
      use_sicm_run E s.t (raw_size n (align_mask a)) = Run.ret mem_u t log → mem_u ≠ 0 →
      (in_block mem_u (raw_size n (align_mask a))
          (header_addr (aligned_addr mem_u (align_mask a))) = true →
        aligned_addr mem_u (align_mask a) ≠ 0 ∧
        util_malloc_aligned_run E s (some cell) n a =
          Run.ret (aligned_addr mem_u (align_mask a))
            { t := t,
              heap := Function.update s.heap
                (header_addr (aligned_addr mem_u (align_mask a))) mem_u } log) ∧
      (in_block mem_u (raw_size n (align_mask a))
          (header_addr (aligned_addr mem_u (align_mask a))) = false →
        util_malloc_aligned_run E s (some cell) n a =
          Run.undefined
            (Fault.store_outside_block (header_addr (aligned_addr mem_u (align_mask a))))
            log)) ∧
    (∀ v s1 log, util_malloc_aligned_run E s (some cell) n a = Run.ret v s1 log →
      v ≠ 0 ∧
      ∃ mem_u, mem_u ≠ 0 ∧
        use_sicm_run E s.t (raw_size n (align_mask a)) = Run.ret mem_u s1.t log ∧
        v = aligned_addr mem_u (align_mask a)) := by
  have hm := util_malloc_run_cases E s cell n hn
  have ha := util_malloc_aligned_run_cases E s cell n a hn hpow
  refine ⟨?_, ?_, ?_, ?_, ?_, ?_, ?_, ?_⟩
  · cases hu : use_sicm_run E s.t n with
    | fatal e log =>
      rw [hu] at hm
      simp [hm]
    | undefined f log =>
      rw [hu] at hm
      simp [hm]
    | ret mem t log =>
      rw [hu] at hm
      by_cases h0 : mem = 0
      · simp [hm, h0]
      · simp only [if_neg h0] at hm
        simp [hm, h0]
  · intro t log hu
    rw [hu] at hm
    simpa using hm
  · intro mem t log hu h0
    rw [hu] at hm
    simpa only [if_neg h0] using hm
  · intro v s1 log hret
    cases hu : use_sicm_run E s.t n with
    | fatal e log1 =>
      rw [hu, hret] at hm
      cases hm
    | undefined f log1 =>
      rw [hu, hret] at hm
      cases hm
    | ret mem t log1 =>
      rw [hu, hret] at hm
      by_cases h0 : mem = 0
      · simp [h0] at hm
      · simp only [if_neg h0] at hm
        cases hm
        exact ⟨h0, rfl⟩
  · cases hu : use_sicm_run E s.t (raw_size n (align_mask a)) with
    | fatal e log =>
      rw [hu] at ha
      simp [ha]
    | undefined f log =>
      rw [hu] at ha
      simp [ha]
    | ret mem t log =>
      rw [hu] at ha
      by_cases h0 : mem = 0
      · simp [ha, h0]
      · simp only [if_neg h0] at ha
        cases hb : in_block mem (raw_size n (align_mask a))
            (header_addr (aligned_addr mem (align_mask a)))
        · simp [ha, hb, h0]
        · simp [ha, hb, h0]
  · intro t log hu
    rw [hu] at ha
    simpa using ha
  · intro mem_u t log hu h0
    rw [hu] at ha
    simp only [if_neg h0] at ha
    refine ⟨?_, ?_⟩
    · intro hb
      refine ⟨header_in_block mem_u _ _ hb, ?_⟩
      simpa only [hb, if_true] using ha
    · intro hb
      simpa only [hb, Bool.false_eq_true, if_false] using ha
  · intro v s1 log hret
    obtain ⟨_, mem_u, hmem, hraw, hv, hblock, _⟩ :=
      util_malloc_aligned_run_ret E s cell n a v s1 log hn hret
    exact ⟨header_in_block mem_u _ v hblock, mem_u, hmem, hraw, hv⟩

/-- Witness for the amended C5: `n = 100`, `a = 64`, first call in the world
`one_hbm`. -/
theorem util_malloc_fatal_iff_witness :
    ((∃ e log, util_malloc_run scripted (Prog.start one_hbm) (some 0) 100 =
        Run.fatal e log) ↔
      ((∃ e log, use_sicm_run scripted (Prog.start one_hbm).t 100 = Run.fatal e log) ∨
        ∃ t log, use_sicm_run scripted (Prog.start one_hbm).t 100 = Run.ret 0 t log)) ∧
    (∀ t log, use_sicm_run scripted (Prog.start one_hbm).t 100 = Run.ret 0 t log →
      util_malloc_run scripted (Prog.start one_hbm) (some 0) 100 =
        Run.fatal Fatal.malloc_failed log) ∧
    (∀ mem t log, use_sicm_run scripted (Prog.start one_hbm).t 100 = Run.ret mem t log →
      mem ≠ 0 →
      util_malloc_run scripted (Prog.start one_hbm) (some 0) 100 =
        Run.ret mem { Prog.start one_hbm with t := t } log) ∧
    (∀ v s1 log, util_malloc_run scripted (Prog.start one_hbm) (some 0) 100 =
        Run.ret v s1 log →
      v ≠ 0 ∧ use_sicm_run scripted (Prog.start one_hbm).t 100 = Run.ret v s1.t log) ∧
    ((∃ e log, util_malloc_aligned_run scripted (Prog.start one_hbm) (some 0) 100 64 =
        Run.fatal e log) ↔
      ((∃ e log, use_sicm_run scripted (Prog.start one_hbm).t (raw_size 100 (align_mask 64)) =
          Run.fatal e log) ∨
        ∃ t log, use_sicm_run scripted (Prog.start one_hbm).t (raw_size 100 (align_mask 64)) =
          Run.ret 0 t log)) ∧
    (∀ t log, use_sicm_run scripted (Prog.start one_hbm).t (raw_size 100 (align_mask 64)) =
        Run.ret 0 t log →
      util_malloc_aligned_run scripted (Prog.start one_hbm) (some 0) 100 64 =
        Run.fatal Fatal.aligned_failed log) ∧
    (∀ mem_u t log,
      use_sicm_run scripted (Prog.start one_hbm).t (raw_size 100 (align_mask 64)) =
        Run.ret mem_u t log → mem_u ≠ 0 →
      (in_block mem_u (raw_size 100 (align_mask 64))
          (header_addr (aligned_addr mem_u (align_mask 64))) = true →
        aligned_addr mem_u (align_mask 64) ≠ 0 ∧
        util_malloc_aligned_run scripted (Prog.start one_hbm) (some 0) 100 64 =
          Run.ret (aligned_addr mem_u (align_mask 64))
            { t := t,
              heap := Function.update (Prog.start one_hbm).heap
                (header_addr (aligned_addr mem_u (align_mask 64))) mem_u } log) ∧
      (in_block mem_u (raw_size 100 (align_mask 64))
          (header_addr (aligned_addr mem_u (align_mask 64))) = false →
        util_malloc_aligned_run scripted (Prog.start one_hbm) (some 0) 100 64 =
          Run.undefined
            (Fault.store_outside_block (header_addr (aligned_addr mem_u (align_mask 64))))
            log)) ∧
    (∀ v s1 log, util_malloc_aligned_run scripted (Prog.start one_hbm) (some 0) 100 64 =
        Run.ret v s1 log →
      v ≠ 0 ∧
      ∃ mem_u, mem_u ≠ 0 ∧
        use_sicm_run scripted (Prog.start one_hbm).t (raw_size 100 (align_mask 64)) =
          Run.ret mem_u s1.t log ∧
        v = aligned_addr mem_u (align_mask 64)) :=
  util_malloc_fatal_iff scripted (Prog.start one_hbm) 0 100 64 (by decide) ⟨6, rfl⟩

/-! ## The sticky index -/

theorem use_sicm_of_usable {σ : Type} (E : Sicm σ) (s : Tiered σ) (n : Nat)
    (u : List (Option sicm_device)) (hu : s.st.usable = some u) :
    use_sicm E s n =
      Outcome.ret (use_sicm_alloc E s n).1 (use_sicm_alloc E s n).2.1
        (Event.call_use_sicm n :: (use_sicm_alloc E s n).2.2) := by
  have hinit : use_sicm_init E s = Outcome.ret () s [] := by
    unfold use_sicm_init
    rw [hu]
  unfold use_sicm
  rw [hinit]
  rfl

theorem fallback_loop_zero {σ : Type} (E : Sicm σ) (usable : List (Option sicm_device))
    (n i arena sel : Nat) (w : σ) :
    fallback_loop E usable n 0 i arena sel w =
      { i := i, ptr := 0, arena := arena, selected := sel, w := w, log := [] } := rfl

theorem fallback_loop_spec {σ : Type} (E : Sicm σ) (usable : List (Option sicm_device))
    (n : Nat) : ∀ (k i arena sel : Nat) (w : σ),
    ((fallback_loop E usable n k i arena sel w).ptr ≠ 0 →
      (fallback_loop E usable n k i arena sel w).selected =
        (fallback_loop E usable n k i arena sel w).i ∧
      i ≤ (fallback_loop E usable n k i arena sel w).i ∧
      (fallback_loop E usable n k i arena sel w).i < i + k ∧
      (fallback_loop E usable n k i arena sel w).arena ≠ 0) ∧
    ((fallback_loop E usable n k i arena sel w).ptr = 0 →
      (fallback_loop E usable n k i arena sel w).i = i + k ∧
      (fallback_loop E usable n k i arena sel w).selected = sel) ∧
    (∀ src dev a, Event.arena_create src dev a ∈
        (fallback_loop E usable n k i arena sel w).log →
      ∃ j, src = DevArg.usable j ∧ i ≤ j ∧ j < i + k) := by
  intro k
  induction k with
  | zero =>
    intro i arena sel w
    rw [fallback_loop_zero]
    simp
  | succ k ih =>
    intro i arena sel w
    unfold fallback_loop
    by_cases hc : (E.sicm_arena_create w (usable_at usable i)).1 = 0
    · simp only [hc, if_true]
      obtain ⟨h1, h2, h3⟩ := ih (i + 1) 0 sel (E.sicm_arena_create w (usable_at usable i)).2
      refine ⟨?_, ?_, ?_⟩
      · intro hp
        obtain ⟨a, b, c, d⟩ := h1 hp
        exact ⟨a, by omega, by omega, d⟩
      · intro hp
        obtain ⟨a, b⟩ := h2 hp
        exact ⟨by omega, b⟩
      · intro src dev a hmem
        rcases List.mem_cons.mp hmem with heq | hmem
        · cases heq
          exact ⟨i, rfl, le_refl _, by omega⟩
        · obtain ⟨j, hj, h4, h5⟩ := h3 src dev a hmem
          exact ⟨j, hj, by omega, by omega⟩
    · simp only [hc, if_false]
      by_cases hp0 : (E.sicm_arena_alloc (E.sicm_arena_create w (usable_at usable i)).2
          (E.sicm_arena_create w (usable_at usable i)).1 n).1 = 0
      · simp only [hp0, if_true]
        obtain ⟨h1, h2, h3⟩ := ih (i + 1) (E.sicm_arena_create w (usable_at usable i)).1 sel
          (E.sicm_arena_alloc (E.sicm_arena_create w (usable_at usable i)).2
            (E.sicm_arena_create w (usable_at usable i)).1 n).2
        refine ⟨?_, ?_, ?_⟩
        · intro hp
          obtain ⟨a, b, c, d⟩ := h1 hp
          exact ⟨a, by omega, by omega, d⟩
        · intro hp
          obtain ⟨a, b⟩ := h2 hp
          exact ⟨by omega, b⟩
        · intro src dev a hmem
          rcases List.mem_cons.mp hmem with heq | hmem
          · cases heq
            exact ⟨i, rfl, le_refl _, by omega⟩
          · rcases List.mem_cons.mp hmem with heq | hmem
            · cases heq
            · obtain ⟨j, hj, h4, h5⟩ := h3 src dev a hmem
              exact ⟨j, hj, by omega, by omega⟩
      · simp only [hp0, if_false]
        refine ⟨?_, ?_, ?_⟩
        · intro _
          exact ⟨trivial, le_refl _, by omega, hc⟩
        · intro hp
          exact hp.elim
        · intro src dev a hmem
          simp only [List.mem_cons, List.mem_singleton] at hmem
          rcases hmem with heq | heq | heq
          · cases heq
            exact ⟨i, rfl, le_refl _, by omega⟩
          · cases heq
          · rcases heq with heq | heq
            · cases heq
            · cases heq

theorem use_sicm_alloc_spec {σ : Type} (E : Sicm σ) (s : Tiered σ) (n : Nat) :
    s.st.selected ≤ (use_sicm_alloc E s n).2.1.st.selected ∧
    (use_sicm_alloc E s n).2.1.st.usable = s.st.usable ∧
    (use_sicm_alloc E s n).2.1.st.usable_count = s.st.usable_count ∧
    ∃ res rest, (use_sicm_alloc E s n).2.2 = Event.arena_alloc s.st.arena n res :: rest ∧
      ∀ src dev a, Event.arena_create src dev a ∈ rest →
        ∃ j, src = DevArg.usable j ∧ s.st.selected ≤ j := by
  unfold use_sicm_alloc
  by_cases hr : (E.sicm_arena_alloc s.w s.st.arena n).1 = 0
  · simp only [hr, if_true]
    obtain ⟨h1, h2, h3⟩ := fallback_loop_spec E (s.st.usable.getD []) n
      (s.st.usable_count - s.st.selected) s.st.selected s.st.arena s.st.selected
      (E.sicm_arena_alloc s.w s.st.arena n).2
    refine ⟨?_, ?_, ?_, _, _, rfl, ?_⟩
    · split
      · rename_i hi
        by_cases hp : (fallback_loop E (s.st.usable.getD []) n
            (s.st.usable_count - s.st.selected) s.st.selected s.st.arena s.st.selected
            (E.sicm_arena_alloc s.w s.st.arena n).2).ptr = 0
        · have := (h2 hp).1
          simp only
          omega
        · have := (h1 hp).2.1
          simp only
          omega
      · by_cases hp : (fallback_loop E (s.st.usable.getD []) n
            (s.st.usable_count - s.st.selected) s.st.selected s.st.arena s.st.selected
            (E.sicm_arena_alloc s.w s.st.arena n).2).ptr = 0
        · have := (h2 hp).2
          simp only
          omega
        · have := (h1 hp).1
          have := (h1 hp).2.1
          simp only
          omega
    · split <;> rfl
    · split <;> rfl
    · intro src dev a hmem
      rcases List.mem_cons.mp hmem with heq | hmem
      · cases heq
      · rcases List.mem_append.mp hmem with hmem | hmem
        · obtain ⟨j, hj, h4, _⟩ := h3 src dev a hmem
          exact ⟨j, hj, h4⟩
        · rw [List.mem_singleton] at hmem
          split at hmem <;> cases hmem
  · simp only [hr, if_false]
    refine ⟨le_refl _, trivial, trivial, _, _, rfl, ?_⟩
    intro src dev a hmem
    rw [List.mem_singleton] at hmem
    cases hmem

theorem use_sicm_init_spec {σ : Type} (E : Sicm σ) (s s1 : Tiered σ) (log : List Event)
    (h : use_sicm_init E s = Outcome.ret () s1 log) :
    (∃ u, s1.st.usable = some u) ∧
    (s.st.usable = none → s1.st.selected = 0) ∧
    ((∃ u, s.st.usable = some u) → s1 = s ∧ log = []) ∧
    ∀ src dev a, Event.arena_create src dev a ∈ log → src = DevArg.devices 0 := by
  unfold use_sicm_init at h
  split at h
  · rename_i u hu
    cases h
    refine ⟨⟨u, hu⟩, ?_, ?_, ?_⟩
    · intro hn
      rw [hn] at hu
      cases hu
    · intro _
      exact ⟨rfl, rfl⟩
    · intro src dev a hmem
      cases hmem
  · rename_i hu
    simp only at h
    split at h
    · cases h
    · split at h
      · cases h
      · cases h
        refine ⟨⟨_, rfl⟩, ?_, ?_, ?_⟩
        · intro _
          rfl
        · rintro ⟨u, hu1⟩
          rw [hu] at hu1
          cases hu1
        · intro src dev a hmem
          simp only [List.mem_cons, List.mem_singleton] at hmem
          rcases hmem with heq | heq | heq
          · cases heq
          · cases heq
          · rcases heq with heq | heq
            · cases heq
              rfl
            · cases heq

theorem use_sicm_step {σ : Type} (E : Sicm σ) (s s1 : Tiered σ) (n p : Nat)
    (log : List Event) (hs : Entered s.st) (h : use_sicm E s n = Outcome.ret p s1 log) :
    (∃ u, s1.st.usable = some u) ∧
    s.st.selected ≤ s1.st.selected ∧
    ∀ j dev a, Event.arena_create (DevArg.usable j) dev a ∈ log → s.st.selected ≤ j := by
  unfold use_sicm at h
  split at h
  · cases h
  · rename_i u s0 log0 hinit
    cases h
    obtain ⟨⟨u0, hu0⟩, hsel0, hsame, hdev⟩ := use_sicm_init_spec E s s0 log0 hinit
    obtain ⟨hle, hus, _, res, rest, hlog, hcr⟩ := use_sicm_alloc_spec E s0 n
    have hsel : s.st.selected ≤ s0.st.selected := by
      cases hopt : s.st.usable with
      | none =>
        rw [hs hopt]
        exact Nat.zero_le _
      | some u1 =>
        rw [(hsame ⟨u1, hopt⟩).1]
    refine ⟨⟨u0, by rw [hus, hu0]⟩, le_trans hsel hle, ?_⟩
    intro j dev a hmem
    rcases List.mem_cons.mp hmem with heq | hmem
    · cases heq
    · rcases List.mem_append.mp hmem with hmem | hmem
      · have := hdev _ _ _ hmem
        cases this
      · rw [hlog] at hmem
        rcases List.mem_cons.mp hmem with heq | hmem
        · cases heq
        · obtain ⟨j1, hj1, hj2⟩ := hcr _ _ _ hmem
          cases hj1
          exact le_trans hsel hj2

theorem use_sicm_calls_spec {σ : Type} (E : Sicm σ) (ns : List Nat) :
    ∀ (s : Tiered σ), Entered s.st → ∀ r ∈ use_sicm_calls E s ns,
      r.pre.st.selected ≤ r.post.st.selected ∧
      ∀ j dev a, Event.arena_create (DevArg.usable j) dev a ∈ r.log →
        r.pre.st.selected ≤ j := by
  induction ns with
  | nil =>
    intro s _ r hr
    cases hr
  | cons n ns ih =>
    intro s hs r hr
    unfold use_sicm_calls at hr
    split at hr
    · cases hr
    · rename_i p s1 log hcall
      obtain ⟨⟨u, hu⟩, hle, hcr⟩ := use_sicm_step E s s1 n p log hs hcall
      rcases List.mem_cons.mp hr with heq | hr
      · subst heq
        exact ⟨hle, hcr⟩
      · refine ih s1 ?_ r hr
        intro hnone
        rw [hu] at hnone
        cases hnone

theorem fallback_loop_hit {σ : Type} (E : Sicm σ) (u : List (Option sicm_device))
    (n k i ar sel b p : Nat) (w w3 w4 : σ)
    (hB : E.sicm_arena_create w (usable_at u i) = (b, w3)) (hb : b ≠ 0)
    (hp : E.sicm_arena_alloc w3 b n = (p, w4)) (hp0 : p ≠ 0) :
    fallback_loop E u n (k + 1) i ar sel w =
      { i := i, ptr := p, arena := b, selected := i, w := w4,
        log := [Event.arena_create (DevArg.usable i) (usable_at u i) b,
                Event.arena_alloc b n p, Event.msg_new_arena n i] } := by
  unfold fallback_loop
  simp only [hB, hb, hp, hp0, if_false]

theorem fallback_loop_miss {σ : Type} (E : Sicm σ) (u : List (Option sicm_device))
    (n k i ar sel : Nat) (w w2 : σ)
    (hA : E.sicm_arena_create w (usable_at u i) = (0, w2) ∨
      ∃ aA w1, aA ≠ 0 ∧ E.sicm_arena_create w (usable_at u i) = (aA, w1) ∧
        E.sicm_arena_alloc w1 aA n = (0, w2)) :
    ∃ ar1,
      (fallback_loop E u n (k + 1) i ar sel w).i =
        (fallback_loop E u n k (i + 1) ar1 sel w2).i ∧
      (fallback_loop E u n (k + 1) i ar sel w).ptr =
        (fallback_loop E u n k (i + 1) ar1 sel w2).ptr ∧
      (fallback_loop E u n (k + 1) i ar sel w).arena =
        (fallback_loop E u n k (i + 1) ar1 sel w2).arena ∧
      (fallback_loop E u n (k + 1) i ar sel w).selected =
        (fallback_loop E u n k (i + 1) ar1 sel w2).selected ∧
      (fallback_loop E u n (k + 1) i ar sel w).w =
        (fallback_loop E u n k (i + 1) ar1 sel w2).w := by
  rcases hA with hA | ⟨aA, w1, ha, hA, hAp⟩
  · refine ⟨0, ?_⟩
    have h : fallback_loop E u n (k + 1) i ar sel w =
        { fallback_loop E u n k (i + 1) 0 sel w2 with
          log := Event.arena_create (DevArg.usable i) (usable_at u i) 0 ::
            (fallback_loop E u n k (i + 1) 0 sel w2).log } := by
      conv_lhs => unfold fallback_loop
      simp only [hA, if_true]
    rw [h]
    exact ⟨rfl, rfl, rfl, rfl, rfl⟩
  · refine ⟨aA, ?_⟩
    have h : fallback_loop E u n (k + 1) i ar sel w =
        { fallback_loop E u n k (i + 1) aA sel w2 with
          log := Event.arena_create (DevArg.usable i) (usable_at u i) aA ::
            Event.arena_alloc aA n 0 ::
            (fallback_loop E u n k (i + 1) aA sel w2).log } := by
      conv_lhs => unfold fallback_loop
      simp only [hA, ha, hAp, if_true, if_false]
    rw [h]
    exact ⟨rfl, rfl, rfl, rfl, rfl⟩

theorem use_sicm_first_event {σ : Type} (E : Sicm σ) (s : Tiered σ) (m : Nat)
    (u : List (Option sicm_device)) (hu : s.st.usable = some u) :
    ∃ q s2 res rest, use_sicm E s m =
        Outcome.ret q s2 (Event.call_use_sicm m :: Event.arena_alloc s.st.arena m res :: rest) ∧
      s.st.selected ≤ s2.st.selected ∧
      ∀ src dev a, Event.arena_create src dev a ∈ rest →
        ∃ j, src = DevArg.usable j ∧ s.st.selected ≤ j := by
  obtain ⟨hle, _, _, res, rest, hlog, hcr⟩ := use_sicm_alloc_spec E s m
  exact ⟨(use_sicm_alloc E s m).1, (use_sicm_alloc E s m).2.1, res, rest,
    by rw [use_sicm_of_usable E s m u hu, hlog], hle, hcr⟩

theorem sticky_scenario {σ : Type} (E : Sicm σ) (s : Tiered σ) (n : Nat)
    (A B C : sicm_device) (w1 w2 w3 w4 : σ) (b p : Nat)
    (hu : s.st.usable = some [some A, some B, some C])
    (hc : s.st.usable_count = 3) (hsel : s.st.selected = 0)
    (h0 : E.sicm_arena_alloc s.w s.st.arena n = (0, w1))
    (hA : E.sicm_arena_create w1 (some A) = (0, w2) ∨
      ∃ aA w, aA ≠ 0 ∧ E.sicm_arena_create w1 (some A) = (aA, w) ∧
        E.sicm_arena_alloc w aA n = (0, w2))
    (hB : E.sicm_arena_create w2 (some B) = (b, w3)) (hb : b ≠ 0)
    (hp : E.sicm_arena_alloc w3 b n = (p, w4)) (hp0 : p ≠ 0) :
    ∃ log, use_sicm E s n =
      Outcome.ret p { st := { s.st with selected := 1, arena := b }, w := w4 } log := by
  obtain ⟨ar1, e1, e2, e3, e4, e5⟩ := fallback_loop_miss E [some A, some B, some C] n 2 0
    s.st.arena 0 w1 w2 hA
  have hhit := fallback_loop_hit E [some A, some B, some C] n 1 1 ar1 0 b p w2 w3 w4
    hB hb hp hp0
  rw [hhit] at e1 e2 e3 e4 e5
  have e1' : (fallback_loop E [some A, some B, some C] n 3 0 s.st.arena 0 w1).i = 1 := e1
  have e2' : (fallback_loop E [some A, some B, some C] n 3 0 s.st.arena 0 w1).ptr = p := e2
  have e3' : (fallback_loop E [some A, some B, some C] n 3 0 s.st.arena 0 w1).arena = b := e3
  have e4' : (fallback_loop E [some A, some B, some C] n 3 0 s.st.arena 0 w1).selected = 1 :=
    e4
  have e5' : (fallback_loop E [some A, some B, some C] n 3 0 s.st.arena 0 w1).w = w4 := e5
  have hg : s.st.usable.getD [] = [some A, some B, some C] := by rw [hu]; rfl
  have h1 : (use_sicm_alloc E s n).1 = p := by
    unfold use_sicm_alloc
    simp only [h0, if_true, hg, hsel, hc, Nat.sub_zero]
    exact e2'
  have h2 : (use_sicm_alloc E s n).2.1 =
      { st := { s.st with selected := 1, arena := b }, w := w4 } := by
    unfold use_sicm_alloc
    simp only [h0, if_true, hg, hsel, hc, Nat.sub_zero]
    rw [e1', e3', e4', e5']
    simp [hc]
  exact ⟨_, by rw [use_sicm_of_usable E s n _ hu, h1, h2]⟩

/-- C6: along every sequence of `use_sicm` calls, from the initial statics
(which are `Entered`) or from any initialised ones, `selected` does not
decrease, and a call entered with `selected = s` calls `sicm_arena_create` on
no `usable[j]` with `j < s`.  For
the catalog `[A, B, C]` with `selected = 0`: when the current arena fails,
`A` fails (no new arena, or the new arena does not allocate) and `B` yields
the arena `b` that allocates `p`, the call returns `p` with `selected = 1` and
`arena = b`; every next call first allocates from `b`, and each arena it
creates is on a `usable[j]` with `1 ≤ j`, so `A` is not touched. -/
theorem use_sicm_no_retry {σ : Type} (E : Sicm σ) :
    Entered Statics.initial ∧
    (∀ (s : Tiered σ) (ns : List Nat), Entered s.st → ∀ r ∈ use_sicm_calls E s ns,
      r.pre.st.selected ≤ r.post.st.selected ∧
      ∀ j dev a, Event.arena_create (DevArg.usable j) dev a ∈ r.log →
        r.pre.st.selected ≤ j) ∧
    (∀ (s : Tiered σ) (n : Nat) (A B C : sicm_device) (w1 w2 w3 w4 : σ) (b p : Nat),
      s.st.usable = some [some A, some B, some C] →
      s.st.usable_count = 3 →
      s.st.selected = 0 →
      E.sicm_arena_alloc s.w s.st.arena n = (0, w1) →
      (E.sicm_arena_create w1 (some A) = (0, w2) ∨
        ∃ aA w, aA ≠ 0 ∧ E.sicm_arena_create w1 (some A) = (aA, w) ∧
          E.sicm_arena_alloc w aA n = (0, w2)) →
      E.sicm_arena_create w2 (some B) = (b, w3) →
      b ≠ 0 →
      E.sicm_arena_alloc w3 b n = (p, w4) →
      p ≠ 0 →
      ∃ log, use_sicm E s n =
          Outcome.ret p { st := { s.st with selected := 1, arena := b }, w := w4 } log ∧
        ∀ m, ∃ q s2 res rest,
          use_sicm E { st := { s.st with selected := 1, arena := b }, w := w4 } m =
            Outcome.ret q s2
              (Event.call_use_sicm m :: Event.arena_alloc b m res :: rest) ∧
          1 ≤ s2.st.selected ∧
          ∀ src dev a, Event.arena_create src dev a ∈ rest →
            ∃ j, src = DevArg.usable j ∧ 1 ≤ j) := by
  refine ⟨fun _ => rfl, ?_, ?_⟩
  · intro s ns hs r hr
    exact use_sicm_calls_spec E ns s hs r hr
  · intro s n A B C w1 w2 w3 w4 b p hu hc hsel h0 hA hB hb hp hp0
    obtain ⟨log, hlog⟩ := sticky_scenario E s n A B C w1 w2 w3 w4 b p hu hc hsel h0 hA hB hb
      hp hp0
    refine ⟨log, hlog, ?_⟩
    intro m
    exact use_sicm_first_event E { st := { s.st with selected := 1, arena := b }, w := w4 } m
      [some A, some B, some C] hu

/-- Witness for C6: the first call in the world `abc`, and the catalog
`[hbm 0, hbm 1, dram 2]` where the arena on `hbm 0` fails and `hbm 1` gives
the arena `2` that allocates `4096`. -/
theorem use_sicm_no_retry_witness :
    (abc_first_call.pre.st.selected ≤ abc_first_call.post.st.selected ∧
      ∀ j dev a, Event.arena_create (DevArg.usable j) dev a ∈ abc_first_call.log →
        abc_first_call.pre.st.selected ≤ j) ∧
    (∃ log, use_sicm scripted abc_ready 64 =
          Outcome.ret 4096
            { st := { abc_ready.st with selected := 1, arena := 2 },
              w := abc_world [] [8192] } log ∧
        ∀ m, ∃ q s2 res rest,
          use_sicm scripted
              { st := { abc_ready.st with selected := 1, arena := 2 },
                w := abc_world [] [8192] } m =
            Outcome.ret q s2
              (Event.call_use_sicm m :: Event.arena_alloc 2 m res :: rest) ∧
          1 ≤ s2.st.selected ∧
          ∀ src dev a, Event.arena_create src dev a ∈ rest →
            ∃ j, src = DevArg.usable j ∧ 1 ≤ j) :=
  ⟨(use_sicm_no_retry scripted).2.1 { st := Statics.initial, w := abc } [64, 64]
      (use_sicm_no_retry scripted).1 abc_first_call (List.Mem.head _),
    (use_sicm_no_retry scripted).2.2 abc_ready 64 (hbm 0) (hbm 1) (dram 2)
      (abc_world [0, 2] [4096, 8192]) (abc_world [2] [4096, 8192])
      (abc_world [] [4096, 8192]) (abc_world [] [8192]) 2 4096
      rfl rfl rfl rfl (Or.inl rfl) rfl (by decide) rfl (by decide)⟩

/-! ## Permanent exhaustion -/

theorem use_sicm_spent {σ : Type} (E : Sicm σ) (s : Tiered σ)
    (u : List (Option sicm_device)) (n : Nat)
    (hu : s.st.usable = some u) (hsel : s.st.selected = s.st.usable_count)
    (har : s.st.arena = 0) (hnull : ∀ w k, (E.sicm_arena_alloc w 0 k).1 = 0) :
    use_sicm E s n =
      Outcome.ret 0 { st := s.st, w := (E.sicm_arena_alloc s.w 0 n).2 }
        [Event.call_use_sicm n, Event.arena_alloc 0 n 0,
         Event.warn_old_arena s.st.usable_count (usable_at u s.st.usable_count),
         Event.warn_failed n] := by
  have hst : ({ s.st with selected := s.st.usable_count, arena := 0 } : Statics) = s.st := by
    cases hs : s.st with
    | mk devs usable count selected arena =>
      rw [hs] at hsel har
      simp only at hsel har
      subst hsel har
      rfl
  have hg : s.st.usable.getD [] = u := by rw [hu]; rfl
  rw [use_sicm_of_usable E s n u hu]
  unfold use_sicm_alloc
  simp only [har, hnull, hsel, Nat.sub_self, fallback_loop_zero, if_true, hg,
    List.nil_append]
  rw [hst]

/-- A call in an exhausted state: when `selected = usable_count`, the arena is
null, allocation from a null arena fails and the slot `usable[usable_count]`
holds no device (it was not written or lies outside the array), the behaviour
of `use_sicm` is undefined at the warning of line 205. -/
theorem use_sicm_run_spent {σ : Type} (E : Sicm σ) (s : Tiered σ)
    (u : List (Option sicm_device)) (n : Nat)
    (hu : s.st.usable = some u) (hsel : s.st.selected = s.st.usable_count)
    (har : s.st.arena = 0) (hnull : ∀ w k, (E.sicm_arena_alloc w 0 k).1 = 0)
    (hslot : usable_at u s.st.usable_count = none) :
    use_sicm_run E s n =
      Run.undefined Fault.invalid_pointer
        [Event.call_use_sicm n, Event.arena_alloc 0 n 0,
         Event.warn_old_arena s.st.usable_count none] := by
  unfold use_sicm_run
  rw [use_sicm_spent E s u n hu hsel har hnull, hslot]
  rfl

theorem store_usable_dev_count (devs : List sicm_device) (p : sicm_device_tag) :
    ∀ (n : Nat) (acc : List (Option sicm_device) × Nat), n ≤ devs.length →
      ((List.range n).foldl (store_usable_dev devs p) acc).2 =
        acc.2 + (devs.take n).countP (fun d => decide (d.tag = p)) := by
  intro n
  induction n with
  | zero =>
    intro acc _
    simp
  | succ n ih =>
    intro acc hn
    have hlt : n < devs.length := hn
    rw [List.range_succ, List.foldl_append, List.foldl_cons, List.foldl_nil]
    have hget : devs.get? n = some (devs.get ⟨n, hlt⟩) := List.get?_eq_get hlt
    have htake : devs.take (n + 1) = devs.take n ++ [devs.get ⟨n, hlt⟩] := by
      rw [List.take_succ, List.getElem?_eq_getElem hlt]
      rfl
    have hstep : ∀ a : List (Option sicm_device) × Nat, store_usable_dev devs p a n =
        if (devs.get ⟨n, hlt⟩).tag = p then (a.1.set n (some (devs.get ⟨n, hlt⟩)), a.2 + 1)
        else a := by
      intro a
      unfold store_usable_dev
      rw [hget]
    rw [htake, List.countP_append, hstep]
    by_cases ht : (devs.get ⟨n, hlt⟩).tag = p
    · have ht1 : devs[n].tag = p := ht
      simp only [ht, if_true]
      rw [ih acc (Nat.le_of_lt hlt)]
      simp [List.countP_cons, ht1]
      omega
    · have ht1 : ¬ devs[n].tag = p := ht
      simp only [ht, if_false]
      rw [ih acc (Nat.le_of_lt hlt)]
      simp [List.countP_cons, ht1]

theorem store_usable_count (devs : List sicm_device) (usable : List (Option sicm_device)) :
    (store_usable devs preferences usable).2 =
      devs.countP (fun d => decide (d.tag = sicm_device_tag.SICM_KNL_HBM)) +
      devs.countP (fun d => decide (d.tag = sicm_device_tag.SICM_DRAM)) := by
  unfold store_usable preferences
  simp only [List.foldl_cons, List.foldl_nil]
  rw [store_usable_dev_count devs _ devs.length _ (le_refl _),
    store_usable_dev_count devs _ devs.length _ (le_refl _)]
  simp

theorem store_usable_count_eq_zero (devs : List sicm_device)
    (usable : List (Option sicm_device)) :
    (store_usable devs preferences usable).2 = 0 ↔ ∀ d ∈ devs, d.tag ∉ preferences := by
  rw [store_usable_count]
  unfold preferences
  constructor
  · intro h d hd hmem
    have h1 : devs.countP (fun d => decide (d.tag = sicm_device_tag.SICM_KNL_HBM)) = 0 := by
      omega
    have h2 : devs.countP (fun d => decide (d.tag = sicm_device_tag.SICM_DRAM)) = 0 := by
      omega
    rw [List.countP_eq_zero] at h1 h2
    have a1 := h1 d hd
    have a2 := h2 d hd
    simp only [List.mem_cons, List.mem_singleton, List.not_mem_nil, or_false] at hmem
    rcases hmem with hm | hm
    · simp [hm] at a1
    · simp [hm] at a2
  · intro h
    have h1 : devs.countP (fun d => decide (d.tag = sicm_device_tag.SICM_KNL_HBM)) = 0 := by
      rw [List.countP_eq_zero]
      intro d hd
      have := h d hd
      simp only [List.mem_cons, List.mem_singleton, List.not_mem_nil, or_false] at this
      simp
      exact fun hc => this (Or.inl hc)
    have h2 : devs.countP (fun d => decide (d.tag = sicm_device_tag.SICM_DRAM)) = 0 := by
      rw [List.countP_eq_zero]
      intro d hd
      have := h d hd
      simp only [List.mem_cons, List.mem_singleton, List.not_mem_nil, or_false] at this
      simp
      exact fun hc => this (Or.inr hc)
    omega

/-- C8, the code at two failing inputs.  For the discovered devices
`[dram 0, hbm 1]` the loops of lines 181-189 leave `usable = [dram 0, hbm 1]`
(each device in the slot of its own discovery index) with `usable_count = 2`,
and the state after the first `use_sicm` call holds this array, while the
preference-ranked catalog is `[hbm 1, dram 0]`.  For `[optane 0, dram 1]` they
leave slot `0` unwritten and `usable_count = 1`, so the first `usable_count`
slots hold no device, while the ranked catalog is `[dram 1]`. -/
theorem catalog_not_in_rank_order :
    store_usable [dram 0, hbm 1] preferences (List.replicate 2 none) =
      ([some (dram 0), some (hbm 1)], 2) ∧
    catalog_by_rank [dram 0, hbm 1] = [hbm 1, dram 0] ∧
    (∃ s1 log, use_sicm scripted { st := Statics.initial, w := dram_hbm } 64 =
        Outcome.ret 4096 s1 log ∧
      s1.st.usable = some [some (dram 0), some (hbm 1)] ∧ s1.st.usable_count = 2) ∧
    store_usable [optane 0, dram 1] preferences (List.replicate 2 none) =
      ([none, some (dram 1)], 1) ∧
    catalog_by_rank [optane 0, dram 1] = [dram 1] :=
  ⟨rfl, rfl, ⟨_, _, rfl, rfl, rfl⟩, rfl, rfl⟩

/-! ## No usable device -/

/-- C9, as stated, fails: on a first call in a world whose only device matches
no preference and whose `malloc` returns null for the catalog buffer, the
error raised is the one of line 177, not the "no devices with the given
preferences" error of line 192. -/
theorem use_sicm_no_buffer_error :
    (∀ d ∈ no_buffer.devices, d.tag ∉ preferences) ∧
    use_sicm scripted { st := Statics.initial, w := no_buffer } 8 =
      Outcome.fatal Fatal.no_space_for_usable
        [Event.call_use_sicm 8, Event.sicm_init, Event.malloc 8 0] ∧
    ¬ ∃ log, use_sicm scripted { st := Statics.initial, w := no_buffer } 8 =
      Outcome.fatal Fatal.no_preferred_device log := by
  have h : use_sicm scripted { st := Statics.initial, w := no_buffer } 8 =
      Outcome.fatal Fatal.no_space_for_usable
        [Event.call_use_sicm 8, Event.sicm_init, Event.malloc 8 0] := rfl
  refine ⟨by decide, h, ?_⟩
  rintro ⟨log, hlog⟩
  rw [h] at hlog
  cases hlog

/-- C9, amended: on a first call (`usable` still null) in which `malloc`
returns the catalog buffer, `use_sicm` raises the error of line 192 if and
only if no discovered device has a tag of the preference list, which is when
the loops leave `usable_count = 0`; when it is raised, the events so far are
the call, `sicm_init` and `malloc`: no arena was created, no allocation
attempted. -/
theorem use_sicm_no_device_iff {σ : Type} (E : Sicm σ) (s : Tiered σ) (n : Nat)
    (hfirst : s.st.usable = none)
    (hbuf : (E.malloc (E.sicm_init s.w).2
      (((E.sicm_init s.w).1.length * sizeof_ptr) % SIZE_MOD)).1 ≠ 0) :
    ((∃ log, use_sicm E s n = Outcome.fatal Fatal.no_preferred_device log) ↔
      ∀ d ∈ (E.sicm_init s.w).1, d.tag ∉ preferences) ∧
    ((store_usable (E.sicm_init s.w).1 preferences
        (List.replicate (E.sicm_init s.w).1.length none)).2 = 0 ↔
      ∀ d ∈ (E.sicm_init s.w).1, d.tag ∉ preferences) ∧
    (∀ log, use_sicm E s n = Outcome.fatal Fatal.no_preferred_device log →
      log = [Event.call_use_sicm n, Event.sicm_init,
        Event.malloc (((E.sicm_init s.w).1.length * sizeof_ptr) % SIZE_MOD)
          (E.malloc (E.sicm_init s.w).2
            (((E.sicm_init s.w).1.length * sizeof_ptr) % SIZE_MOD)).1]) := by
  have hcount := store_usable_count_eq_zero (E.sicm_init s.w).1
    (List.replicate (E.sicm_init s.w).1.length none)
  by_cases hz : (store_usable (E.sicm_init s.w).1 preferences
      (List.replicate (E.sicm_init s.w).1.length none)).2 = 0
  · have hcall : use_sicm E s n = Outcome.fatal Fatal.no_preferred_device
        [Event.call_use_sicm n, Event.sicm_init,
          Event.malloc (((E.sicm_init s.w).1.length * sizeof_ptr) % SIZE_MOD)
            (E.malloc (E.sicm_init s.w).2
              (((E.sicm_init s.w).1.length * sizeof_ptr) % SIZE_MOD)).1] := by
      unfold use_sicm use_sicm_init
      rw [hfirst]
      simp only [if_neg hbuf, if_pos hz]
    refine ⟨⟨fun _ => hcount.mp hz, fun _ => ⟨_, hcall⟩⟩, hcount, ?_⟩
    intro log hlog
    rw [hcall] at hlog
    cases hlog
    rfl
  · have hcall : ∀ log, use_sicm E s n ≠ Outcome.fatal Fatal.no_preferred_device log := by
      intro log hlog
      unfold use_sicm use_sicm_init at hlog
      rw [hfirst] at hlog
      simp only [if_neg hbuf, if_neg hz] at hlog
      cases hlog
    refine ⟨⟨?_, ?_⟩, hcount, ?_⟩
    · rintro ⟨log, hlog⟩
      exact absurd hlog (hcall log)
    · intro hall
      exact absurd (hcount.mpr hall) hz
    · intro log hlog
      exact absurd hlog (hcall log)

/-- Witness for the amended C9: the world `one_optane`, whose `malloc`
returns `8` and whose only device matches no preference. -/
theorem use_sicm_no_device_iff_witness :
    ((∃ log, use_sicm scripted { st := Statics.initial, w := one_optane } 8 =
        Outcome.fatal Fatal.no_preferred_device log) ↔
      ∀ d ∈ (scripted.sicm_init one_optane).1, d.tag ∉ preferences) ∧
    ((store_usable (scripted.sicm_init one_optane).1 preferences
        (List.replicate (scripted.sicm_init one_optane).1.length none)).2 = 0 ↔
      ∀ d ∈ (scripted.sicm_init one_optane).1, d.tag ∉ preferences) ∧
    (∀ log, use_sicm scripted { st := Statics.initial, w := one_optane } 8 =
        Outcome.fatal Fatal.no_preferred_device log →
      log = [Event.call_use_sicm 8, Event.sicm_init,
        Event.malloc (((scripted.sicm_init one_optane).1.length * sizeof_ptr) % SIZE_MOD)
          (scripted.malloc (scripted.sicm_init one_optane).2
            (((scripted.sicm_init one_optane).1.length * sizeof_ptr) % SIZE_MOD)).1]) :=
  use_sicm_no_device_iff scripted { st := Statics.initial, w := one_optane } 8 rfl
    (by decide)

/-! ## The free functions -/

/-- C10: `util_free` and `util_free_aligned` do nothing for a null `mem_ref`;
for a handle that holds null they call `sicm_free` zero times; otherwise they
call it exactly once (on the handle's pointer, resp. on the word of the header
before it) and set the handle to null.  Hence a second call with the handle as
the first call left it, in the state the first call left, makes no call of
`sicm_free` and changes neither the handle nor the state. -/
theorem util_free_once {σ : Type} (E : Sicm σ) (s : Prog σ) (mem_ref : Option Nat) :
    util_free E s none = (none, s, []) ∧
    util_free_aligned E s none = (none, s, []) ∧
    util_free E s (some 0) = (some 0, s, []) ∧
    util_free_aligned E s (some 0) = (some 0, s, []) ∧
    (∀ m, m ≠ 0 → util_free E s (some m) =
      (some 0, { s with t := { s.t with w := E.sicm_free s.t.w m } }, [Event.sicm_free m])) ∧
    (∀ m, m ≠ 0 → util_free_aligned E s (some m) =
      (some 0, { s with t := { s.t with w := E.sicm_free s.t.w (s.heap (header_addr m)) } },
        [Event.sicm_free (s.heap (header_addr m))])) ∧
    util_free E (util_free E s mem_ref).2.1 (util_free E s mem_ref).1 =
      ((util_free E s mem_ref).1, (util_free E s mem_ref).2.1, []) ∧
    util_free_aligned E (util_free_aligned E s mem_ref).2.1 (util_free_aligned E s mem_ref).1 =
      ((util_free_aligned E s mem_ref).1, (util_free_aligned E s mem_ref).2.1, []) := by
  refine ⟨rfl, rfl, rfl, rfl, ?_, ?_, ?_, ?_⟩
  · intro m hm
    unfold util_free
    simp only [if_neg hm]
  · intro m hm
    unfold util_free_aligned
    simp only [if_neg hm]
  · cases mem_ref with
    | none => rfl
    | some m =>
      by_cases hm : m = 0
      · subst hm
        rfl
      · have h : util_free E s (some m) =
            (some 0, { s with t := { s.t with w := E.sicm_free s.t.w m } },
              [Event.sicm_free m]) := by
          unfold util_free
          simp only [if_neg hm]
        rw [h]
        rfl
  · cases mem_ref with
    | none => rfl
    | some m =>
      by_cases hm : m = 0
      · subst hm
        rfl
      · have h : util_free_aligned E s (some m) =
            (some 0,
              { s with t := { s.t with w := E.sicm_free s.t.w (s.heap (header_addr m)) } },
              [Event.sicm_free (s.heap (header_addr m))]) := by
          unfold util_free_aligned
          simp only [if_neg hm]
        rw [h]
        rfl

/-- Witness for C10: the handle holds `4160`. -/
theorem util_free_once_witness :
    util_free scripted (Prog.start one_hbm) (some 4160) =
      (some 0,
        { Prog.start one_hbm with
          t := { (Prog.start one_hbm).t with
                 w := scripted.sicm_free (Prog.start one_hbm).t.w 4160 } },
        [Event.sicm_free 4160]) ∧
    util_free_aligned scripted (Prog.start one_hbm) (some 4160) =
      (some 0,
        { Prog.start one_hbm with
          t := { (Prog.start one_hbm).t with
                 w := scripted.sicm_free (Prog.start one_hbm).t.w
                   ((Prog.start one_hbm).heap (header_addr 4160)) } },
        [Event.sicm_free ((Prog.start one_hbm).heap (header_addr 4160))]) :=
  ⟨(util_free_once scripted (Prog.start one_hbm) (some 4160)).2.2.2.2.1 4160 (by decide),
   (util_free_once scripted (Prog.start one_hbm) (some 4160)).2.2.2.2.2.1 4160 (by decide)⟩

/-! ## The slot at `usable_count` -/

theorem store_usable_dev_slot (devs : List sicm_device) (p : sicm_device_tag)
    (acc : List (Option sicm_device) × Nat) (i k : Nat) (d : sicm_device)
    (h : usable_at (store_usable_dev devs p acc i).1 k = some d) :
    usable_at acc.1 k = some d ∨ (devs.get? k = some d ∧ d.tag = p) := by
  unfold store_usable_dev at h
  cases hd : devs.get? i with
  | none =>
    rw [hd] at h
    exact Or.inl h
  | some dev =>
    rw [hd] at h
    by_cases ht : dev.tag = p
    · simp only [if_pos ht] at h
      by_cases hik : i = k
      · subst hik
        unfold usable_at at h
        rw [List.get?_eq_getElem?, List.getElem?_set] at h
        simp only [if_true] at h
        by_cases hlen : i < acc.1.length
        · simp only [if_pos hlen, Option.join] at h
          have hdev : dev = d := by
            simpa using h
          subst hdev
          exact Or.inr ⟨hd, ht⟩
        · simp only [if_neg hlen, Option.join] at h
          simp at h
      · left
        unfold usable_at at h ⊢
        rw [List.get?_eq_getElem?, List.getElem?_set_ne hik] at h
        rw [List.get?_eq_getElem?]
        exact h
    · simp only [if_neg ht] at h
      exact Or.inl h

theorem store_usable_range_slot (devs : List sicm_device) (p : sicm_device_tag) :
    ∀ (n : Nat) (acc : List (Option sicm_device) × Nat) (k : Nat) (d : sicm_device),
      usable_at ((List.range n).foldl (store_usable_dev devs p) acc).1 k = some d →
      usable_at acc.1 k = some d ∨ (devs.get? k = some d ∧ d.tag = p) := by
  intro n
  induction n with
  | zero =>
    intro acc k d h
    exact Or.inl h
  | succ n ih =>
    intro acc k d h
    rw [List.range_succ, List.foldl_append] at h
    simp only [List.foldl_cons, List.foldl_nil] at h
    rcases store_usable_dev_slot devs p _ n k d h with h1 | h1
    · exact ih acc k d h1
    · exact Or.inr h1

/-- A slot that the loops of lines 181-189 wrote holds the device of the same
index, and that device matches a preference. -/
theorem store_usable_slot (devs : List sicm_device) (k : Nat) (d : sicm_device)
    (h : usable_at (store_usable devs preferences (List.replicate devs.length none)).1 k =
      some d) :
    devs.get? k = some d ∧ d.tag ∈ preferences := by
  unfold store_usable preferences at h
  simp only [List.foldl_cons, List.foldl_nil] at h
  rcases store_usable_range_slot devs _ _ _ k d h with h1 | h1
  · rcases store_usable_range_slot devs _ _ _ k d h1 with h2 | h2
    · unfold usable_at at h2
      rw [List.get?_eq_getElem?, List.getElem?_replicate] at h2
      split at h2 <;> simp [Option.join] at h2
    · exact ⟨h2.1, by rw [h2.2]; unfold preferences; simp⟩
  · exact ⟨h1.1, by rw [h1.2]; unfold preferences; simp⟩

theorem countP_preferences (devs : List sicm_device) :
    devs.countP (fun d => decide (d.tag = sicm_device_tag.SICM_KNL_HBM)) +
      devs.countP (fun d => decide (d.tag = sicm_device_tag.SICM_DRAM)) =
    devs.countP (fun d => decide (d.tag ∈ preferences)) := by
  induction devs with
  | nil => rfl
  | cons x xs ih =>
    rw [List.countP_cons, List.countP_cons, List.countP_cons, ← ih]
    unfold preferences
    cases hx : x.tag <;> simp <;> omega

/-- When every slot below `usable_count` was written by the loops of lines
181-189, the slot `usable[usable_count]` was not: it lies outside the array or
was left unwritten. -/
theorem store_usable_count_slot (devs : List sicm_device)
    (h : ∀ i, i < (store_usable devs preferences (List.replicate devs.length none)).2 →
      usable_at (store_usable devs preferences (List.replicate devs.length none)).1 i ≠ none) :
    usable_at (store_usable devs preferences (List.replicate devs.length none)).1
      (store_usable devs preferences (List.replicate devs.length none)).2 = none := by
  have hcount := store_usable_count devs (List.replicate devs.length none)
  rw [countP_preferences] at hcount
  generalize (store_usable devs preferences (List.replicate devs.length none)).2 = c at h hcount ⊢
  by_contra hcon
  obtain ⟨d, hd⟩ := Option.ne_none_iff_exists'.mp hcon
  have hlt : c < devs.length := by
    have := (store_usable_slot devs c d hd).1
    rw [List.get?_eq_getElem?] at this
    exact (List.getElem?_eq_some.mp this).1
  have hall : ∀ a ∈ devs.take (c + 1), decide (a.tag ∈ preferences) = true := by
    intro a ha
    obtain ⟨i, hi, hia⟩ := List.mem_take_iff_getElem.mp ha
    have hic : i < c + 1 := by
      have := Nat.lt_min.mp hi
      exact this.1
    have hil : i < devs.length := (Nat.lt_min.mp hi).2
    have hwritten : usable_at
        (store_usable devs preferences (List.replicate devs.length none)).1 i ≠ none := by
      by_cases hic2 : i < c
      · exact h i hic2
      · have : i = c := by omega
        rw [this]
        exact hcon
    obtain ⟨d1, hd1⟩ := Option.ne_none_iff_exists'.mp hwritten
    obtain ⟨hget, hpref⟩ := store_usable_slot devs i d1 hd1
    rw [List.get?_eq_getElem?, List.getElem?_eq_getElem hil] at hget
    have : a = d1 := by
      rw [← hia]
      exact Option.some.inj hget
    rw [this]
    exact decide_eq_true hpref
  have hfull : (devs.take (c + 1)).countP (fun d => decide (d.tag ∈ preferences)) = c + 1 := by
    rw [List.countP_eq_length.mpr hall, List.length_take]
    omega
  have hsplit := List.countP_append (fun d => decide (d.tag ∈ preferences))
    (devs.take (c + 1)) (devs.drop (c + 1))
  rw [List.take_append_drop] at hsplit
  omega

/-- A call in an exhausted state over a discovered catalog.  Let the array
`usable` and `usable_count` be as the loops of lines 181-189 leave them for the
devices `devs`, with every slot below `usable_count` written (so that no scan
of the catalog met an unwritten slot).  If `selected = usable_count`, the arena
is null and allocation from a null arena fails, the behaviour of `use_sicm` is
undefined at the warning of line 205, which dereferences
`usable[usable_count]`. -/
theorem use_sicm_run_exhausted {σ : Type} (E : Sicm σ) (s : Tiered σ) (n : Nat)
    (devs : List sicm_device)
    (hu : s.st.usable =
      some (store_usable devs preferences (List.replicate devs.length none)).1)
    (hcount : s.st.usable_count =
      (store_usable devs preferences (List.replicate devs.length none)).2)
    (hwritten : ∀ i, i < s.st.usable_count →
      usable_at (store_usable devs preferences (List.replicate devs.length none)).1 i ≠ none)
    (hsel : s.st.selected = s.st.usable_count) (har : s.st.arena = 0)
    (hnull : ∀ w k, (E.sicm_arena_alloc w 0 k).1 = 0) :
    use_sicm_run E s n =
      Run.undefined Fault.invalid_pointer
        [Event.call_use_sicm n, Event.arena_alloc 0 n 0,
         Event.warn_old_arena s.st.usable_count none] := by
  refine use_sicm_run_spent E s _ n hu hsel har hnull ?_
  rw [hcount]
  apply store_usable_count_slot
  rw [← hcount]
  exact hwritten

/-! ## The fast path -/

/-- The fast path on a written slot: in an initialised state whose slot
`usable[selected]` holds a device, if the allocation of `n` from the current
arena succeeds, `use_sicm` returns exactly that pointer; its events are the
call, that one `sicm_arena_alloc` and the report of line 231, so
`sicm_arena_create` is called zero times; the statics are unchanged. -/
theorem use_sicm_run_fast_path {σ : Type} (E : Sicm σ) (s : Tiered σ)
    (u : List (Option sicm_device)) (n : Nat) (d : sicm_device)
    (hu : s.st.usable = some u) (hslot : usable_at u s.st.selected = some d)
    (hok : (E.sicm_arena_alloc s.w s.st.arena n).1 ≠ 0) :
    use_sicm_run E s n =
      Run.ret (E.sicm_arena_alloc s.w s.st.arena n).1
        { st := s.st, w := (E.sicm_arena_alloc s.w s.st.arena n).2 }
        [Event.call_use_sicm n,
         Event.arena_alloc s.st.arena n (E.sicm_arena_alloc s.w s.st.arena n).1,
         Event.msg_allocated n s.st.selected (some d)] := by
  have hg : s.st.usable.getD [] = u := by rw [hu]; rfl
  unfold use_sicm_run
  rw [use_sicm_of_usable E s n u hu]
  unfold use_sicm_alloc
  simp only [if_neg hok, hg, hslot]
  exact run_ret_of_valid _ _ _ rfl

/-- C12, the code at the failing input.  For the discovered devices
`[optane 0, dram 1]` the initialisation block leaves the initialised state
`optane_ready`, in which `selected = 0` and the slot `usable[0]` was never
written.  The allocation of 64 bytes from the current arena succeeds with
`4096`; the report of line 231 then dereferences `usable[0]`, so the call does
not return the pointer: its behaviour is undefined at that read.  The same
holds of the first call as a whole.  In the state `fast_ready`, whose slot
`usable[0]` was written, the same call returns the pointer `4096` after the
one allocation and the report, with the statics unchanged. -/
theorem fast_path_reads_unwritten_slot :
    use_sicm_init scripted { st := Statics.initial, w := optane_dram } =
      Outcome.ret () optane_ready
        [Event.sicm_init, Event.malloc 16 16,
         Event.arena_create (DevArg.devices 0) (some (optane 0)) 1] ∧
    optane_ready.st.usable = some [none, some (dram 1)] ∧
    optane_ready.st.selected = 0 ∧
    (scripted.sicm_arena_alloc optane_ready.w optane_ready.st.arena 64).1 = 4096 ∧
    use_sicm_run scripted optane_ready 64 =
      Run.undefined Fault.invalid_pointer
        [Event.call_use_sicm 64, Event.arena_alloc 1 64 4096,
         Event.msg_allocated 64 0 none] ∧
    use_sicm_run scripted { st := Statics.initial, w := optane_dram } 64 =
      Run.undefined Fault.invalid_pointer
        [Event.call_use_sicm 64, Event.sicm_init, Event.malloc 16 16,
         Event.arena_create (DevArg.devices 0) (some (optane 0)) 1,
         Event.arena_alloc 1 64 4096,
         Event.msg_allocated 64 0 none] ∧
    use_sicm_run scripted fast_ready 64 =
      Run.ret 4096 { st := fast_ready.st, w := abc_world [5] [] }
        [Event.call_use_sicm 64, Event.arena_alloc 1 64 4096,
         Event.msg_allocated 64 0 (some (hbm 0))] :=
  ⟨rfl, rfl, rfl, rfl, rfl, rfl, rfl⟩

/-! ## The invariant of the statics -/

theorem use_sicm_alloc_inv {σ : Type} (E : Sicm σ) (s : Tiered σ) (n : Nat)
    (hle : s.st.selected ≤ s.st.usable_count)
    (hnull : s.st.selected = s.st.usable_count → s.st.arena = 0) :
    (use_sicm_alloc E s n).2.1.st.selected ≤ (use_sicm_alloc E s n).2.1.st.usable_count ∧
    ((use_sicm_alloc E s n).2.1.st.selected = (use_sicm_alloc E s n).2.1.st.usable_count →
      (use_sicm_alloc E s n).2.1.st.arena = 0) := by
  unfold use_sicm_alloc
  by_cases hr : (E.sicm_arena_alloc s.w s.st.arena n).1 = 0
  · simp only [hr, if_true]
    obtain ⟨h1, h2, _⟩ := fallback_loop_spec E (s.st.usable.getD []) n
      (s.st.usable_count - s.st.selected) s.st.selected s.st.arena s.st.selected
      (E.sicm_arena_alloc s.w s.st.arena n).2
    split
    · exact ⟨le_refl _, fun _ => rfl⟩
    · rename_i hi
      by_cases hp : (fallback_loop E (s.st.usable.getD []) n
          (s.st.usable_count - s.st.selected) s.st.selected s.st.arena s.st.selected
          (E.sicm_arena_alloc s.w s.st.arena n).2).ptr = 0
      · have := (h2 hp).1
        exact absurd (by omega) hi
      · obtain ⟨e1, e2, e3, _⟩ := h1 hp
        simp only
        constructor
        · omega
        · intro heq
          omega
  · simp only [hr, if_false]
    exact ⟨hle, hnull⟩

theorem use_sicm_init_inv {σ : Type} (E : Sicm σ) (s s1 : Tiered σ) (log : List Event)
    (hnone : s.st.usable = none) (h : use_sicm_init E s = Outcome.ret () s1 log) :
    s1.st.selected = 0 ∧ s1.st.usable_count ≠ 0 := by
  unfold use_sicm_init at h
  rw [hnone] at h
  simp only at h
  split at h
  · cases h
  · split at h
    · cases h
    · rename_i hz
      cases h
      exact ⟨rfl, hz⟩

/-- The statics are uninitialised, or `selected ≤ usable_count` and an
exhausted `selected` goes with a null `arena`. -/
theorem use_sicm_step_inv {σ : Type} (E : Sicm σ) (s s1 : Tiered σ) (n p : Nat)
    (log : List Event)
    (hs : s.st.usable = none ∨ (s.st.selected ≤ s.st.usable_count ∧
      (s.st.selected = s.st.usable_count → s.st.arena = 0)))
    (h : use_sicm E s n = Outcome.ret p s1 log) :
    (∃ u, s1.st.usable = some u) ∧ s1.st.selected ≤ s1.st.usable_count ∧
      (s1.st.selected = s1.st.usable_count → s1.st.arena = 0) := by
  unfold use_sicm at h
  split at h
  · cases h
  · rename_i u0 s0 log0 hinit
    cases h
    obtain ⟨⟨u, hu⟩, _, hsame, _⟩ := use_sicm_init_spec E s s0 log0 hinit
    obtain ⟨_, hus, _, _⟩ := use_sicm_alloc_spec E s0 n
    have hpre : s0.st.selected ≤ s0.st.usable_count ∧
        (s0.st.selected = s0.st.usable_count → s0.st.arena = 0) := by
      cases hopt : s.st.usable with
      | none =>
        obtain ⟨a, b⟩ := use_sicm_init_inv E s s0 log0 hopt hinit
        exact ⟨by omega, fun heq => absurd (by omega) b⟩
      | some u1 =>
        rw [(hsame ⟨u1, hopt⟩).1]
        rcases hs with hs | hs
        · rw [hopt] at hs
          cases hs
        · exact hs
    obtain ⟨a, b⟩ := use_sicm_alloc_inv E s0 n hpre.1 hpre.2
    exact ⟨⟨u, by rw [hus, hu]⟩, a, b⟩

theorem use_sicm_calls_inv {σ : Type} (E : Sicm σ) (ns : List Nat) :
    ∀ (s : Tiered σ),
      (s.st.usable = none ∨ (s.st.selected ≤ s.st.usable_count ∧
        (s.st.selected = s.st.usable_count → s.st.arena = 0))) →
      ∀ r ∈ use_sicm_calls E s ns,
        (∃ u, r.post.st.usable = some u) ∧
        r.post.st.selected ≤ r.post.st.usable_count ∧
        (r.post.st.selected = r.post.st.usable_count → r.post.st.arena = 0) := by
  induction ns with
  | nil =>
    intro s _ r hr
    cases hr
  | cons n ns ih =>
    intro s hs r hr
    unfold use_sicm_calls at hr
    split at hr
    · cases hr
    · rename_i p s1 log hcall
      have hstep := use_sicm_step_inv E s s1 n p log hs hcall
      rcases List.mem_cons.mp hr with heq | hr
      · subst heq
        exact hstep
      · exact ih s1 (Or.inr hstep.2) r hr

/-- C14: for every behaviour of the primitives, the property "`usable` is
initialised, `selected ≤ usable_count`, and `selected = usable_count` implies
that `arena` is null" holds of the state that a returning `use_sicm` call
leaves, whenever the call is entered with uninitialised statics or with
statics that have the property, in whatever world; hence it holds of the state
left by each call of every sequence of `use_sicm` calls from the initial
statics. -/
theorem use_sicm_state_invariant {σ : Type} (E : Sicm σ) :
    (∀ (s s1 : Tiered σ) (n p : Nat) (log : List Event),
      (s.st.usable = none ∨ (s.st.selected ≤ s.st.usable_count ∧
        (s.st.selected = s.st.usable_count → s.st.arena = 0))) →
      use_sicm E s n = Outcome.ret p s1 log →
      (∃ u, s1.st.usable = some u) ∧ s1.st.selected ≤ s1.st.usable_count ∧
        (s1.st.selected = s1.st.usable_count → s1.st.arena = 0)) ∧
    (∀ (w : σ) (ns : List Nat) (r : CallRec σ),
      r ∈ use_sicm_calls E { st := Statics.initial, w := w } ns →
      (∃ u, r.post.st.usable = some u) ∧
      r.post.st.selected ≤ r.post.st.usable_count ∧
      (r.post.st.selected = r.post.st.usable_count → r.post.st.arena = 0)) :=
  ⟨fun s s1 n p log hs h => use_sicm_step_inv E s s1 n p log hs h,
    fun w ns r hr =>
      use_sicm_calls_inv E ns { st := Statics.initial, w := w } (Or.inl rfl) r hr⟩

/-- Witness for C14: the call that exhausts the catalog in the state
`dry_ready`, and the first call in the world `abc`. -/
theorem use_sicm_state_invariant_witness :
    ((∃ u, dry_spent.st.usable = some u) ∧
      dry_spent.st.selected ≤ dry_spent.st.usable_count ∧
      (dry_spent.st.selected = dry_spent.st.usable_count → dry_spent.st.arena = 0)) ∧
    ((∃ u, abc_first_call.post.st.usable = some u) ∧
      abc_first_call.post.st.selected ≤ abc_first_call.post.st.usable_count ∧
      (abc_first_call.post.st.selected = abc_first_call.post.st.usable_count →
        abc_first_call.post.st.arena = 0)) :=
  ⟨(use_sicm_state_invariant scripted).1 dry_ready dry_spent 64 0
      [Event.call_use_sicm 64, Event.arena_alloc 1 64 0,
       Event.warn_old_arena 0 (some (hbm 0)),
       Event.arena_create (DevArg.usable 0) (some (hbm 0)) 0,
       Event.arena_create (DevArg.usable 1) (some (hbm 1)) 0,
       Event.arena_create (DevArg.usable 2) (some (dram 2)) 0,
       Event.warn_failed 64]
      (Or.inr ⟨by decide, by decide⟩) rfl,
    (use_sicm_state_invariant scripted).2 abc [64, 64] abc_first_call (List.Mem.head _)⟩

/-! ## The fallback scan -/

theorem probe_ptr_arena {σ : Type} (E : Sicm σ) (u : List (Option sicm_device)) (n i : Nat)
    (w : σ) (h : (probe E u n i w).ptr ≠ 0) : (probe E u n i w).arena ≠ 0 := by
  unfold probe at h ⊢
  by_cases hc : (E.sicm_arena_create w (usable_at u i)).1 = 0
  · simp only [hc, if_true] at h
    exact absurd rfl h
  · simp only [hc, if_false]
    exact hc

theorem hit_succ {σ : Type} (E : Sicm σ) (u : List (Option sicm_device)) (n i : Nat)
    (w : σ) (j : Nat) :
    hit E u n i w (j + 1) ↔ hit E u n (i + 1) (probe E u n i w).w j := by
  unfold hit
  have hidx : i + (j + 1) = i + 1 + j := by omega
  rw [hidx]
  rfl

theorem fallback_loop_step_miss {σ : Type} (E : Sicm σ) (u : List (Option sicm_device))
    (n k i arena sel : Nat) (w : σ) (h : (probe E u n i w).ptr = 0) :
    fallback_loop E u n (k + 1) i arena sel w =
      { fallback_loop E u n k (i + 1) (probe E u n i w).arena sel (probe E u n i w).w with
        log := (probe E u n i w).log ++
          (fallback_loop E u n k (i + 1) (probe E u n i w).arena sel
            (probe E u n i w).w).log } := by
  conv_lhs => unfold fallback_loop
  unfold probe at h ⊢
  by_cases hc : (E.sicm_arena_create w (usable_at u i)).1 = 0
  · simp only [hc, if_true]
    rfl
  · simp only [hc, if_false] at h ⊢
    simp only [h, if_true]
    rfl

theorem fallback_loop_step_hit {σ : Type} (E : Sicm σ) (u : List (Option sicm_device))
    (n k i arena sel : Nat) (w : σ) (h : (probe E u n i w).ptr ≠ 0) :
    fallback_loop E u n (k + 1) i arena sel w =
      { i := i, ptr := (probe E u n i w).ptr, arena := (probe E u n i w).arena,
        selected := i, w := (probe E u n i w).w,
        log := (probe E u n i w).log ++ [Event.msg_new_arena n i] } := by
  conv_lhs => unfold fallback_loop
  unfold probe at h ⊢
  by_cases hc : (E.sicm_arena_create w (usable_at u i)).1 = 0
  · simp only [hc, if_true] at h
    exact absurd rfl h
  · simp only [hc, if_false] at h ⊢
    simp only [h, if_false]
    rfl

theorem fallback_loop_first_hit {σ : Type} (E : Sicm σ) (u : List (Option sicm_device))
    (n : Nat) : ∀ (j k i arena sel : Nat) (w : σ), j < k → hit E u n i w j →
      (∀ j1, j1 < j → ¬ hit E u n i w j1) →
      fallback_loop E u n k i arena sel w =
        { i := i + j,
          ptr := (probe E u n (i + j) (world_after E u n j i w)).ptr,
          arena := (probe E u n (i + j) (world_after E u n j i w)).arena,
          selected := i + j,
          w := (probe E u n (i + j) (world_after E u n j i w)).w,
          log := probes_log E u n (j + 1) i w ++ [Event.msg_new_arena n (i + j)] } := by
  intro j
  induction j with
  | zero =>
    intro k i arena sel w hk hhit _
    obtain ⟨k1, rfl⟩ : ∃ k1, k = k1 + 1 := ⟨k - 1, by omega⟩
    have h0 : (probe E u n i w).ptr ≠ 0 := hhit
    rw [fallback_loop_step_hit E u n k1 i arena sel w h0]
    simp [world_after, probes_log]
  | succ j ih =>
    intro k i arena sel w hk hhit hmiss
    obtain ⟨k1, rfl⟩ : ∃ k1, k = k1 + 1 := ⟨k - 1, by omega⟩
    have h0 : (probe E u n i w).ptr = 0 := by
      have := hmiss 0 (by omega)
      unfold hit at this
      exact not_not.mp this
    rw [fallback_loop_step_miss E u n k1 i arena sel w h0]
    rw [ih k1 (i + 1) (probe E u n i w).arena sel (probe E u n i w).w (by omega)
      ((hit_succ E u n i w j).mp hhit)
      (fun j1 hj1 hh => hmiss (j1 + 1) (by omega) ((hit_succ E u n i w j1).mpr hh))]
    have hidx : i + 1 + j = i + (j + 1) := by omega
    simp only [hidx]
    simp [world_after, probes_log]

theorem fallback_loop_no_hit {σ : Type} (E : Sicm σ) (u : List (Option sicm_device))
    (n : Nat) : ∀ (k i arena sel : Nat) (w : σ), (∀ j, j < k → ¬ hit E u n i w j) →
      (fallback_loop E u n k i arena sel w).i = i + k ∧
      (fallback_loop E u n k i arena sel w).ptr = 0 ∧
      (fallback_loop E u n k i arena sel w).w = world_after E u n k i w ∧
      (fallback_loop E u n k i arena sel w).log = probes_log E u n k i w := by
  intro k
  induction k with
  | zero =>
    intro i arena sel w _
    exact ⟨rfl, rfl, rfl, rfl⟩
  | succ k ih =>
    intro i arena sel w hmiss
    have h0 : (probe E u n i w).ptr = 0 := by
      have := hmiss 0 (by omega)
      unfold hit at this
      exact not_not.mp this
    rw [fallback_loop_step_miss E u n k i arena sel w h0]
    obtain ⟨a, b, c, d⟩ := ih (i + 1) (probe E u n i w).arena sel (probe E u n i w).w
      (fun j hj hh => hmiss (j + 1) (by omega) ((hit_succ E u n i w j).mpr hh))
    refine ⟨?_, b, c, ?_⟩
    · show (fallback_loop E u n k (i + 1) (probe E u n i w).arena sel
        (probe E u n i w).w).i = i + (k + 1)
      omega
    · show (probe E u n i w).log ++ (fallback_loop E u n k (i + 1) (probe E u n i w).arena sel
        (probe E u n i w).w).log = probes_log E u n (k + 1) i w
      rw [d]
      rfl

theorem use_sicm_of_init {σ : Type} (E : Sicm σ) (s0 s : Tiered σ) (n : Nat)
    (log0 : List Event) (hinit : use_sicm_init E s0 = Outcome.ret () s log0) :
    use_sicm E s0 n =
      Outcome.ret (use_sicm_alloc E s n).1 (use_sicm_alloc E s n).2.1
        (Event.call_use_sicm n :: (log0 ++ (use_sicm_alloc E s n).2.2)) := by
  unfold use_sicm
  rw [hinit]

theorem use_sicm_init_log_valid {σ : Type} (E : Sicm σ) (s s1 : Tiered σ)
    (log : List Event) (h : use_sicm_init E s = Outcome.ret () s1 log) :
    log.any Event.invalid = false := by
  unfold use_sicm_init at h
  split at h
  · cases h
    rfl
  · simp only at h
    split at h
    · cases h
    · split at h
      · cases h
      · cases h
        rfl

theorem probe_log_valid {σ : Type} (E : Sicm σ) (u : List (Option sicm_device))
    (n i : Nat) (w : σ) (d : sicm_device) (h : usable_at u i = some d) :
    (probe E u n i w).log.any Event.invalid = false := by
  unfold probe
  rw [h]
  split <;> rfl

theorem probes_log_valid {σ : Type} (E : Sicm σ) (u : List (Option sicm_device))
    (n : Nat) : ∀ (j i : Nat) (w : σ),
      (∀ k, i ≤ k → k < i + j → usable_at u k ≠ none) →
      (probes_log E u n j i w).any Event.invalid = false := by
  intro j
  induction j with
  | zero =>
    intro i w _
    rfl
  | succ j ih =>
    intro i w h
    obtain ⟨d, hd⟩ := Option.ne_none_iff_exists'.mp (h i (le_refl _) (by omega))
    have h1 := probe_log_valid E u n i w d hd
    have h2 := ih (i + 1) (probe E u n i w).w (fun k hk1 hk2 => h k (by omega) (by omega))
    show ((probe E u n i w).log ++ probes_log E u n j (i + 1) (probe E u n i w).w).any
      Event.invalid = false
    rw [List.any_append, h1, h2]
    rfl

/-- The fallback scan over written slots.  Let `s` be the state in which
`use_sicm` reaches line 203, with `selected = s` and `usable_count = m`, and
let the slots `usable[s]` and `usable[i]`, `s ≤ i < m`, hold devices.  If the
allocation from the current arena fails, `use_sicm` tries the indices
`s, s+1, ...` of `usable` in turn.  If `s + j < m` is the least index whose
try succeeds, it returns the pointer of that try and commits
`selected = s + j` and `arena` = the new arena.  If no index below `m`
succeeds (and `s ≤ m`) it returns null and commits `selected = m` and a null
arena.  The try of an index whose creation fails is the creation alone. -/
theorem use_sicm_run_fallback_scan {σ : Type} (E : Sicm σ) (s0 s : Tiered σ)
    (log0 : List Event) (u : List (Option sicm_device)) (n : Nat) (d : sicm_device)
    (hinit : use_sicm_init E s0 = Outcome.ret () s log0) (hu : s.st.usable = some u)
    (hfail : (E.sicm_arena_alloc s.w s.st.arena n).1 = 0)
    (hsel : usable_at u s.st.selected = some d)
    (hscan : ∀ i, s.st.selected ≤ i → i < s.st.usable_count → usable_at u i ≠ none) :
    (∀ j, s.st.selected + j < s.st.usable_count →
      hit E u n s.st.selected (E.sicm_arena_alloc s.w s.st.arena n).2 j →
      (∀ j1, j1 < j → ¬ hit E u n s.st.selected (E.sicm_arena_alloc s.w s.st.arena n).2 j1) →
      (probe E u n (s.st.selected + j)
        (world_after E u n j s.st.selected (E.sicm_arena_alloc s.w s.st.arena n).2)).arena ≠ 0 ∧
      use_sicm_run E s0 n =
        Run.ret
          (probe E u n (s.st.selected + j)
            (world_after E u n j s.st.selected (E.sicm_arena_alloc s.w s.st.arena n).2)).ptr
          { st := { s.st with
                    selected := s.st.selected + j,
                    arena := (probe E u n (s.st.selected + j)
                      (world_after E u n j s.st.selected
                        (E.sicm_arena_alloc s.w s.st.arena n).2)).arena },
            w := (probe E u n (s.st.selected + j)
              (world_after E u n j s.st.selected (E.sicm_arena_alloc s.w s.st.arena n).2)).w }
          (Event.call_use_sicm n :: (log0 ++ Event.arena_alloc s.st.arena n 0 ::
            Event.warn_old_arena s.st.selected (some d) ::
            (probes_log E u n (j + 1) s.st.selected (E.sicm_arena_alloc s.w s.st.arena n).2 ++
              [Event.msg_new_arena n (s.st.selected + j),
               Event.msg_allocated n (s.st.selected + j)
                 (usable_at u (s.st.selected + j))])))) ∧
    (s.st.selected ≤ s.st.usable_count →
      (∀ j, s.st.selected + j < s.st.usable_count →
        ¬ hit E u n s.st.selected (E.sicm_arena_alloc s.w s.st.arena n).2 j) →
      use_sicm_run E s0 n =
        Run.ret 0
          { st := { s.st with selected := s.st.usable_count, arena := 0 },
            w := world_after E u n (s.st.usable_count - s.st.selected) s.st.selected
              (E.sicm_arena_alloc s.w s.st.arena n).2 }
          (Event.call_use_sicm n :: (log0 ++ Event.arena_alloc s.st.arena n 0 ::
            Event.warn_old_arena s.st.selected (some d) ::
            (probes_log E u n (s.st.usable_count - s.st.selected) s.st.selected
                (E.sicm_arena_alloc s.w s.st.arena n).2 ++
              [Event.warn_failed n])))) ∧
    (∀ i w, (E.sicm_arena_create w (usable_at u i)).1 = 0 →
      (probe E u n i w).log = [Event.arena_create (DevArg.usable i) (usable_at u i) 0]) := by
  have hg : s.st.usable.getD [] = u := by rw [hu]; rfl
  have hlog0 := use_sicm_init_log_valid E s0 s log0 hinit
  refine ⟨?_, ?_, ?_⟩
  · intro j hj hhit hmiss
    have hloop := fallback_loop_first_hit E u n j (s.st.usable_count - s.st.selected)
      s.st.selected s.st.arena s.st.selected (E.sicm_arena_alloc s.w s.st.arena n).2
      (by omega) hhit hmiss
    have hptr : (probe E u n (s.st.selected + j)
        (world_after E u n j s.st.selected (E.sicm_arena_alloc s.w s.st.arena n).2)).ptr ≠ 0 :=
      hhit
    have hne : s.st.selected + j ≠ s.st.usable_count := by omega
    obtain ⟨dj, hdj⟩ := Option.ne_none_iff_exists'.mp (hscan (s.st.selected + j) (by omega) hj)
    have hprobes := probes_log_valid E u n (j + 1) s.st.selected
      (E.sicm_arena_alloc s.w s.st.arena n).2 (fun k hk1 hk2 => hscan k hk1 (by omega))
    refine ⟨probe_ptr_arena E u n _ _ hptr, ?_⟩
    unfold use_sicm_run
    rw [use_sicm_of_init E s0 s n log0 hinit]
    unfold use_sicm_alloc
    simp only [hfail, if_true, hg, hloop, if_neg hne, if_neg hptr, List.append_assoc,
      List.cons_append, List.nil_append, hsel]
    apply run_ret_of_valid
    rw [hdj]
    simp only [List.any_cons, List.any_append, hlog0, hprobes, List.any_nil]
    rfl
  · intro hle hmiss
    obtain ⟨a, b, c, e⟩ := fallback_loop_no_hit E u n (s.st.usable_count - s.st.selected)
      s.st.selected s.st.arena s.st.selected (E.sicm_arena_alloc s.w s.st.arena n).2
      (fun j hj => hmiss j (by omega))
    have hi : (fallback_loop E u n (s.st.usable_count - s.st.selected) s.st.selected
        s.st.arena s.st.selected (E.sicm_arena_alloc s.w s.st.arena n).2).i =
        s.st.usable_count := by
      rw [a]
      omega
    have hprobes := probes_log_valid E u n (s.st.usable_count - s.st.selected) s.st.selected
      (E.sicm_arena_alloc s.w s.st.arena n).2 (fun k hk1 hk2 => hscan k hk1 (by omega))
    unfold use_sicm_run
    rw [use_sicm_of_init E s0 s n log0 hinit]
    unfold use_sicm_alloc
    simp only [hfail, if_true, hg, hi, b, c, e, hsel]
    apply run_ret_of_valid
    simp only [List.any_cons, List.any_append, hlog0, hprobes, List.any_nil]
    rfl
  · intro i w hc
    unfold probe
    simp only [hc, if_true]

/-- C11, the code at failing inputs, all on a first call `use_sicm(64)` whose
initial arena does not allocate, or in an exhausted state.
For `[optane 0, dram 1]` (`usable = [unwritten, dram 1]`, `usable_count = 1`)
the warning of line 205 dereferences the unwritten `usable[0]`: no pointer is
returned.
For `[hbm 0, optane 1, dram 2]` the ranked catalog is `[hbm 0, dram 2]`, while
`usable = [hbm 0, unwritten, dram 2]` and `usable_count = 2`: after the failed
creation on `usable[0]` the loop hands the unwritten `usable[1]` to
`sicm_arena_create`, and `dram 2`, at slot `2`, is outside the scan.
For `[dram 0, hbm 1]` the ranked catalog is `[hbm 1, dram 0]`, yet the scan
starts at `usable[0] = dram 0`, and the pointer returned comes from an arena
on `dram 0` although no creation on `hbm 1` was tried.
In the exhausted state `dry_spent` (`selected = usable_count = 3`) there is no
index to scan, and the call does not return null: line 205 dereferences
`usable[3]`, outside the array. -/
theorem fallback_scan_off_catalog :
    store_usable [optane 0, dram 1] preferences (List.replicate 2 none) =
      ([none, some (dram 1)], 1) ∧
    use_sicm_run scripted { st := Statics.initial, w := optane_dram_miss } 64 =
      Run.undefined Fault.invalid_pointer
        [Event.call_use_sicm 64, Event.sicm_init, Event.malloc 16 16,
         Event.arena_create (DevArg.devices 0) (some (optane 0)) 1,
         Event.arena_alloc 1 64 0,
         Event.warn_old_arena 0 none] ∧
    catalog_by_rank [hbm 0, optane 1, dram 2] = [hbm 0, dram 2] ∧
    store_usable [hbm 0, optane 1, dram 2] preferences (List.replicate 3 none) =
      ([some (hbm 0), none, some (dram 2)], 2) ∧
    use_sicm_run scripted { st := Statics.initial, w := hbm_optane_dram } 64 =
      Run.undefined Fault.invalid_pointer
        [Event.call_use_sicm 64, Event.sicm_init, Event.malloc 24 24,
         Event.arena_create (DevArg.devices 0) (some (hbm 0)) 1,
         Event.arena_alloc 1 64 0,
         Event.warn_old_arena 0 (some (hbm 0)),
         Event.arena_create (DevArg.usable 0) (some (hbm 0)) 0,
         Event.arena_create (DevArg.usable 1) none 3] ∧
    catalog_by_rank [dram 0, hbm 1] = [hbm 1, dram 0] ∧
    (∃ s1, use_sicm_run scripted { st := Statics.initial, w := dram_hbm_miss } 64 =
        Run.ret 4096 s1
          [Event.call_use_sicm 64, Event.sicm_init, Event.malloc 16 16,
           Event.arena_create (DevArg.devices 0) (some (dram 0)) 1,
           Event.arena_alloc 1 64 0,
           Event.warn_old_arena 0 (some (dram 0)),
           Event.arena_create (DevArg.usable 0) (some (dram 0)) 2,
           Event.arena_alloc 2 64 4096,
           Event.msg_new_arena 64 0,
           Event.msg_allocated 64 0 (some (dram 0))] ∧
      s1.st.selected = 0 ∧ s1.st.arena = 2) ∧
    dry_spent.st.selected = dry_spent.st.usable_count ∧
    use_sicm_run scripted dry_spent 64 =
      Run.undefined Fault.invalid_pointer
        [Event.call_use_sicm 64, Event.arena_alloc 0 64 0,
         Event.warn_old_arena 3 none] :=
  ⟨rfl, rfl, rfl, rfl, rfl, rfl, ⟨_, rfl, rfl, rfl⟩, rfl, rfl⟩

/-! ## The layout of an aligned block -/

theorem align_mask_eq (a : Nat) : align_mask a = max a 16 - 1 := by
  unfold align_mask
  by_cases h : a < 16
  · rw [if_pos h, max_eq_right (Nat.le_of_lt h)]
  · rw [if_neg h, max_eq_left (Nat.le_of_not_lt h)]

theorem aligned_addr_layout (mem_u a : Nat) (hpow : ∃ k, a = 2 ^ k)
    (hwrap : mem_u + align_mask a + sizeof_ptr < SIZE_MOD) :
    aligned_addr mem_u (align_mask a) % max a 16 = 0 ∧
    mem_u + sizeof_ptr ≤ aligned_addr mem_u (align_mask a) ∧
    aligned_addr mem_u (align_mask a) ≤ mem_u + align_mask a + sizeof_ptr ∧
    ∀ m, m % max a 16 = 0 → mem_u + sizeof_ptr ≤ m → aligned_addr mem_u (align_mask a) ≤ m := by
  obtain ⟨k, rfl⟩ := hpow
  have hmask := align_mask_pow k
  have hmax := max_pow_sixteen k
  rw [hmask] at hwrap
  obtain ⟨hlo, hhi⟩ := aligned_addr_bounds mem_u (max k 4) hwrap
  have hmod := aligned_addr_mod mem_u (max k 4)
  rw [hmask, hmax]
  refine ⟨hmod, hlo, hhi, ?_⟩
  intro m hm hle
  have hpos : 0 < 2 ^ max k 4 := Nat.two_pow_pos _
  obtain ⟨q1, hq1⟩ := Nat.dvd_of_mod_eq_zero hm
  obtain ⟨q2, hq2⟩ := Nat.dvd_of_mod_eq_zero hmod
  by_contra hcon
  have hlt : m < aligned_addr mem_u (2 ^ max k 4 - 1) := Nat.lt_of_not_le hcon
  rw [hq1, hq2] at hlt
  have hq : q1 < q2 := Nat.lt_of_mul_lt_mul_left hlt
  have hstep : 2 ^ max k 4 * (q1 + 1) ≤ 2 ^ max k 4 * q2 := Nat.mul_le_mul_left _ hq
  rw [Nat.mul_add, Nat.mul_one, ← hq1, ← hq2] at hstep
  omega

theorem header_addr_eq (p : Nat) (h8 : sizeof_ptr ≤ p) (hlt : p < SIZE_MOD) :
    header_addr p = p - sizeof_ptr := by
  unfold header_addr
  have h : p + SIZE_MOD - sizeof_ptr = (p - sizeof_ptr) + SIZE_MOD := by omega
  rw [h, Nat.add_mod_right]
  exact Nat.mod_eq_of_lt (by omega)

/-- C15: for every non-null raw address `mem_u` returned by `use_sicm`,
`n > 0` and power-of-two `a`, with `A = max a 16`, the mask is `A - 1`, and
when `mem_u + mask + sizeof(char *)` does not wrap around `2 ^ 64` the address
`mem_a` that `util_malloc_aligned` returns is a multiple of `A`, is at least
`mem_u + sizeof(char *)`, and is at most every multiple of `A` that is at
least `mem_u + sizeof(char *)`; so `mem_a - sizeof(char *) ≥ mem_u`, and the
word of the heap at `mem_a - sizeof(char *)` holds `mem_u` on return. -/
theorem util_malloc_aligned_layout {σ : Type} (E : Sicm σ) (s : Prog σ)
    (cell n a mem_u : Nat) (t : Tiered σ) (log : List Event)
    (hn : 0 < n) (hpow : ∃ k, a = 2 ^ k)
    (hraw : use_sicm E s.t (raw_size n (align_mask a)) = Outcome.ret mem_u t log)
    (hmem : mem_u ≠ 0)
    (hwrap : mem_u + align_mask a + sizeof_ptr < SIZE_MOD) :
    align_mask a = max a 16 - 1 ∧
    ∃ s1, util_malloc_aligned E s (some cell) n a =
        Outcome.ret (aligned_addr mem_u (align_mask a)) s1 log ∧
      aligned_addr mem_u (align_mask a) % max a 16 = 0 ∧
      mem_u + sizeof_ptr ≤ aligned_addr mem_u (align_mask a) ∧
      (∀ m, m % max a 16 = 0 → mem_u + sizeof_ptr ≤ m →
        aligned_addr mem_u (align_mask a) ≤ m) ∧
      mem_u ≤ aligned_addr mem_u (align_mask a) - sizeof_ptr ∧
      s1.heap (aligned_addr mem_u (align_mask a) - sizeof_ptr) = mem_u := by
  obtain ⟨h1, h2, h3, h4⟩ := aligned_addr_layout mem_u a hpow hwrap
  have hhdr : header_addr (aligned_addr mem_u (align_mask a)) =
      aligned_addr mem_u (align_mask a) - sizeof_ptr :=
    header_addr_eq _ (by omega) (by omega)
  refine ⟨align_mask_eq a, _,
    util_malloc_aligned_ret E s cell n a mem_u t log hn hpow hraw hmem, h1, h2, h4, by omega, ?_⟩
  show Function.update s.heap (header_addr (aligned_addr mem_u (align_mask a))) mem_u
    (aligned_addr mem_u (align_mask a) - sizeof_ptr) = mem_u
  rw [hhdr]
  simp

/-- Witness for C15: `n = 100`, `a = 64`, raw address `4104`. -/
theorem util_malloc_aligned_layout_witness :
    align_mask 64 = max 64 16 - 1 ∧
    ∃ s1, util_malloc_aligned scripted (Prog.start one_hbm) (some 0) 100 64 =
        Outcome.ret (aligned_addr 4104 (align_mask 64)) s1
          [Event.call_use_sicm 171, Event.sicm_init, Event.malloc 8 8,
           Event.arena_create (DevArg.devices 0) (some (hbm 0)) 1,
           Event.arena_alloc 1 171 4104,
           Event.msg_allocated 171 0 (some (hbm 0))] ∧
      aligned_addr 4104 (align_mask 64) % max 64 16 = 0 ∧
      4104 + sizeof_ptr ≤ aligned_addr 4104 (align_mask 64) ∧
      (∀ m, m % max 64 16 = 0 → 4104 + sizeof_ptr ≤ m →
        aligned_addr 4104 (align_mask 64) ≤ m) ∧
      4104 ≤ aligned_addr 4104 (align_mask 64) - sizeof_ptr ∧
      s1.heap (aligned_addr 4104 (align_mask 64) - sizeof_ptr) = 4104 :=
  util_malloc_aligned_layout scripted (Prog.start one_hbm) 0 100 64 4104
    { st := { devs := [hbm 0], usable := some [some (hbm 0)], usable_count := 1,
              selected := 0, arena := 1 },
      w := { devices := [hbm 0], mallocs := [], creates := [], allocs := [] } }
    _ (by decide) ⟨6, rfl⟩ rfl (by decide) (by decide)

theorem fallback_loop_no_call {σ : Type} (E : Sicm σ) (u : List (Option sicm_device))
    (n : Nat) : ∀ (k i arena sel : Nat) (w : σ) (m : Nat),
      Event.call_use_sicm m ∉ (fallback_loop E u n k i arena sel w).log := by
  intro k
  induction k with
  | zero =>
    intro i arena sel w m hmem
    rw [fallback_loop_zero] at hmem
    cases hmem
  | succ k ih =>
    intro i arena sel w m hmem
    by_cases hp : (probe E u n i w).ptr = 0
    · rw [fallback_loop_step_miss E u n k i arena sel w hp] at hmem
      rcases List.mem_append.mp hmem with h | h
      · unfold probe at h
        split at h <;> simp at h
      · exact ih _ _ _ _ m h
    · rw [fallback_loop_step_hit E u n k i arena sel w hp] at hmem
      rcases List.mem_append.mp hmem with h | h
      · unfold probe at h
        split at h <;> simp at h
      · simp at h

theorem use_sicm_alloc_no_call {σ : Type} (E : Sicm σ) (s : Tiered σ) (n m : Nat) :
    Event.call_use_sicm m ∉ (use_sicm_alloc E s n).2.2 := by
  intro h
  unfold use_sicm_alloc at h
  by_cases hr : (E.sicm_arena_alloc s.w s.st.arena n).1 = 0
  · simp only [hr, if_true] at h
    rcases List.mem_cons.mp h with h | h
    · cases h
    · rcases List.mem_cons.mp h with h | h
      · cases h
      · rcases List.mem_append.mp h with h | h
        · exact fallback_loop_no_call E _ n _ _ _ _ _ m h
        · rw [List.mem_singleton] at h
          split at h <;> cases h
  · simp only [hr, if_false] at h
    simp at h

theorem use_sicm_log_head {σ : Type} (E : Sicm σ) (s t : Tiered σ) (k p : Nat)
    (log : List Event) (h : use_sicm E s k = Outcome.ret p t log) :
    ∃ rest, log = Event.call_use_sicm k :: rest ∧ ∀ m, Event.call_use_sicm m ∉ rest := by
  unfold use_sicm at h
  split at h
  · cases h
  · rename_i u0 s0 log0 hinit
    cases h
    refine ⟨_, rfl, ?_⟩
    intro m hmem
    rcases List.mem_append.mp hmem with h | h
    · unfold use_sicm_init at hinit
      split at hinit
      · cases hinit
        cases h
      · simp only at hinit
        split at hinit
        · cases hinit
        · split at hinit
          · cases hinit
          · cases hinit
            simp at h
    · exact use_sicm_alloc_no_call E s0 k m h

/-- C16: for every `n > 0` and power-of-two `a` with the mask
`mask = max a 16 - 1`, if `n + mask + sizeof(char *)` does not overflow
`size_t` and the addresses of the raw block do not wrap, then
`util_malloc_aligned` calls `use_sicm` once, with exactly
`n + mask + sizeof(char *)`; for the non-null raw address `mem_u` it returns,
the function returns `mem_a` and the one word of the heap it writes is the
header word at `header_addr mem_a`, which receives `mem_u`.  That word is the
`sizeof(char *)` bytes that end at `mem_a` and it starts at or after `mem_u`,
and the `n` bytes of the caller at `mem_a` end within the raw block:
`mem_u ≤ mem_a - sizeof(char *)` and
`mem_a + n ≤ mem_u + n + mask + sizeof(char *)`. -/
theorem util_malloc_aligned_fits {σ : Type} (E : Sicm σ) (s : Prog σ)
    (cell n a mem_u : Nat) (t : Tiered σ) (log : List Event)
    (hn : 0 < n) (hpow : ∃ k, a = 2 ^ k)
    (hsize : n + align_mask a + sizeof_ptr < SIZE_MOD)
    (hraw : use_sicm_run E s.t (raw_size n (align_mask a)) = Run.ret mem_u t log)
    (hmem : mem_u ≠ 0)
    (hwrap : mem_u + (n + align_mask a + sizeof_ptr) < SIZE_MOD) :
    align_mask a = max a 16 - 1 ∧
    raw_size n (align_mask a) = n + align_mask a + sizeof_ptr ∧
    (∃ rest, log = Event.call_use_sicm (n + align_mask a + sizeof_ptr) :: rest ∧
      ∀ m, Event.call_use_sicm m ∉ rest) ∧
    util_malloc_aligned_run E s (some cell) n a =
      Run.ret (aligned_addr mem_u (align_mask a))
        { t := t,
          heap := Function.update s.heap
            (header_addr (aligned_addr mem_u (align_mask a))) mem_u } log ∧
    header_addr (aligned_addr mem_u (align_mask a)) + sizeof_ptr =
      aligned_addr mem_u (align_mask a) ∧
    mem_u ≤ header_addr (aligned_addr mem_u (align_mask a)) ∧
    mem_u ≤ aligned_addr mem_u (align_mask a) - sizeof_ptr ∧
    aligned_addr mem_u (align_mask a) + n ≤ mem_u + n + align_mask a + sizeof_ptr := by
  have hwrap1 : mem_u + align_mask a + sizeof_ptr < SIZE_MOD := by omega
  obtain ⟨_, h2, h3, _⟩ := aligned_addr_layout mem_u a hpow hwrap1
  have hsz : raw_size n (align_mask a) = n + align_mask a + sizeof_ptr :=
    Nat.mod_eq_of_lt hsize
  have hhdr : header_addr (aligned_addr mem_u (align_mask a)) =
      aligned_addr mem_u (align_mask a) - sizeof_ptr :=
    header_addr_eq _ (by omega) (by omega)
  have hblock : in_block mem_u (raw_size n (align_mask a))
      (header_addr (aligned_addr mem_u (align_mask a))) = true := by
    unfold in_block
    rw [hsz, hhdr]
    simp only [decide_eq_true_eq]
    omega
  have hrun := util_malloc_aligned_run_cases E s cell n a hn hpow
  rw [hraw] at hrun
  simp only [if_neg hmem, hblock, if_true] at hrun
  refine ⟨align_mask_eq a, hsz, ?_, hrun, by omega, by omega, by omega, by omega⟩
  have hmodel := (run_eq_ret _ _ _ _ hraw).1
  rw [hsz] at hmodel
  exact use_sicm_log_head E s.t t _ mem_u log hmodel

/-- Witness for C16: `n = 100`, `a = 64`, raw address `4104`. -/
theorem util_malloc_aligned_fits_witness :
    align_mask 64 = max 64 16 - 1 ∧
    raw_size 100 (align_mask 64) = 100 + align_mask 64 + sizeof_ptr ∧
    (∃ rest, [Event.call_use_sicm 171, Event.sicm_init, Event.malloc 8 8,
          Event.arena_create (DevArg.devices 0) (some (hbm 0)) 1,
          Event.arena_alloc 1 171 4104,
          Event.msg_allocated 171 0 (some (hbm 0))] =
        Event.call_use_sicm (100 + align_mask 64 + sizeof_ptr) :: rest ∧
      ∀ m, Event.call_use_sicm m ∉ rest) ∧
    util_malloc_aligned_run scripted (Prog.start one_hbm) (some 0) 100 64 =
      Run.ret (aligned_addr 4104 (align_mask 64))
        { t := { st := { devs := [hbm 0], usable := some [some (hbm 0)], usable_count := 1,
                         selected := 0, arena := 1 },
                 w := { devices := [hbm 0], mallocs := [], creates := [], allocs := [] } },
          heap := Function.update (Prog.start one_hbm).heap
            (header_addr (aligned_addr 4104 (align_mask 64))) 4104 }
        [Event.call_use_sicm 171, Event.sicm_init, Event.malloc 8 8,
         Event.arena_create (DevArg.devices 0) (some (hbm 0)) 1,
         Event.arena_alloc 1 171 4104,
         Event.msg_allocated 171 0 (some (hbm 0))] ∧
    header_addr (aligned_addr 4104 (align_mask 64)) + sizeof_ptr =
      aligned_addr 4104 (align_mask 64) ∧
    4104 ≤ header_addr (aligned_addr 4104 (align_mask 64)) ∧
    4104 ≤ aligned_addr 4104 (align_mask 64) - sizeof_ptr ∧
    aligned_addr 4104 (align_mask 64) + 100 ≤ 4104 + 100 + align_mask 64 + sizeof_ptr :=
  util_malloc_aligned_fits scripted (Prog.start one_hbm) 0 100 64 4104
    { st := { devs := [hbm 0], usable := some [some (hbm 0)], usable_count := 1,
              selected := 0, arena := 1 },
      w := { devices := [hbm 0], mallocs := [], creates := [], allocs := [] } }
    _ (by decide) ⟨6, rfl⟩ (by decide) rfl (by decide) (by decide)

/-! ## The initial arena and the reads of the catalog -/

/-- C13, the code at two failing inputs.  For the discovered devices
`[optane 0, dram 1]` the first call creates the initial arena on
`devs.devices[0] = optane 0`, a device that matches no preference, while the
preference-ranked catalog is `[dram 1]` and the slot `usable[0]` that
`selected = 0` denotes was never written.  For `[dram 0, hbm 1]` it creates
the initial arena on `dram 0`, while the first device of the ranked catalog is
`hbm 1`.  In both runs `selected` is `0`. -/
theorem initial_arena_on_first_discovered :
    (∃ s1, use_sicm scripted { st := Statics.initial, w := optane_dram } 64 =
        Outcome.ret 4096 s1
          [Event.call_use_sicm 64, Event.sicm_init, Event.malloc 16 16,
           Event.arena_create (DevArg.devices 0) (some (optane 0)) 1,
           Event.arena_alloc 1 64 4096,
           Event.msg_allocated 64 0 none] ∧
      s1.st.selected = 0 ∧ s1.st.arena = 1 ∧
      s1.st.usable = some [none, some (dram 1)]) ∧
    (optane 0).tag ∉ preferences ∧
    catalog_by_rank [optane 0, dram 1] = [dram 1] ∧
    (∃ s1, use_sicm scripted { st := Statics.initial, w := dram_hbm } 64 =
        Outcome.ret 4096 s1
          [Event.call_use_sicm 64, Event.sicm_init, Event.malloc 16 16,
           Event.arena_create (DevArg.devices 0) (some (dram 0)) 1,
           Event.arena_alloc 1 64 4096,
           Event.msg_allocated 64 0 (some (dram 0))] ∧
      s1.st.selected = 0 ∧ s1.st.arena = 1) ∧
    catalog_by_rank [dram 0, hbm 1] = [hbm 1, dram 0] :=
  ⟨⟨_, rfl, rfl, rfl, rfl⟩, by decide, rfl, ⟨_, rfl, rfl, rfl⟩, rfl⟩

/-- C17, the code at failing inputs.  For the discovered devices
`[optane 0, dram 1]` the loops of lines 181-189 leave `usable[0]` unwritten
and `usable_count = 1`.  When the initial arena allocates, the report of line
231 reads `usable[0]`; when it does not, the warning of line 205 and the
fallback loop read `usable[0]` as well: reads of a slot that discovery did not
fill.  And in the exhausted state `spent` (one device, `usable_count = 1`) the
warning of line 205 reads `usable[1]`, the index `usable_count`. -/
theorem catalog_read_of_unwritten_slot :
    store_usable [optane 0, dram 1] preferences (List.replicate 2 none) =
      ([none, some (dram 1)], 1) ∧
    (∃ s1, use_sicm scripted { st := Statics.initial, w := optane_dram } 64 =
        Outcome.ret 4096 s1
          [Event.call_use_sicm 64, Event.sicm_init, Event.malloc 16 16,
           Event.arena_create (DevArg.devices 0) (some (optane 0)) 1,
           Event.arena_alloc 1 64 4096,
           Event.msg_allocated 64 0 none]) ∧
    (∃ s1, use_sicm scripted { st := Statics.initial, w := optane_dram_miss } 64 =
        Outcome.ret 4096 s1
          [Event.call_use_sicm 64, Event.sicm_init, Event.malloc 16 16,
           Event.arena_create (DevArg.devices 0) (some (optane 0)) 1,
           Event.arena_alloc 1 64 0,
           Event.warn_old_arena 0 none,
           Event.arena_create (DevArg.usable 0) none 2,
           Event.arena_alloc 2 64 4096,
           Event.msg_new_arena 64 0,
           Event.msg_allocated 64 0 none]) ∧
    spent.st.usable = some [some (hbm 0)] ∧ spent.st.usable_count = 1 ∧
    (∃ s1, use_sicm scripted spent 8 =
        Outcome.ret 0 s1
          [Event.call_use_sicm 8, Event.arena_alloc 0 8 0,
           Event.warn_old_arena 1 none, Event.warn_failed 8]) :=
  ⟨rfl, ⟨_, rfl⟩, ⟨_, rfl⟩, rfl, rfl, ⟨_, rfl⟩⟩

/-! ## Command-line stripping -/

theorem strcmp_ne_some (x key : String) : strcmp_ne (some x) key = (x != key) := by
  simp [strcmp_ne, bne]

theorem strip_cmdline_loop_succ (key : String) (k i n val : Nat) (argv : Argv) :
    strip_cmdline_loop key (k + 1) i n val argv =
      if strcmp_ne (argv i) key then
        strip_cmdline_loop key k (i + 1) (n + 1) val (Function.update argv n (argv i))
      else
        strip_cmdline_loop key k (i + 1) n (val + 1) argv := rfl

theorem strip_cmdline_loop_spec (key : String) :
    ∀ (todo : List String) (i n val : Nat) (argv : Argv), n ≤ i →
      (∀ j, j < todo.length → argv (i + j) = todo.get? j) →
      (strip_cmdline_loop key todo.length i n val argv).1 =
        n + (todo.filter (fun a => a != key)).length ∧
      (strip_cmdline_loop key todo.length i n val argv).2.1 = val + todo.count key ∧
      (∀ j, j < (todo.filter (fun a => a != key)).length →
        (strip_cmdline_loop key todo.length i n val argv).2.2 (n + j) =
          (todo.filter (fun a => a != key)).get? j) ∧
      (∀ j, j < n → (strip_cmdline_loop key todo.length i n val argv).2.2 j = argv j) ∧
      (∀ j, i + todo.length ≤ j →
        (strip_cmdline_loop key todo.length i n val argv).2.2 j = argv j) := by
  intro todo
  induction todo with
  | nil =>
    intro i n val argv _ _
    refine ⟨rfl, rfl, ?_, fun _ _ => rfl, fun _ _ => rfl⟩
    intro j hj
    cases hj
  | cons x xs ih =>
    intro i n val argv hni hargs
    have h0 : argv i = some x := hargs 0 (Nat.succ_pos _)
    have hrest : ∀ j, j < xs.length → argv (i + 1 + j) = xs.get? j := by
      intro j hj
      have := hargs (j + 1) (Nat.succ_lt_succ hj)
      rw [show i + 1 + j = i + (j + 1) by omega, this]
      rfl
    rw [List.length_cons, strip_cmdline_loop_succ, h0, strcmp_ne_some]
    by_cases hx : x = key
    · have hb : (x != key) = false := by simp [hx]
      simp only [hb, Bool.false_eq_true, if_false]
      obtain ⟨a, b, c, d, e⟩ := ih (i + 1) n (val + 1) argv (by omega) hrest
      have hf : (x :: xs).filter (fun a => a != key) = xs.filter (fun a => a != key) := by
        simp [List.filter_cons, hb]
      have hc : (x :: xs).count key = xs.count key + 1 := by
        rw [hx]
        exact List.count_cons_self key xs
      rw [hf, hc]
      refine ⟨a, by omega, c, d, ?_⟩
      intro j hj
      exact e j (by omega)
    · have hb : (x != key) = true := by simp [hx]
      simp only [hb, if_true]
      have hrest1 : ∀ j, j < xs.length →
          Function.update argv n (some x) (i + 1 + j) = xs.get? j := by
        intro j hj
        rw [Function.update_noteq (by omega)]
        exact hrest j hj
      obtain ⟨a, b, c, d, e⟩ := ih (i + 1) (n + 1) val (Function.update argv n (some x))
        (by omega) hrest1
      have hf : (x :: xs).filter (fun a => a != key) =
          x :: xs.filter (fun a => a != key) := by
        simp [List.filter_cons, hb]
      have hc : (x :: xs).count key = xs.count key := by
        rw [List.count_cons]
        simp [hx]
      rw [hf, hc]
      refine ⟨by rw [a]; simp only [List.length_cons]; omega, b, ?_, ?_, ?_⟩
      · intro j hj
        cases j with
        | zero =>
          have hd := d n (by omega)
          rw [Function.update_same] at hd
          simpa using hd
        | succ j =>
          have := c j (by simp only [List.length_cons] at hj; omega)
          rw [show n + (j + 1) = n + 1 + j by omega, this]
          rfl
      · intro j hj
        rw [d j (by omega), Function.update_noteq (by omega)]
      · intro j hj
        rw [e j (by omega), Function.update_noteq (by omega)]

theorem filter_length_add_count (key : String) (args : List String) :
    (args.filter (fun a => a != key)).length + args.count key = args.length := by
  induction args with
  | nil => rfl
  | cons x xs ih =>
    by_cases hx : x = key
    · have hb : (x != key) = false := by simp [hx]
      rw [List.filter_cons, hb, hx, List.count_cons_self]
      simp only [Bool.false_eq_true, if_false, List.length_cons]
      omega
    · have hb : (x != key) = true := by simp [hx]
      have hc : (x :: xs).count key = xs.count key := by
        rw [List.count_cons]
        simp [hx]
      rw [List.filter_cons, hb, hc]
      simp only [if_true, List.length_cons]
      omega

theorem strip_cmdline_spec (args : List String) (argv : Argv) (key : String)
    (hargv : Holds argv args) :
    (strip_cmdline args.length argv key).1 = args.count key ∧
    (strip_cmdline args.length argv key).2.1 = (args.filter (fun a => a != key)).length ∧
    (∀ j, j < (args.filter (fun a => a != key)).length →
      (strip_cmdline args.length argv key).2.2 j =
        (args.filter (fun a => a != key)).get? j) ∧
    (strip_cmdline args.length argv key).2.2 (args.filter (fun a => a != key)).length = none ∧
    (∀ j, (args.filter (fun a => a != key)).length < j → j < args.length →
      (strip_cmdline args.length argv key).2.2 j =
        (strip_cmdline_loop key args.length 0 0 0 argv).2.2 j) ∧
    (∀ j, args.length < j → (strip_cmdline args.length argv key).2.2 j = argv j) := by
  obtain ⟨a, b, c, _, e⟩ := strip_cmdline_loop_spec key args 0 0 0 argv (le_refl _)
    (fun j hj => by rw [Nat.zero_add]; exact hargv j hj)
  have hlen := filter_length_add_count key args
  simp only [Nat.zero_add] at a b c e
  unfold strip_cmdline
  simp only [a, b]
  refine ⟨trivial, trivial, ?_, ?_, ?_, ?_⟩
  · intro j hj
    rw [Function.update_noteq (by omega)]
    exact c j hj
  · rw [← a, Function.update_same]
  · intro j hj _
    rw [Function.update_noteq (by omega)]
  · intro j hj
    rw [Function.update_noteq (by omega)]
    exact e j (by omega)

theorem map_range_of_get (f : Argv) (l : List String)
    (h : ∀ j, j < l.length → f j = l.get? j) :
    (List.range l.length).map f = l.map some := by
  apply List.ext_getElem
  · simp
  · intro j h1 h2
    have hj : j < l.length := by simpa using h1
    rw [List.getElem_map, List.getElem_map, List.getElem_range, h j hj]
    exact List.get?_eq_get hj

/-- C18: for every argument list `args` held in the first `argc` slots of
`argv` and every `key`, after `strip_cmdline` the slots `argv[0 .. argc')` are
exactly the arguments that differ from `key`, in their order; `argv[argc']` is
`NULL`; the value returned is the number of arguments equal to `key`;
`argc' + value = argc`; the slots above `argc` are untouched; and a second
call with the same key returns `0` and changes neither `argc'` nor the
array. -/
theorem strip_cmdline_filter (args : List String) (argv : Argv) (key : String)
    (hargv : Holds argv args) :
    (List.range (strip_cmdline args.length argv key).2.1).map
        (strip_cmdline args.length argv key).2.2 =
      (args.filter (fun a => a != key)).map some ∧
    (strip_cmdline args.length argv key).2.2 (strip_cmdline args.length argv key).2.1 = none ∧
    (strip_cmdline args.length argv key).1 = args.count key ∧
    (strip_cmdline args.length argv key).2.1 + (strip_cmdline args.length argv key).1 =
      args.length ∧
    (∀ j, args.length < j → (strip_cmdline args.length argv key).2.2 j = argv j) ∧
    strip_cmdline (strip_cmdline args.length argv key).2.1
        (strip_cmdline args.length argv key).2.2 key =
      (0, (strip_cmdline args.length argv key).2.1,
        (strip_cmdline args.length argv key).2.2) := by
  obtain ⟨h1, h2, h3, h4, _, h6⟩ := strip_cmdline_spec args argv key hargv
  have hlen := filter_length_add_count key args
  have hkeep : ∀ x ∈ args.filter (fun a => a != key), (x != key) = true := by
    intro x hx
    exact (List.mem_filter.mp hx).2
  have hff : (args.filter (fun a => a != key)).filter (fun a => a != key) =
      args.filter (fun a => a != key) := List.filter_eq_self.mpr hkeep
  have hcount : (args.filter (fun a => a != key)).count key = 0 := by
    rw [List.count_eq_zero]
    intro hmem
    have := hkeep key hmem
    simp at this
  refine ⟨?_, ?_, h1, ?_, h6, ?_⟩
  · rw [h2]
    exact map_range_of_get _ _ h3
  · rw [h2]
    exact h4
  · rw [h1, h2]
    exact hlen
  · rw [h2]
    obtain ⟨g1, g2, g3, g4, g5, g6⟩ := strip_cmdline_spec (args.filter (fun a => a != key))
      (strip_cmdline args.length argv key).2.2 key h3
    rw [hff] at g2 g3 g4 g5
    rw [hcount] at g1
    have harr : (strip_cmdline (args.filter (fun a => a != key)).length
        (strip_cmdline args.length argv key).2.2 key).2.2 =
        (strip_cmdline args.length argv key).2.2 := by
      funext j
      rcases Nat.lt_trichotomy j (args.filter (fun a => a != key)).length with hj | hj | hj
      · rw [g3 j hj, h3 j hj]
      · rw [hj, g4, h4]
      · exact g6 j hj
    exact Prod.ext g1 (Prod.ext g2 harr)

/-- Witness for C18: the arguments `demo_args` and the key `--tpp`. -/
theorem strip_cmdline_filter_witness :
    (List.range (strip_cmdline demo_args.length (argv_of demo_args) "--tpp").2.1).map
        (strip_cmdline demo_args.length (argv_of demo_args) "--tpp").2.2 =
      (demo_args.filter (fun a => a != "--tpp")).map some ∧
    (strip_cmdline demo_args.length (argv_of demo_args) "--tpp").2.2
      (strip_cmdline demo_args.length (argv_of demo_args) "--tpp").2.1 = none ∧
    (strip_cmdline demo_args.length (argv_of demo_args) "--tpp").1 =
      demo_args.count "--tpp" ∧
    (strip_cmdline demo_args.length (argv_of demo_args) "--tpp").2.1 +
      (strip_cmdline demo_args.length (argv_of demo_args) "--tpp").1 = demo_args.length ∧
    (∀ j, demo_args.length < j →
      (strip_cmdline demo_args.length (argv_of demo_args) "--tpp").2.2 j =
        argv_of demo_args j) ∧
    strip_cmdline (strip_cmdline demo_args.length (argv_of demo_args) "--tpp").2.1
        (strip_cmdline demo_args.length (argv_of demo_args) "--tpp").2.2 "--tpp" =
      (0, (strip_cmdline demo_args.length (argv_of demo_args) "--tpp").2.1,
        (strip_cmdline demo_args.length (argv_of demo_args) "--tpp").2.2) :=
  strip_cmdline_filter demo_args (argv_of demo_args) "--tpp" (fun _ _ => rfl)

theorem STRIP_CMDLINE_loop_succ {T : Type} (convert : Option String → T) (key : String)
    (k i n : Nat) (val : T) (argv : Argv) :
    STRIP_CMDLINE_loop convert key (k + 1) i n val argv =
      if strcmp_ne (argv i) key then
        STRIP_CMDLINE_loop convert key k (i + 1) (n + 1) val (Function.update argv n (argv i))
      else
        match k with
        | 0 => (n, val, argv)
        | k1 + 1 => STRIP_CMDLINE_loop convert key k1 (i + 2) n (convert (argv (i + 1))) argv := by
  cases k <;> rfl

theorem strip_scan_cons_ne {T : Type} (convert : Option String → T) (key x : String)
    (xs : List String) (val : T) (hx : x ≠ key) :
    strip_scan convert key (x :: xs) val =
      (x :: (strip_scan convert key xs val).1, (strip_scan convert key xs val).2) := by
  cases xs with
  | nil => simp [strip_scan, hx]
  | cons v rest => simp [strip_scan, hx]

theorem strip_scan_key_value {T : Type} (convert : Option String → T) (key v : String)
    (rest : List String) (val : T) :
    strip_scan convert key (key :: v :: rest) val =
      strip_scan convert key rest (convert (some v)) := by
  simp [strip_scan]

theorem strip_scan_key_last {T : Type} (convert : Option String → T) (key : String)
    (val : T) : strip_scan convert key [key] val = ([], val) := by
  simp [strip_scan]

theorem STRIP_CMDLINE_loop_spec {T : Type} (convert : Option String → T) (key : String) :
    ∀ (m : Nat) (todo : List String), todo.length ≤ m →
      ∀ (i n : Nat) (val : T) (argv : Argv), n ≤ i →
      (∀ j, j < todo.length → argv (i + j) = todo.get? j) →
      (STRIP_CMDLINE_loop convert key todo.length i n val argv).1 =
        n + (strip_scan convert key todo val).1.length ∧
      (STRIP_CMDLINE_loop convert key todo.length i n val argv).2.1 =
        (strip_scan convert key todo val).2 ∧
      (∀ j, j < (strip_scan convert key todo val).1.length →
        (STRIP_CMDLINE_loop convert key todo.length i n val argv).2.2 (n + j) =
          (strip_scan convert key todo val).1.get? j) ∧
      (∀ j, j < n → (STRIP_CMDLINE_loop convert key todo.length i n val argv).2.2 j = argv j) ∧
      (∀ j, i + todo.length ≤ j →
        (STRIP_CMDLINE_loop convert key todo.length i n val argv).2.2 j = argv j) := by
  intro m
  induction m with
  | zero =>
    intro todo hlen i n val argv _ _
    have : todo = [] := List.length_eq_zero.mp (Nat.le_zero.mp hlen)
    subst this
    refine ⟨rfl, rfl, ?_, fun _ _ => rfl, fun _ _ => rfl⟩
    intro j hj
    cases hj
  | succ m ih =>
    intro todo hlen i n val argv hni hargs
    cases todo with
    | nil =>
      refine ⟨rfl, rfl, ?_, fun _ _ => rfl, fun _ _ => rfl⟩
      intro j hj
      cases hj
    | cons x xs =>
      have hxs : xs.length ≤ m := by
        simp only [List.length_cons] at hlen
        omega
      have h0 : argv i = some x := hargs 0 (Nat.succ_pos _)
      have hrest : ∀ j, j < xs.length → argv (i + 1 + j) = xs.get? j := by
        intro j hj
        have := hargs (j + 1) (Nat.succ_lt_succ hj)
        rw [show i + 1 + j = i + (j + 1) by omega, this]
        rfl
      rw [List.length_cons, STRIP_CMDLINE_loop_succ, h0, strcmp_ne_some]
      by_cases hx : x = key
      · have hb : (x != key) = false := by simp [hx]
        simp only [hb, Bool.false_eq_true, if_false]
        subst hx
        cases xs with
        | nil =>
          rw [strip_scan_key_last]
          refine ⟨rfl, rfl, ?_, fun _ _ => rfl, fun _ _ => rfl⟩
          intro j hj
          cases hj
        | cons v rest =>
          have h1 : argv (i + 1) = some v := by
            have := hrest 0 (Nat.succ_pos _)
            simpa using this
          have hrest2 : ∀ j, j < rest.length → argv (i + 2 + j) = rest.get? j := by
            intro j hj
            have := hrest (j + 1) (Nat.succ_lt_succ hj)
            rw [show i + 2 + j = i + 1 + (j + 1) by omega, this]
            rfl
          have hr : rest.length ≤ m := by
            simp only [List.length_cons] at hxs
            omega
          obtain ⟨a, b, c, d, e⟩ := ih rest hr (i + 2) n (convert (some v)) argv (by omega)
            hrest2
          rw [strip_scan_key_value, List.length_cons]
          simp only [h1]
          refine ⟨a, b, c, d, ?_⟩
          intro j hj
          exact e j (by omega)
      · have hb : (x != key) = true := by simp [hx]
        simp only [hb, if_true]
        have hrest1 : ∀ j, j < xs.length →
            Function.update argv n (some x) (i + 1 + j) = xs.get? j := by
          intro j hj
          rw [Function.update_noteq (by omega)]
          exact hrest j hj
        obtain ⟨a, b, c, d, e⟩ := ih xs hxs (i + 1) (n + 1) val
          (Function.update argv n (some x)) (by omega) hrest1
        rw [strip_scan_cons_ne convert key x xs val hx]
        refine ⟨by rw [a]; simp only [List.length_cons]; omega, b, ?_, ?_, ?_⟩
        · intro j hj
          cases j with
          | zero =>
            have hd := d n (by omega)
            rw [Function.update_same] at hd
            simpa using hd
          | succ j =>
            have := c j (by simp only [List.length_cons] at hj; omega)
            rw [show n + (j + 1) = n + 1 + j by omega, this]
            rfl
        · intro j hj
          rw [d j (by omega), Function.update_noteq (by omega)]
        · intro j hj
          rw [e j (by omega), Function.update_noteq (by omega)]

theorem strip_scan_no_value {T : Type} (convert : Option String → T) (key : String) :
    ∀ (args : List String) (val : T), key ∉ args.dropLast →
      strip_scan convert key args val = (args.filter (fun a => a != key), val) := by
  intro args
  induction args with
  | nil =>
    intro val _
    rfl
  | cons x xs ih =>
    intro val hk
    cases xs with
    | nil =>
      by_cases hx : x = key
      · subst hx
        simp [strip_scan]
      · simp [strip_scan, hx]
    | cons v rest =>
      have hx : x ≠ key := by
        intro h
        apply hk
        rw [List.dropLast_cons₂, h]
        exact List.mem_cons_self _ _
      have hrest : key ∉ (v :: rest).dropLast := by
        intro h
        apply hk
        rw [List.dropLast_cons₂]
        exact List.mem_cons_of_mem _ h
      rw [strip_scan_cons_ne convert key x (v :: rest) val hx, ih val hrest]
      simp [List.filter_cons, hx]

theorem strip_scan_append {T : Type} (convert : Option String → T) (key : String) :
    ∀ (m : Nat) (xs : List String), xs.length ≤ m → aligned key xs = true →
      ∀ (ys : List String) (val : T),
      strip_scan convert key (xs ++ ys) val =
        ((strip_scan convert key xs val).1 ++
            (strip_scan convert key ys (strip_scan convert key xs val).2).1,
          (strip_scan convert key ys (strip_scan convert key xs val).2).2) := by
  intro m
  induction m with
  | zero =>
    intro xs hlen _ ys val
    have : xs = [] := List.length_eq_zero.mp (Nat.le_zero.mp hlen)
    subst this
    rfl
  | succ m ih =>
    intro xs hlen hal ys val
    cases xs with
    | nil => rfl
    | cons x xs =>
      cases xs with
      | nil =>
        have hx : x ≠ key := by
          simpa [aligned] using hal
        rw [List.singleton_append, strip_scan_cons_ne convert key x ys val hx,
          strip_scan_cons_ne convert key x [] val hx]
        rfl
      | cons v rest =>
        by_cases hx : x = key
        · subst hx
          have hal1 : aligned x rest = true := by
            simpa [aligned] using hal
          have hr : rest.length ≤ m := by
            simp only [List.length_cons] at hlen
            omega
          rw [List.cons_append, List.cons_append, strip_scan_key_value,
            strip_scan_key_value, ih rest hr hal1 ys]
        · have hal1 : aligned key (v :: rest) = true := by
            simpa [aligned, hx] using hal
          have hr : (v :: rest).length ≤ m := by
            simp only [List.length_cons] at hlen ⊢
            omega
          rw [List.cons_append, strip_scan_cons_ne convert key x _ val hx,
            strip_scan_cons_ne convert key x _ val hx, ih (v :: rest) hr hal1 ys]
          rfl

theorem strip_scan_length_le {T : Type} (convert : Option String → T) (key : String) :
    ∀ (m : Nat) (xs : List String), xs.length ≤ m → ∀ (val : T),
      (strip_scan convert key xs val).1.length ≤ xs.length := by
  intro m
  induction m with
  | zero =>
    intro xs hlen val
    have : xs = [] := List.length_eq_zero.mp (Nat.le_zero.mp hlen)
    subst this
    exact le_refl _
  | succ m ih =>
    intro xs hlen val
    cases xs with
    | nil => exact le_refl _
    | cons x xs =>
      have hxs : xs.length ≤ m := by
        simp only [List.length_cons] at hlen
        omega
      by_cases hx : x = key
      · subst hx
        cases xs with
        | nil => simp [strip_scan]
        | cons v rest =>
          have hr : rest.length ≤ m := by
            simp only [List.length_cons] at hxs
            omega
          have := ih rest hr (convert (some v))
          rw [strip_scan_key_value]
          simp only [List.length_cons]
          omega
      · rw [strip_scan_cons_ne convert key x xs val hx]
        have := ih xs hxs val
        simp only [List.length_cons]
        omega

/-- C19: for every argument list `args` held in the first `argc` slots of
`argv`, every `key` and default `val`, the body generated by `STRIP_CMDLINE`
(of which `strip_cmdline_int`, `_double` and `_string` are the instances for
`atoi`, `atof` and the identity) returns the value, and leaves in
`argv[0 .. argc')` the arguments, of the left-to-right scan `strip_scan`: an
argument equal to `key` is dropped and the argument after it, if there is one,
is converted to the value and dropped too; the others are kept in order;
`argv[argc']` is `NULL`.  The value is the default when `key` occurs at most
as the last argument; a key at the end of a scan is removed without changing
the value; the value is the converted argument after the last key of the
scan.  An argument consumed as a value is not looked at as a key: for
`key key x` the first `key` takes the second as its value and `x` is kept. -/
theorem STRIP_CMDLINE_scan {T : Type} (convert : Option String → T) (args : List String)
    (argv : Argv) (key : String) (val : T) (hargv : Holds argv args) :
    (STRIP_CMDLINE convert args.length argv key val).1 =
      (strip_scan convert key args val).2 ∧
    (List.range (STRIP_CMDLINE convert args.length argv key val).2.1).map
        (STRIP_CMDLINE convert args.length argv key val).2.2 =
      (strip_scan convert key args val).1.map some ∧
    (STRIP_CMDLINE convert args.length argv key val).2.2
      (STRIP_CMDLINE convert args.length argv key val).2.1 = none ∧
    (∀ j, args.length < j →
      (STRIP_CMDLINE convert args.length argv key val).2.2 j = argv j) ∧
    (∀ atoi : Option String → Int, strip_cmdline_int atoi = STRIP_CMDLINE atoi) ∧
    (∀ atof : Option String → T, strip_cmdline_double atof = STRIP_CMDLINE atof) ∧
    strip_cmdline_string = STRIP_CMDLINE (fun p => p) ∧
    (key ∉ args.dropLast →
      strip_scan convert key args val = (args.filter (fun a => a != key), val)) ∧
    (aligned key args = true →
      strip_scan convert key (args ++ [key]) val = strip_scan convert key args val) ∧
    (∀ v post, aligned key args = true → key ∉ post →
      strip_scan convert key (args ++ key :: v :: post) val =
        ((strip_scan convert key args val).1 ++ post, convert (some v))) ∧
    (∀ x, x ≠ key →
      strip_scan convert key [key, key, x] val = ([x], convert (some key))) := by
  obtain ⟨a, b, c, _, e⟩ := STRIP_CMDLINE_loop_spec convert key args.length args (le_refl _)
    0 0 val argv (le_refl _) (fun j hj => by rw [Nat.zero_add]; exact hargv j hj)
  simp only [Nat.zero_add] at a c e
  have hfst : (STRIP_CMDLINE convert args.length argv key val).1 =
      (STRIP_CMDLINE_loop convert key args.length 0 0 val argv).2.1 := rfl
  have hn : (STRIP_CMDLINE convert args.length argv key val).2.1 =
      (strip_scan convert key args val).1.length := a
  have harr : ∀ j, (STRIP_CMDLINE convert args.length argv key val).2.2 j =
      Function.update (STRIP_CMDLINE_loop convert key args.length 0 0 val argv).2.2
        (strip_scan convert key args val).1.length none j := by
    intro j
    show Function.update (STRIP_CMDLINE_loop convert key args.length 0 0 val argv).2.2
      (STRIP_CMDLINE_loop convert key args.length 0 0 val argv).1 none j = _
    rw [a]
  have hscanlen : (strip_scan convert key args val).1.length ≤ args.length :=
    strip_scan_length_le convert key args.length args (le_refl _) val
  refine ⟨by rw [hfst, b], ?_, ?_, ?_, fun _ => rfl, fun _ => rfl, rfl,
    strip_scan_no_value convert key args val, ?_, ?_, ?_⟩
  · rw [hn]
    apply map_range_of_get
    intro j hj
    rw [harr, Function.update_noteq (by omega)]
    exact c j hj
  · rw [hn, harr, Function.update_same]
  · intro j hj
    rw [harr, Function.update_noteq (by omega)]
    exact e j (by omega)
  · intro hal
    rw [strip_scan_append convert key args.length args (le_refl _) hal [key] val,
      strip_scan_key_last]
    simp
  · intro v post hal hpost
    rw [strip_scan_append convert key args.length args (le_refl _) hal _ val,
      strip_scan_key_value, strip_scan_no_value convert key post _
        (fun h => hpost (List.mem_of_mem_dropLast h))]
    have hf : post.filter (fun a => a != key) = post := by
      apply List.filter_eq_self.mpr
      intro x hx
      have : x ≠ key := fun h => hpost (h ▸ hx)
      simp [this]
    rw [hf]
  · intro x hx
    rw [strip_scan_key_value]
    simp [strip_scan, hx]

/-- Witness for C19: `strip_cmdline_string` on the arguments `demo_args` with
the key `--tpp` and a null default. -/
theorem STRIP_CMDLINE_scan_witness :
    (STRIP_CMDLINE (fun p => p) demo_args.length (argv_of demo_args) "--tpp" none).1 =
      (strip_scan (fun p => p) "--tpp" demo_args none).2 ∧
    (List.range (STRIP_CMDLINE (fun p => p) demo_args.length (argv_of demo_args) "--tpp" none).2.1).map
        (STRIP_CMDLINE (fun p => p) demo_args.length (argv_of demo_args) "--tpp" none).2.2 =
      (strip_scan (fun p => p) "--tpp" demo_args none).1.map some ∧
    (STRIP_CMDLINE (fun p => p) demo_args.length (argv_of demo_args) "--tpp" none).2.2
      (STRIP_CMDLINE (fun p => p) demo_args.length (argv_of demo_args) "--tpp" none).2.1 = none ∧
    (∀ j, demo_args.length < j →
      (STRIP_CMDLINE (fun p => p) demo_args.length (argv_of demo_args) "--tpp" none).2.2 j = (argv_of demo_args) j) ∧
    (∀ atoi : Option String → Int, strip_cmdline_int atoi = STRIP_CMDLINE atoi) ∧
    (∀ atof : Option String → Option String, strip_cmdline_double atof = STRIP_CMDLINE atof) ∧
    strip_cmdline_string = STRIP_CMDLINE (fun p => p) ∧
    ("--tpp" ∉ demo_args.dropLast →
      strip_scan (fun p => p) "--tpp" demo_args none = (demo_args.filter (fun a => a != "--tpp"), none)) ∧
    (aligned "--tpp" demo_args = true →
      strip_scan (fun p => p) "--tpp" (demo_args ++ ["--tpp"]) none = strip_scan (fun p => p) "--tpp" demo_args none) ∧
    (∀ v post, aligned "--tpp" demo_args = true → "--tpp" ∉ post →
      strip_scan (fun p => p) "--tpp" (demo_args ++ "--tpp" :: v :: post) none =
        ((strip_scan (fun p => p) "--tpp" demo_args none).1 ++ post, (fun p => p) (some v))) ∧
    (∀ x, x ≠ "--tpp" →
      strip_scan (fun p => p) "--tpp" ["--tpp", "--tpp", x] none = ([x], (fun p => p) (some "--tpp"))) :=
  STRIP_CMDLINE_scan (fun p => p) demo_args (argv_of demo_args) "--tpp" none
    (fun _ _ => rfl)

/-! ## The message buffer of `detect_old_style_arguments` -/

/-- C20, the code at the failing input.  For the key `-tpp` the message of
line 119 takes 62 bytes with its NUL and fits the 64 bytes of
`output_message`.  For the key `-restore` it takes 70 bytes, so `sprintf`
writes 6 bytes beyond the buffer; an argument list with the argument
`-restore` reaches that `sprintf`. -/
theorem restore_message_exceeds_buffer :
    sprintf_size (prefix_message "-tpp") = 62 ∧
    sprintf_size (prefix_message "-restore") = 70 ∧
    output_message_size = 64 ∧
    ¬ sprintf_size (prefix_message "-restore") ≤ output_message_size ∧
    detect_old_style_arguments ["vpic", "-restore"] =
      Detected.aborted
        { message := "Aborting. Single dashed flag -restore is invalid (needs \x27--restore\x27).",
          written := 70 } 0 := by
  refine ⟨by decide, by decide, rfl, by decide, by decide⟩

end Vpic
